import Mathlib

/-!
WhirlyGlobe frame composer: `SceneRendererES2::render`.

A shallow embedding of `common/WhirlyGlobeLib/src/SceneRendererES2.cpp`.

* Matrices are 4×4 over `ℚ` (exact arithmetic), so `Matrix4dToMatrix4f` is the
  identity and `Matrix4f`/`Matrix4d` coincide.
* Eigen's `inverse()` is a library routine outside the sources; it is the
  parameter `inv` wherever the code calls it.
* Every OpenGL call and every call into a collaborator (drawable, scene, view,
  render target, presentation hooks) is logged, in program order, as an `Event`.
  The OpenGL state at a point of the frame is the replay (`glAfter`) of the
  events logged before it.
* `std::sort` is modelled by its contract (`StdSortResult`): the output is a
  permutation of the input in which no later element is ordered before an
  earlier one by the comparator.
-/

namespace WhirlyKit

/-! ## Data model -/

/-- Handles (`SimpleIdentity`) are unsigned integers. -/
abbrev SimpleIdentity := Nat

/-- Modelled from the spec: the null/empty handle `EmptyIdentity`, declared outside the
listed sources. No theorem depends on its value. -/
def EmptyIdentity : SimpleIdentity := 0

/-- Exact 4×4 matrices standing for `Eigen::Matrix4d` and `Eigen::Matrix4f`. -/
abbrev Matrix4d := Matrix (Fin 4) (Fin 4) ℚ

/-- The conversion `Matrix4dToMatrix4f`; exact arithmetic makes it the identity. -/
def Matrix4dToMatrix4f (m : Matrix4d) : Matrix4d := m

/-- An `OpenGLES2Program` as far as `render` looks at it. -/
structure OpenGLES2Program where
  /-- `getProgram()`: the GL program name. -/
  glProgram : Nat
  /-- `hasLights()`. -/
  hasLights : Bool
deriving DecidableEq, Repr

/-- The fields of `RendererFrameInfo` that `render` writes after the frame context is
built. The remaining fields (time, lights, sizes, eye vectors) are written once and
never again during the frame. -/
structure RendererFrameInfo where
  viewTrans4d : Matrix4d
  modelTrans4d : Matrix4d
  projMat4d : Matrix4d
  mvpMat : Matrix4d
  mvpInvMat : Matrix4d
  mvpNormalMat : Matrix4d
  viewModelNormalMat : Matrix4d
  viewAndModelMat : Matrix4d
  viewAndModelMat4d : Matrix4d
  pvMat : Matrix4d
  pvMat4d : Matrix4d
  offsetMatrices : List Matrix4d
  /-- The field `program`; `none` is the null pointer. -/
  program : Option OpenGLES2Program

/-- The `Drawable` capability interface as `render` uses it. The class itself is outside
the listed sources; each field is the result of the named virtual method. -/
structure Drawable where
  /-- Object identity (the pointer). -/
  ident : Nat
  /-- `isOn(frameInfo)`. -/
  isOn : RendererFrameInfo → Bool
  /-- `hasAlpha(frameInfo)`. -/
  hasAlpha : RendererFrameInfo → Bool
  /-- `getDrawPriority()`. -/
  drawPriority : Int
  /-- `getRequestZBuffer()`. -/
  requestZBuffer : Bool
  /-- `getWriteZbuffer()`. -/
  writeZbuffer : Bool
  /-- `getProgram()`. -/
  program : SimpleIdentity
  /-- `getCalculationProgram()`. -/
  calculationProgram : SimpleIdentity
  /-- `getRenderTarget()`. -/
  renderTarget : SimpleIdentity
  /-- `getMatrix()`; `none` is the null pointer. -/
  localMat : Option Matrix4d

/-- Keep track of a drawable and the MVP we are supposed to use with it. -/
structure DrawableContainer where
  drawable : Drawable
  mvpMat : Matrix4d
  mvMat : Matrix4d
  mvNormalMat : Matrix4d

/-! ## Draw order policy -/

/-- The comparator `DrawListSortStruct2::operator()`. -/
def DrawListSortStruct2 (useAlpha useZBuffer : Bool) (frameInfo : RendererFrameInfo)
    (conA conB : DrawableContainer) : Bool :=
  let a := conA.drawable
  let b := conB.drawable
  if useAlpha && (a.hasAlpha frameInfo != b.hasAlpha frameInfo) then
    !a.hasAlpha frameInfo
  else if a.drawPriority == b.drawPriority && useZBuffer
      && (a.requestZBuffer != b.requestZBuffer) then
    !a.requestZBuffer
  else
    decide (a.drawPriority < b.drawPriority)

/-- The contract of `std::sort(first, last, comp)`: the result is a rearrangement of the
input in which no element is ordered by `comp` before an element that precedes it. -/
def StdSortResult {α : Type} (comp : α → α → Bool) (input output : List α) : Prop :=
  output.Perm input ∧ output.Pairwise (fun x y => comp y x = false)

/-- A reference sort meeting the contract of `std::sort`: insertion sort placing each
element before the first one that is not ordered before it. -/
def stdSort {α : Type} (comp : α → α → Bool) (l : List α) : List α :=
  l.insertionSort (fun x y => comp y x = false)

/-- The sort key in the spec's words: alpha status (if alpha-partitioning is enabled),
then draw priority, then z-buffer request (if the z-buffer tie-break is enabled), compared
lexicographically. -/
def sortKey (useAlpha useZBuffer : Bool) (frameInfo : RendererFrameInfo)
    (c : DrawableContainer) : Bool ×ₗ Int ×ₗ Bool :=
  toLex (useAlpha && c.drawable.hasAlpha frameInfo,
    toLex (c.drawable.drawPriority, useZBuffer && c.drawable.requestZBuffer))

/-! ## Renderer, scene and view -/

/-- The global z-buffer mode. -/
inductive ZBufferMode where
  | zBufferOn
  | zBufferOff
  | zBufferOffDefault
deriving DecidableEq, Repr

/-- The OpenGL capabilities `render` enables or disables. -/
inductive GLCap where
  | GL_BLEND
  | GL_DEPTH_TEST
  | GL_CULL_FACE
  | GL_RASTERIZER_DISCARD
deriving DecidableEq, Repr

/-- The OpenGL depth comparison functions. -/
inductive GLDepthFunc where
  | GL_NEVER
  | GL_LESS
  | GL_EQUAL
  | GL_LEQUAL
  | GL_GREATER
  | GL_NOTEQUAL
  | GL_GEQUAL
  | GL_ALWAYS
deriving DecidableEq, Repr

/-- An 8-bit RGBA colour. -/
structure RGBAColor where
  r : Nat
  g : Nat
  b : Nat
  a : Nat
deriving DecidableEq, Repr

/-- The result of `RGBAColor::asUnitFloats`: the channels scaled to the unit interval. -/
def RGBAColor.asUnitFloats (c : RGBAColor) : List ℚ :=
  [(c.r : ℚ) / 255, (c.g : ℚ) / 255, (c.b : ℚ) / 255, (c.a : ℚ) / 255]

/-- A render target as `SceneRendererES2` uses it. -/
structure RenderTarget where
  /-- `getId()`. -/
  id : SimpleIdentity
  clearEveryFrame : Bool
  clearOnce : Bool
  isSetup : Bool
  clearColor : List ℚ
deriving DecidableEq

/-- The scene as `render` queries it. -/
structure Scene where
  /-- `hasChanges(now)`. -/
  hasChanges : Bool
  /-- `getOverlapMargin()`. -/
  overlapMargin : ℚ
  /-- The active models, by identity. -/
  activeModels : List Nat
  /-- `getDrawables()`, in iteration order, as it stands once the changes are merged. -/
  drawables : List Drawable
  /-- `getProgram(id)`; `none` is the null pointer. -/
  getProgram : SimpleIdentity → Option OpenGLES2Program

/-- The view as `render` queries it. -/
structure View where
  /-- Whether the dynamic cast to `Maply::MapView` succeeds. -/
  isMapView : Bool
  /-- `calcModelMatrix()`. -/
  calcModelMatrix : Matrix4d
  /-- `calcViewMatrix()`. -/
  calcViewMatrix : Matrix4d
  /-- `calcProjectionMatrix(frameSize, 0.0)`. -/
  calcProjectionMatrix : Int × Int → Matrix4d
  /-- `getOffsetMatrices(_, frameSize, overlapMarginX)`. -/
  getOffsetMatrices : Int × Int → ℚ → List Matrix4d

/-- The renderer state that `render` and the setters read or write. -/
structure SceneRendererES2 where
  scene : Option Scene
  theView : Option View
  frameCount : Nat
  framebufferWidth : Int
  framebufferHeight : Int
  extraFrameMode : Bool
  extraFrameDrawn : Bool
  lastDraw : ℚ
  perfInterval : Int
  zBufferMode : ZBufferMode
  sortAlphaToEnd : Bool
  depthBufferOffForAlpha : Bool
  renderTargets : List RenderTarget
  /-- `lights.size()`. -/
  numLights : Nat
  /-- `viewDidChange()`. -/
  viewDidChange : Bool
  contRenderRequests : List SimpleIdentity
  clearColor : RGBAColor

/-- The ways `render` can leave defined behaviour. -/
inductive Fault where
  /-- `theView` is dereferenced while null. -/
  | nullView
  /-- `renderTargets[0]` is read while the list is empty. -/
  | renderTargetIndex
deriving DecidableEq, Repr

/-! ## Effects -/

/-- Every OpenGL call and collaborator call `render` makes. -/
inductive Event where
  /-- `glBlendFunc(GL_ONE, GL_ONE_MINUS_SRC_ALPHA)`. -/
  | glBlendFunc
  | glEnable (cap : GLCap)
  | glDisable (cap : GLCap)
  | glDepthMask (flag : Bool)
  | glDepthFunc (func : GLDepthFunc)
  | glUseProgram (program : Nat)
  /-- `glClear(GL_COLOR_BUFFER_BIT | GL_DEPTH_BUFFER_BIT)`. -/
  | glClear
  /-- `glInvalidateFramebuffer(GL_FRAMEBUFFER, 1, {GL_DEPTH_ATTACHMENT})`. -/
  | glInvalidateFramebuffer
  /-- `renderTarget->setActiveFramebuffer(this)`. -/
  | setActiveFramebuffer (target : SimpleIdentity)
  /-- `program->setLights(lights, lightsLastUpdated, &defaultMat, currentMvpMat)`. -/
  | setLights (program : OpenGLES2Program) (currentMvpMat : Matrix4d)
  /-- `program->setUniform(u_numLightsNameID, (int)lights.size())`. -/
  | setUniformNumLights (program : OpenGLES2Program) (count : Nat)
  /-- `theView->animate()`. -/
  | animate
  /-- `scene->preProcessChanges(theView, this, now)`. -/
  | preProcessChanges
  /-- `activeModel->updateForFrame(&baseFrameInfo)`. -/
  | updateForFrame (activeModel : Nat)
  /-- `scene->processChanges(theView, this, now)`. -/
  | processChanges
  /-- `drawable->runTweakers(&baseFrameInfo)`. -/
  | runTweakers (drawable : Drawable) (frameInfo : RendererFrameInfo)
  /-- `drawable->calculate(&baseFrameInfo, scene)`. -/
  | calculate (drawable : Drawable) (frameInfo : RendererFrameInfo)
  /-- `drawable->draw(&baseFrameInfo, scene)`. -/
  | draw (drawable : Drawable) (frameInfo : RendererFrameInfo)
  | presentRender
  | snapshotCallback

/-- The part of the OpenGL state that `render` sets. -/
structure GLState where
  blend : Bool
  depthTest : Bool
  cullFace : Bool
  rasterizerDiscard : Bool
  depthMask : Bool
  depthFunc : GLDepthFunc
  program : Nat
deriving DecidableEq, Repr

/-- Set one capability. -/
def GLState.setCap (gl : GLState) (cap : GLCap) (enabled : Bool) : GLState :=
  match cap with
  | .GL_BLEND => { gl with blend := enabled }
  | .GL_DEPTH_TEST => { gl with depthTest := enabled }
  | .GL_CULL_FACE => { gl with cullFace := enabled }
  | .GL_RASTERIZER_DISCARD => { gl with rasterizerDiscard := enabled }

/-- The effect of one logged event on the OpenGL state. Collaborator calls leave the
state that `render` manages alone. -/
def GLState.apply (gl : GLState) : Event → GLState
  | .glEnable cap => gl.setCap cap true
  | .glDisable cap => gl.setCap cap false
  | .glDepthMask flag => { gl with depthMask := flag }
  | .glDepthFunc func => { gl with depthFunc := func }
  | .glUseProgram program => { gl with program := program }
  | _ => gl

/-- The OpenGL state after a sequence of events, starting from `gl`. -/
def glAfter (gl : GLState) (trace : List Event) : GLState :=
  trace.foldl GLState.apply gl

/-- The local state of one call of `render` from the frame context onward. -/
structure FrameState where
  baseFrameInfo : RendererFrameInfo
  /-- The last program handle looked up by the target loop. -/
  curProgramId : SimpleIdentity
  /-- The flag `depthMaskOn`, local to one render-target pass. -/
  depthMaskOn : Bool
  /-- The counter `numDrawables`. -/
  numDrawables : Nat
  /-- The events so far, oldest first. -/
  trace : List Event

/-- Log one event. -/
def FrameState.emit (st : FrameState) (ev : Event) : FrameState :=
  { st with trace := st.trace ++ [ev] }

/-! ## Setters -/

/-- The method `forceRenderSetup`. -/
def forceRenderSetup (r : SceneRendererES2) : SceneRendererES2 :=
  { r with renderTargets := r.renderTargets.map (fun t => { t with isSetup := false }) }

/-- The method `setClearColor`: the colour goes to the last render target. -/
def setClearColor (r : SceneRendererES2) (color : RGBAColor) : SceneRendererES2 :=
  match r.renderTargets.getLast? with
  | none => r
  | some defaultTarget =>
    let defaultTarget := { defaultTarget with clearColor := color.asUnitFloats }
    forceRenderSetup
      { r with
        renderTargets := r.renderTargets.dropLast ++ [defaultTarget]
        clearColor := color }

/-- The method `processScene`, as the events it causes. -/
def processScene (r : SceneRendererES2) : List Event :=
  match r.scene with
  | none => []
  | some _ => [Event.processChanges]

/-- The method `hasChanges`, for a scene that is present. -/
def hasChanges (r : SceneRendererES2) (scene : Scene) : Bool :=
  scene.hasChanges || r.viewDidChange || !r.contRenderRequests.isEmpty

/-! ## Frame pipeline -/

/-- The frame context `baseFrameInfo` that `render` builds from the view. The constructor
of `RendererFrameInfo` is outside the listed sources; `program` starts as the null
pointer. -/
def buildBaseFrameInfo (inv : Matrix4d → Matrix4d) (theView : View) (scene : Scene)
    (framebufferWidth framebufferHeight : Int) : RendererFrameInfo :=
  let overlapMarginX : ℚ := if theView.isMapView then scene.overlapMargin else 0
  let modelTrans4d := theView.calcModelMatrix
  let modelTrans := Matrix4dToMatrix4f modelTrans4d
  let viewTrans4d := theView.calcViewMatrix
  let viewTrans := Matrix4dToMatrix4f viewTrans4d
  let frameSize := (framebufferWidth, framebufferHeight)
  let projMat4d := theView.calcProjectionMatrix frameSize
  let projMat := Matrix4dToMatrix4f projMat4d
  let modelAndViewMat := viewTrans * modelTrans
  let modelAndViewMat4d := viewTrans4d * modelTrans4d
  let pvMat := projMat4d * viewTrans4d
  let mvpMat := projMat * modelAndViewMat
  let mvpNormalMat4f := (inv mvpMat).transpose
  let modelAndViewNormalMat4d := (inv modelAndViewMat4d).transpose
  let modelAndViewNormalMat := Matrix4dToMatrix4f modelAndViewNormalMat4d
  { viewTrans4d := viewTrans4d
    modelTrans4d := modelTrans4d
    projMat4d := projMat4d
    mvpMat := mvpMat
    mvpInvMat := inv mvpMat
    mvpNormalMat := mvpNormalMat4f
    viewModelNormalMat := modelAndViewNormalMat
    viewAndModelMat := modelAndViewMat
    viewAndModelMat4d := modelAndViewMat4d
    pvMat := Matrix4dToMatrix4f pvMat
    pvMat4d := pvMat
    offsetMatrices := theView.getOffsetMatrices frameSize overlapMarginX
    program := none }

/-- The frame context `offFrameInfo` of one offset matrix: a copy of `baseFrameInfo` with
the composites of that offset. -/
def offsetFrameInfo (inv : Matrix4d → Matrix4d) (projMat4d viewTrans4d modelTrans4d : Matrix4d)
    (baseFrameInfo : RendererFrameInfo) (offsetMat : Matrix4d) : RendererFrameInfo :=
  let modelAndViewMat4d := viewTrans4d * offsetMat * modelTrans4d
  let pvMat := projMat4d * viewTrans4d * offsetMat
  let modelAndViewMat := Matrix4dToMatrix4f modelAndViewMat4d
  let mvpMat := projMat4d * modelAndViewMat4d
  let mvpInvMat := inv mvpMat
  let modelAndViewNormalMat4d := (inv modelAndViewMat4d).transpose
  let modelAndViewNormalMat := Matrix4dToMatrix4f modelAndViewNormalMat4d
  { baseFrameInfo with
    mvpMat := Matrix4dToMatrix4f mvpMat
    mvpInvMat := Matrix4dToMatrix4f mvpInvMat
    mvpNormalMat := Matrix4dToMatrix4f (inv mvpMat).transpose
    viewModelNormalMat := modelAndViewNormalMat
    viewAndModelMat4d := modelAndViewMat4d
    viewAndModelMat := modelAndViewMat
    pvMat := Matrix4dToMatrix4f pvMat
    pvMat4d := pvMat }

/-- The container pushed for one active drawable under one offset matrix. -/
def makeContainer (inv : Matrix4d → Matrix4d) (projMat4d viewTrans4d modelTrans4d : Matrix4d)
    (offsetMat : Matrix4d) (theDrawable : Drawable) : DrawableContainer :=
  match theDrawable.localMat with
  | some localMat =>
    let newMvpMat := projMat4d * viewTrans4d * offsetMat * modelTrans4d * localMat
    let newMvMat := viewTrans4d * offsetMat * modelTrans4d * localMat
    let newMvNormalMat := (inv newMvMat).transpose
    ⟨theDrawable, newMvpMat, newMvMat, newMvNormalMat⟩
  | none =>
    let modelAndViewMat4d := viewTrans4d * offsetMat * modelTrans4d
    let thisMvpMat := projMat4d * modelAndViewMat4d
    let modelAndViewNormalMat4d := (inv modelAndViewMat4d).transpose
    ⟨theDrawable, thisMvpMat, modelAndViewMat4d, modelAndViewNormalMat4d⟩

/-- The inner loop of the collector: the containers of one offset matrix. -/
def collectForOffset (inv : Matrix4d → Matrix4d) (projMat4d viewTrans4d modelTrans4d : Matrix4d)
    (baseFrameInfo : RendererFrameInfo) (rawDrawables : List Drawable)
    (offsetMat : Matrix4d) : List DrawableContainer :=
  let offFrameInfo :=
    offsetFrameInfo inv projMat4d viewTrans4d modelTrans4d baseFrameInfo offsetMat
  rawDrawables.filterMap (fun theDrawable =>
    if theDrawable.isOn offFrameInfo then
      some (makeContainer inv projMat4d viewTrans4d modelTrans4d offsetMat theDrawable)
    else none)

/-- The collector loop of `render`: the draw list before sorting. -/
def collectDrawList (inv : Matrix4d → Matrix4d) (projMat4d viewTrans4d modelTrans4d : Matrix4d)
    (baseFrameInfo : RendererFrameInfo) (offsetMats : List Matrix4d)
    (rawDrawables : List Drawable) : List DrawableContainer :=
  offsetMats.flatMap
    (collectForOffset inv projMat4d viewTrans4d modelTrans4d baseFrameInfo rawDrawables)

/-- One iteration of the loop that runs the calculation shaders. -/
def calcInstance (scene : Scene) (st : FrameState) (drawContain : DrawableContainer) :
    FrameState :=
  let calcProgID := drawContain.drawable.calculationProgram
  if calcProgID = EmptyIdentity then st
  else
    let st :=
      match scene.getProgram calcProgID with
      | some program =>
        { st.emit (.glUseProgram program.glProgram) with
          baseFrameInfo := { st.baseFrameInfo with program := some program } }
      | none => st
    let st := st.emit (.runTweakers drawContain.drawable st.baseFrameInfo)
    st.emit (.calculate drawContain.drawable st.baseFrameInfo)

/-- The calculation pre-pass of `render`, run over the sorted draw list. -/
def calcPass (scene : Scene) (renderTargets : List RenderTarget)
    (drawList : List DrawableContainer) (st : FrameState) : Except Fault FrameState :=
  let haveCalcShader :=
    drawList.any (fun c => decide (c.drawable.calculationProgram ≠ EmptyIdentity))
  if haveCalcShader then
    match renderTargets with
    | [] => .error .renderTargetIndex
    | target0 :: _ =>
      let st := st.emit (.setActiveFramebuffer target0.id)
      let st := st.emit (.glEnable .GL_RASTERIZER_DISCARD)
      let st := drawList.foldl (calcInstance scene) st
      .ok (st.emit (.glDisable .GL_RASTERIZER_DISCARD))
  else .ok st

/-- The depth state handling at the head of one iteration of the inner loop of the
render-target loop. -/
def depthPolicy (r : SceneRendererES2) (st : FrameState) (drawContain : DrawableContainer) :
    FrameState :=
  -- The first time we hit an explicitly alpha drawable turn off the depth buffer
  let st :=
    if r.depthBufferOffForAlpha && !(r.zBufferMode == .zBufferOffDefault) then
      if st.depthMaskOn && r.depthBufferOffForAlpha
          && drawContain.drawable.hasAlpha st.baseFrameInfo then
        { st with depthMaskOn := false }.emit (.glDisable .GL_DEPTH_TEST)
      else st
    else st
  -- For this mode we turn the z buffer off until we get a request to turn it on
  let st :=
    if r.zBufferMode == .zBufferOffDefault then
      if drawContain.drawable.requestZBuffer then
        { st.emit (.glDepthFunc .GL_LESS) with depthMaskOn := true }
      else st.emit (.glDepthFunc .GL_ALWAYS)
    else st
  -- If we're drawing lines or points we don't want to update the z buffer
  if r.zBufferMode != .zBufferOff then
    if drawContain.drawable.writeZbuffer then st.emit (.glDepthMask true)
    else st.emit (.glDepthMask false)
  else st

/-- Set up transforms to use right now: the instance's matrices go into `baseFrameInfo`. -/
def setTransforms (inv : Matrix4d → Matrix4d) (st : FrameState)
    (drawContain : DrawableContainer) : FrameState :=
  let currentMvpMat := Matrix4dToMatrix4f drawContain.mvpMat
  let currentMvpInvMat := Matrix4dToMatrix4f (inv drawContain.mvpMat)
  let currentMvMat := Matrix4dToMatrix4f drawContain.mvMat
  let currentMvNormalMat := Matrix4dToMatrix4f drawContain.mvNormalMat
  { st with
    baseFrameInfo :=
      { st.baseFrameInfo with
        mvpMat := currentMvpMat
        mvpInvMat := currentMvpInvMat
        viewAndModelMat := currentMvMat
        viewModelNormalMat := currentMvNormalMat } }

/-- Figure out the program to use for drawing: look the handle up and bind the program
when the handle differs from the last one looked up. -/
def selectProgram (r : SceneRendererES2) (scene : Scene) (st : FrameState)
    (drawContain : DrawableContainer) : FrameState :=
  let currentMvpMat := Matrix4dToMatrix4f drawContain.mvpMat
  let drawProgramId := drawContain.drawable.program
  if drawProgramId != st.curProgramId then
    let st := { st with curProgramId := drawProgramId }
    match scene.getProgram drawProgramId with
    | some program =>
      let st := st.emit (.glUseProgram program.glProgram)
      -- Assign the lights if we need to
      let st :=
        if program.hasLights && decide (r.numLights > 0) then
          st.emit (.setLights program currentMvpMat)
        else st
      -- Explicitly turn the lights on
      let st := st.emit (.setUniformNumLights program r.numLights)
      { st with baseFrameInfo := { st.baseFrameInfo with program := some program } }
    | none => st
  else st

/-- The two filters and the draw call that end one iteration of the inner loop. -/
def issueDraw (renderTarget : RenderTarget) (st : FrameState)
    (drawContain : DrawableContainer) : FrameState :=
  let drawProgramId := drawContain.drawable.program
  if drawProgramId == EmptyIdentity then st
  -- Only draw drawables that are active for the current render target
  else if drawContain.drawable.renderTarget != renderTarget.id then st
  else
    -- Run any tweakers right here
    let st := st.emit (.runTweakers drawContain.drawable st.baseFrameInfo)
    -- Draw using the given program
    let st := st.emit (.draw drawContain.drawable st.baseFrameInfo)
    { st with numDrawables := st.numDrawables + 1 }

/-- One iteration of the inner loop of the render-target loop. -/
def drawInstance (inv : Matrix4d → Matrix4d) (r : SceneRendererES2) (scene : Scene)
    (renderTarget : RenderTarget) (st : FrameState) (drawContain : DrawableContainer) :
    FrameState :=
  let st := depthPolicy r st drawContain
  let st := setTransforms inv st drawContain
  let st := selectProgram r scene st drawContain
  issueDraw renderTarget st drawContain

/-- The inner loop of one render-target pass over a draw list. -/
def drawInstances (inv : Matrix4d → Matrix4d) (r : SceneRendererES2) (scene : Scene)
    (renderTarget : RenderTarget) (st : FrameState) (drawList : List DrawableContainer) :
    FrameState :=
  drawList.foldl (drawInstance inv r scene renderTarget) st

/-- The start of one render-target pass: bind the framebuffer, clear if asked to, and
initialise `depthMaskOn`. -/
def beginTargetPass (r : SceneRendererES2) (renderTarget : RenderTarget) (st : FrameState) :
    RenderTarget × FrameState :=
  let st := st.emit (.setActiveFramebuffer renderTarget.id)
  let (renderTarget, st) :=
    if renderTarget.clearEveryFrame || renderTarget.clearOnce then
      ({ renderTarget with clearOnce := false }, st.emit .glClear)
    else (renderTarget, st)
  (renderTarget, { st with depthMaskOn := (r.zBufferMode == .zBufferOn) })

/-- One pass of the render-target loop: the body of `for (renderTarget : renderTargets)`. -/
def targetPass (inv : Matrix4d → Matrix4d) (r : SceneRendererES2) (scene : Scene)
    (drawList : List DrawableContainer) (renderTarget : RenderTarget) (st : FrameState) :
    RenderTarget × FrameState :=
  let (renderTarget, st) := beginTargetPass r renderTarget st
  (renderTarget, drawInstances inv r scene renderTarget st drawList)

/-- The render-target loop. The targets are returned with their `clearOnce` flags as the
loop leaves them. -/
def targetLoop (inv : Matrix4d → Matrix4d) (r : SceneRendererES2) (scene : Scene)
    (drawList : List DrawableContainer) :
    List RenderTarget → FrameState → List RenderTarget × FrameState
  | [], st => ([], st)
  | renderTarget :: rest, st =>
    let (renderTarget, st) := targetPass inv r scene drawList renderTarget st
    let (rest, st) := targetLoop inv r scene drawList rest st
    (renderTarget :: rest, st)

/-- The OpenGL calls of the render setup: blending, the z-buffer mode switch, culling. -/
def frameSetup (zBufferMode : ZBufferMode) : List Event :=
  [.glBlendFunc, .glEnable .GL_BLEND] ++
  (match zBufferMode with
    | .zBufferOn =>
      [.glDepthMask true, .glEnable .GL_DEPTH_TEST, .glDepthFunc .GL_LESS]
    | .zBufferOff =>
      [.glDepthMask false, .glDisable .GL_DEPTH_TEST]
    | .zBufferOffDefault =>
      [.glDepthMask true, .glEnable .GL_DEPTH_TEST, .glDepthFunc .GL_ALWAYS]) ++
  [.glEnable .GL_CULL_FACE]

/-- The part of `render` after the decision to draw: setup, scene processing, collection,
sort, calculation pre-pass, render-target loop and frame completion. `sort` stands for
`std::sort`. Returns the render targets as the frame leaves them, the final local state
and the sorted draw list. -/
def drawFrame (inv : Matrix4d → Matrix4d)
    (sort : (DrawableContainer → DrawableContainer → Bool) →
      List DrawableContainer → List DrawableContainer)
    (r : SceneRendererES2) (scene : Scene) (theView : View) (trace : List Event) :
    Except Fault (List RenderTarget × FrameState) :=
  let modelTrans4d := theView.calcModelMatrix
  let viewTrans4d := theView.calcViewMatrix
  let projMat4d := theView.calcProjectionMatrix (r.framebufferWidth, r.framebufferHeight)
  let baseFrameInfo :=
    buildBaseFrameInfo inv theView scene r.framebufferWidth r.framebufferHeight
  let st : FrameState :=
    { baseFrameInfo := baseFrameInfo
      curProgramId := EmptyIdentity
      depthMaskOn := false
      numDrawables := 0
      trace := trace ++ frameSetup r.zBufferMode }
  -- Run the preprocess for the changes, the active models, then merge the changes
  let st := st.emit .preProcessChanges
  let st := scene.activeModels.foldl (fun st m => st.emit (.updateForFrame m)) st
  let st := st.emit .processChanges
  -- Work through the available offset matrices
  let drawList :=
    collectDrawList inv projMat4d viewTrans4d modelTrans4d baseFrameInfo
      baseFrameInfo.offsetMatrices scene.drawables
  -- Sort the drawables
  let sortLinesToEnd := (r.zBufferMode == .zBufferOffDefault)
  let drawList := sort (DrawListSortStruct2 r.sortAlphaToEnd sortLinesToEnd baseFrameInfo) drawList
  -- Run any calculation shaders
  match calcPass scene r.renderTargets drawList st with
  | .error e => .error e
  | .ok st =>
    let st := { st with curProgramId := EmptyIdentity }
    -- Iterate through rendering targets here
    let (renderTargets, st) := targetLoop inv r scene drawList r.renderTargets st
    -- Explicitly discard the depth buffer, present, snapshot
    let st := st.emit .glInvalidateFramebuffer
    let st := st.emit .presentRender
    let st := st.emit .snapshotCallback
    .ok (renderTargets, st)

/-- The block of `render` that decides whether to draw: `none` when the frame is skipped,
otherwise the renderer with `extraFrameDrawn` updated. -/
def drawDecision (r : SceneRendererES2) (scene : Scene) : Option SceneRendererES2 :=
  if !hasChanges r scene then
    if !r.extraFrameMode then none
    else if r.extraFrameDrawn then none
    else some { r with extraFrameDrawn := true }
  else some { r with extraFrameDrawn := false }

/-- The end of `render`: the frame counter is reset when the frame rate is reported. The
performance timers and the frame-rate report itself are left out. -/
def updateFrameCount (r : SceneRendererES2) : SceneRendererES2 :=
  if r.perfInterval > 0 && decide ((r.frameCount : Int) > r.perfInterval) then
    { r with frameCount := 0 }
  else r

/-- The method `render`. `now` is the clock reading taken after `animate`. The result is
the renderer after the call and the events of the call, or the fault that ends it. -/
def render (inv : Matrix4d → Matrix4d)
    (sort : (DrawableContainer → DrawableContainer → Bool) →
      List DrawableContainer → List DrawableContainer)
    (now : ℚ) (r : SceneRendererES2) : Except Fault (SceneRendererES2 × List Event) :=
  match r.scene with
  | none => .ok (r, [])
  | some scene =>
    let r := { r with frameCount := r.frameCount + 1 }
    if r.framebufferWidth ≤ 0 || r.framebufferHeight ≤ 0 then
      -- Process the scene even if the window isn't up
      .ok (r, processScene r)
    else
      match r.theView with
      | none => .error .nullView
      | some theView =>
        let trace := [Event.animate]
        -- Decide if we even need to draw
        match drawDecision r scene with
        | none => .ok (r, trace)
        | some r =>
          let r := { r with lastDraw := now }
          match drawFrame inv sort r scene theView trace with
          | .error e => .error e
          | .ok (renderTargets, st) =>
            -- Update the frames per sec
            .ok (updateFrameCount { r with renderTargets := renderTargets }, st.trace)

/-! ## Sequences of calls -/

/-- What the surroundings of the renderer provide for one call of `render`: the clock
reading, the scene and the view as they stand at the call, the answer of
`viewDidChange()` and the pending continuous-render requests. -/
structure FrameEnv where
  now : ℚ
  scene : Scene
  theView : View
  viewDidChange : Bool
  contRenderRequests : List SimpleIdentity

/-- The renderer as one call of `render` finds it: scene and view attached, the change
inputs as the surroundings give them, everything else as the previous call left it. -/
def FrameEnv.apply (env : FrameEnv) (r : SceneRendererES2) : SceneRendererES2 :=
  { r with
    scene := some env.scene
    theView := some env.theView
    viewDidChange := env.viewDidChange
    contRenderRequests := env.contRenderRequests }

/-- Whether `hasChanges()` answers true in a call made under `env`. -/
def FrameEnv.changed (env : FrameEnv) : Bool :=
  env.scene.hasChanges || env.viewDidChange || !env.contRenderRequests.isEmpty

/-- A sequence of calls of `render`, one per entry of `envs`, each on the renderer the
previous call left. The result holds the events of each call. -/
def renderSeq (inv : Matrix4d → Matrix4d)
    (sort : (DrawableContainer → DrawableContainer → Bool) →
      List DrawableContainer → List DrawableContainer) :
    List FrameEnv → SceneRendererES2 → Except Fault (SceneRendererES2 × List (List Event))
  | [], r => .ok (r, [])
  | env :: envs, r =>
    match render inv sort env.now (env.apply r) with
    | .error e => .error e
    | .ok (r, trace) =>
      match renderSeq inv sort envs r with
      | .error e => .error e
      | .ok (r, traces) => .ok (r, trace :: traces)

/-- Whether an event is the present hook. -/
def Event.isPresent : Event → Bool
  | .presentRender => true
  | _ => false

/-- Whether a call drew a frame: its events include the present hook. -/
def frameDrawn (trace : List Event) : Bool :=
  trace.any Event.isPresent

/-- The number of clears (`glClear`) in a trace. -/
def clearCalls : List Event → Nat
  | [] => 0
  | .glClear :: rest => clearCalls rest + 1
  | _ :: rest => clearCalls rest

/-! ## Observations on a trace -/

/-- The draw calls of a trace, each with the OpenGL state in force when it is issued,
starting from the state `gl`. -/
def drawStates (gl : GLState) : List Event → List (GLState × Drawable × RendererFrameInfo)
  | [] => []
  | .draw drawable frameInfo :: rest => (gl, drawable, frameInfo) :: drawStates gl rest
  | ev :: rest => drawStates (gl.apply ev) rest

/-- The framebuffer bindings of a trace, each with the OpenGL state in force when it is
made, starting from the state `gl`. In the render-target loop a binding marks the start
of a pass. -/
def bindStates (gl : GLState) : List Event → List (SimpleIdentity × GLState)
  | [] => []
  | .setActiveFramebuffer target :: rest => (target, gl) :: bindStates gl rest
  | ev :: rest => bindStates (gl.apply ev) rest

/-- The instances drawn by a trace: for each draw call, the drawable with the transforms
the frame context carries at the call. -/
def drawnInstances : List Event → List DrawableContainer
  | [] => []
  | .draw drawable frameInfo :: rest =>
    ⟨drawable, frameInfo.mvpMat, frameInfo.viewAndModelMat, frameInfo.viewModelNormalMat⟩
      :: drawnInstances rest
  | _ :: rest => drawnInstances rest

/-- The drawables whose calculation routine a trace invokes, one entry per invocation. -/
def calculateCalls : List Event → List Drawable
  | [] => []
  | .calculate drawable _ :: rest => drawable :: calculateCalls rest
  | _ :: rest => calculateCalls rest

/-- Whether an event is an OpenGL call that touches the depth test, the depth function or
the depth write mask. -/
def Event.isDepthCall : Event → Bool
  | .glEnable .GL_DEPTH_TEST => true
  | .glDisable .GL_DEPTH_TEST => true
  | .glDepthMask _ => true
  | .glDepthFunc _ => true
  | _ => false

/-- Whether an event is a draw call. -/
def Event.isDraw : Event → Bool
  | .draw _ _ => true
  | _ => false

/-- The events a computation added to the trace of the state it started from. -/
def eventsSince (st st' : FrameState) : List Event :=
  st'.trace.drop st.trace.length

/-- The filter of the render-target loop: the instance has a program handle and is meant
for this render target. -/
def drawnInPass (renderTarget : RenderTarget) (c : DrawableContainer) : Bool :=
  decide (c.drawable.program ≠ EmptyIdentity) &&
    decide (c.drawable.renderTarget = renderTarget.id)

/-- Whether an event binds an OpenGL program. -/
def Event.isUseProgram : Event → Bool
  | .glUseProgram _ => true
  | _ => false

/-- The link the render-target loop keeps between the last handle it looked up and the
bound program: when `curProgramId` is not the empty handle, the scene resolves it to a
program, which is the frame context's program and the program bound in OpenGL. -/
def ProgramBound (scene : Scene) (gl : GLState) (st : FrameState) : Prop :=
  st.curProgramId ≠ EmptyIdentity →
    ∃ p, scene.getProgram st.curProgramId = some p ∧ st.baseFrameInfo.program = some p ∧
      (glAfter gl st.trace).program = p.glProgram

/-- What the claim on draw calls asks of one draw call, given with the OpenGL state in
force: the scene resolves the drawable's handle to a program, which is the frame context's
program and the program bound in OpenGL. -/
def DrawsWithOwnProgram (scene : Scene) (x : GLState × Drawable × RendererFrameInfo) : Prop :=
  ∃ p, scene.getProgram x.2.1.program = some p ∧ x.2.2.program = some p ∧
    x.1.program = p.glProgram

/-- The depth function mode OffDefault selects for a drawable: `GL_LESS` when it requests
the z-buffer, `GL_ALWAYS` otherwise. -/
def requestedDepthFunc (d : Drawable) : GLDepthFunc :=
  if d.requestZBuffer then .GL_LESS else .GL_ALWAYS

/-! ## Concrete inputs used by the examples -/

/-- A frame context in which every matrix is the identity and no program is bound. -/
def exampleFrameInfo : RendererFrameInfo :=
  { viewTrans4d := 1, modelTrans4d := 1, projMat4d := 1, mvpMat := 1, mvpInvMat := 1,
    mvpNormalMat := 1, viewModelNormalMat := 1, viewAndModelMat := 1,
    viewAndModelMat4d := 1, pvMat := 1, pvMat4d := 1, offsetMatrices := [1],
    program := none }

/-- A drawable that is always on, draws with program 7 into render target 0 without a
local matrix, and has the given identity, priority, alpha flag, z-buffer request and
calculation program. -/
def exampleDrawable (ident : Nat) (priority : Int) (alpha requestZ : Bool)
    (calcProgram : SimpleIdentity) : Drawable :=
  { ident := ident, isOn := fun _ => true, hasAlpha := fun _ => alpha,
    drawPriority := priority, requestZBuffer := requestZ, writeZbuffer := true,
    program := 7, calculationProgram := calcProgram, renderTarget := 0, localMat := none }

/-- The container of a drawable with identity matrices. -/
def exampleContainer (d : Drawable) : DrawableContainer := ⟨d, 1, 1, 1⟩

/-- Scenario instance A: priority 5, no alpha. -/
def instA : DrawableContainer := exampleContainer (exampleDrawable 1 5 false false 0)

/-- Scenario instance B: priority 5, alpha. -/
def instB : DrawableContainer := exampleContainer (exampleDrawable 2 5 true false 0)

/-- Scenario instance C: priority 1, no alpha. -/
def instC : DrawableContainer := exampleContainer (exampleDrawable 3 1 false false 0)

/-- An alpha instance of priority 5 that does not request the z-buffer. -/
def instAlphaNoZ : DrawableContainer := exampleContainer (exampleDrawable 4 5 true false 0)

/-- A non-alpha instance of priority 5 that requests the z-buffer. -/
def instOpaqueZ : DrawableContainer := exampleContainer (exampleDrawable 5 5 false true 0)

/-- A drawable that is never on. -/
def exampleOffDrawable (ident : Nat) : Drawable :=
  { exampleDrawable ident 0 false false 0 with isOn := fun _ => false }

/-- A drawable carrying a local matrix (the identity). -/
def exampleLocalDrawable (ident : Nat) : Drawable :=
  { exampleDrawable ident 0 false false 0 with localMat := some 1 }

/-- A render target with the given id that is cleared every frame. -/
def exampleTarget (id : SimpleIdentity) : RenderTarget :=
  { id := id, clearEveryFrame := true, clearOnce := false, isSetup := true, clearColor := [] }

/-- A scene with changes pending, the given drawables, and programs for the handles 7
and 9 only. -/
def exampleScene (drawables : List Drawable) : Scene :=
  { hasChanges := true, overlapMargin := 0, activeModels := [], drawables := drawables,
    getProgram := fun id =>
      if id = 7 then some ⟨70, false⟩ else if id = 9 then some ⟨90, false⟩ else none }

/-- An offset matrix: a shift by 2 along x. -/
def exampleShift : Matrix4d := !![1, 0, 0, 2; 0, 1, 0, 0; 0, 0, 1, 0; 0, 0, 0, 1]

/-- A map view with identity matrices and the given offset matrices. -/
def exampleView (offsets : List Matrix4d) : View :=
  { isMapView := true, calcModelMatrix := 1, calcViewMatrix := 1,
    calcProjectionMatrix := fun _ => 1, getOffsetMatrices := fun _ _ => offsets }

/-- A renderer on a 100×100 surface with the given z-buffer mode, alpha policy, scene
drawables, offset matrices and render targets. -/
def exampleRenderer (mode : ZBufferMode) (depthOffForAlpha : Bool) (drawables : List Drawable)
    (offsets : List Matrix4d) (targets : List RenderTarget) : SceneRendererES2 :=
  { scene := some (exampleScene drawables), theView := some (exampleView offsets),
    frameCount := 0, framebufferWidth := 100, framebufferHeight := 100,
    extraFrameMode := false, extraFrameDrawn := false, lastDraw := 0, perfInterval := 0,
    zBufferMode := mode, sortAlphaToEnd := true, depthBufferOffForAlpha := depthOffForAlpha,
    renderTargets := targets, numLights := 1, viewDidChange := false,
    contRenderRequests := [], clearColor := ⟨0, 0, 0, 0⟩ }

/-- The initial OpenGL state: everything disabled, depth writes on, depth function
`GL_LESS`, no program. -/
def exampleGL : GLState :=
  { blend := false, depthTest := false, cullFace := false, rasterizerDiscard := false,
    depthMask := true, depthFunc := .GL_LESS, program := 0 }

/-- An OpenGL state in which the depth test is enabled. -/
def exampleGLDepthOn : GLState := { exampleGL with depthTest := true }

/-- A local state with an empty trace. -/
def exampleState : FrameState :=
  { baseFrameInfo := exampleFrameInfo, curProgramId := EmptyIdentity, depthMaskOn := false,
    numDrawables := 0, trace := [] }

/-- A second instance with the same sort key as `instA` (priority 5, no alpha, no
z-buffer request) on another drawable. -/
def instA2 : DrawableContainer := exampleContainer (exampleDrawable 6 5 false false 0)

/-- Surroundings with the given scene-change flag, no view change and no requests. -/
def exampleEnv (changed : Bool) : FrameEnv :=
  { now := 0, scene := { exampleScene [exampleDrawable 1 0 false false 0] with
      hasChanges := changed },
    theView := exampleView [1], viewDidChange := false, contRenderRequests := [] }

/-! ## Theorems: draw order policy -/

/-- The comparator is the strict lexicographic order of the sort keys. -/
theorem comp_eq_true_iff_sortKey_lt (useAlpha useZBuffer : Bool) (fi : RendererFrameInfo)
    (a b : DrawableContainer) :
    DrawListSortStruct2 useAlpha useZBuffer fi a b = true ↔
      sortKey useAlpha useZBuffer fi a < sortKey useAlpha useZBuffer fi b := by
  unfold DrawListSortStruct2 sortKey
  simp only [Prod.Lex.lt_iff]
  rcases lt_trichotomy a.drawable.drawPriority b.drawable.drawPriority with h | h | h
  · cases useAlpha <;> cases useZBuffer <;>
    cases a.drawable.hasAlpha fi <;> cases b.drawable.hasAlpha fi <;>
    cases a.drawable.requestZBuffer <;> cases b.drawable.requestZBuffer <;>
    simp [h, h.ne]
  · cases useAlpha <;> cases useZBuffer <;>
    cases a.drawable.hasAlpha fi <;> cases b.drawable.hasAlpha fi <;>
    cases a.drawable.requestZBuffer <;> cases b.drawable.requestZBuffer <;>
    simp [h]
  · cases useAlpha <;> cases useZBuffer <;>
    cases a.drawable.hasAlpha fi <;> cases b.drawable.hasAlpha fi <;>
    cases a.drawable.requestZBuffer <;> cases b.drawable.requestZBuffer <;>
    simp [h.ne', lt_asymm h]

/-- The comparator does not order `b` before `a` exactly when the key of `a` is at most
the key of `b`. -/
theorem comp_eq_false_iff_sortKey_le (useAlpha useZBuffer : Bool) (fi : RendererFrameInfo)
    (a b : DrawableContainer) :
    DrawListSortStruct2 useAlpha useZBuffer fi b a = false ↔
      sortKey useAlpha useZBuffer fi a ≤ sortKey useAlpha useZBuffer fi b := by
  rw [← not_lt, ← comp_eq_true_iff_sortKey_lt]
  simp

/-- Elements at increasing positions of a pairwise-related list are related. -/
theorem pairwise_getElem? {α : Type} {R : α → α → Prop} {l : List α}
    (h : l.Pairwise R) {i j : Nat} {a b : α} (hij : i < j)
    (ha : l[i]? = some a) (hb : l[j]? = some b) : R a b := by
  obtain ⟨hi, rfl⟩ := List.getElem?_eq_some.mp ha
  obtain ⟨hj, rfl⟩ := List.getElem?_eq_some.mp hb
  exact List.pairwise_iff_getElem.mp h i j hi hj hij

/-- The reference sort meets the contract of `std::sort` for the draw-list comparator,
so every draw list has a sorted result. -/
theorem stdSort_meets_contract (useAlpha useZBuffer : Bool) (fi : RendererFrameInfo)
    (l : List DrawableContainer) :
    StdSortResult (DrawListSortStruct2 useAlpha useZBuffer fi) l
      (stdSort (DrawListSortStruct2 useAlpha useZBuffer fi) l) := by
  refine ⟨List.perm_insertionSort _ l, ?_⟩
  haveI : IsTotal DrawableContainer
      (fun x y => DrawListSortStruct2 useAlpha useZBuffer fi y x = false) :=
    ⟨fun a b => by
      simp only [comp_eq_false_iff_sortKey_le]
      exact le_total _ _⟩
  haveI : IsTrans DrawableContainer
      (fun x y => DrawListSortStruct2 useAlpha useZBuffer fi y x = false) :=
    ⟨fun a b c => by
      simp only [comp_eq_false_iff_sortKey_le]
      exact le_trans⟩
  exact List.sorted_insertionSort _ l

/-- Two lists with the same images under `f`, one a rearrangement of the other, are equal
when the images are pairwise distinct. -/
theorem eq_of_perm_of_map_eq {α β : Type} (f : α → β) :
    ∀ (l₁ l₂ : List α), l₁.Perm l₂ → l₁.map f = l₂.map f → (l₂.map f).Nodup → l₁ = l₂
  | [], l₂, hp, _, _ => (List.Perm.nil_eq hp)
  | x :: xs, [], hp, _, _ => absurd hp.symm (List.not_perm_nil_cons x xs)
  | x :: xs, y :: ys, hp, hm, hn => by
    simp only [List.map_cons, List.cons.injEq] at hm
    have hny : f y ∉ ys.map f := (List.nodup_cons.mp hn).1
    have hxy : x = y := by
      have hx : x ∈ y :: ys := hp.subset (List.mem_cons_self x xs)
      rcases List.mem_cons.mp hx with h | h
      · exact h
      · exact absurd (hm.1 ▸ List.mem_map_of_mem f h) hny
    subst hxy
    rw [eq_of_perm_of_map_eq f xs ys (List.Perm.cons_inv hp) hm.2 (List.nodup_cons.mp hn).2]

/-- When the comparator orders every earlier element of `l` strictly before every later
one, `l` is the only result `std::sort` may produce for any rearrangement of `l`. -/
theorem stdSort_unique (useAlpha useZBuffer : Bool) (fi : RendererFrameInfo)
    (input l out : List DrawableContainer) (hl : input.Perm l)
    (hs : l.Pairwise (fun x y => DrawListSortStruct2 useAlpha useZBuffer fi x y = true))
    (h : StdSortResult (DrawListSortStruct2 useAlpha useZBuffer fi) input out) :
    out = l := by
  have hperm : out.Perm l := h.1.trans hl
  have hlk : (l.map (sortKey useAlpha useZBuffer fi)).Sorted (· < ·) := by
    rw [List.Sorted, List.pairwise_map]
    exact hs.imp (fun h => (comp_eq_true_iff_sortKey_lt _ _ _ _ _).mp h)
  have hok : (out.map (sortKey useAlpha useZBuffer fi)).Sorted (· ≤ ·) := by
    rw [List.Sorted, List.pairwise_map]
    exact h.2.imp (fun h => (comp_eq_false_iff_sortKey_le _ _ _ _ _).mp h)
  have hkeys : out.map (sortKey useAlpha useZBuffer fi) =
      l.map (sortKey useAlpha useZBuffer fi) :=
    List.eq_of_perm_of_sorted (hperm.map _) hok (hlk.imp le_of_lt)
  exact eq_of_perm_of_map_eq _ out l hperm hkeys hlk.nodup

/-- C1. With alpha-partitioning enabled, in every list that the sort may produce with
`DrawListSortStruct2` no instance whose drawable has alpha precedes an instance whose
drawable has none, whatever the priorities and z-buffer requests are. -/
theorem alpha_instances_sort_last (useZBuffer : Bool) (fi : RendererFrameInfo)
    (drawList out : List DrawableContainer)
    (h : StdSortResult (DrawListSortStruct2 true useZBuffer fi) drawList out)
    (i j : Nat) (a b : DrawableContainer) (hij : i < j)
    (ha : out[i]? = some a) (hb : out[j]? = some b) :
    ¬ (a.drawable.hasAlpha fi = true ∧ b.drawable.hasAlpha fi = false) := by
  rintro ⟨haa, hba⟩
  have hc := pairwise_getElem? h.2 hij ha hb
  simp [DrawListSortStruct2, haa, hba] at hc

/-- C1 at the scenario list: `[A, B, C]` sorts to `[C, A, B]`, where the alpha instance B
comes after the non-alpha instance A. -/
theorem alpha_instances_sort_last_witness :
    StdSortResult (DrawListSortStruct2 true false exampleFrameInfo)
        [instA, instB, instC] [instC, instA, instB] ∧
      ¬ (instA.drawable.hasAlpha exampleFrameInfo = true ∧
          instB.drawable.hasAlpha exampleFrameInfo = false) :=
  have hs : StdSortResult (DrawListSortStruct2 true false exampleFrameInfo)
      [instA, instB, instC] [instC, instA, instB] :=
    ⟨(List.Perm.swap instA instC [instB]).trans ((List.Perm.swap instB instC []).cons instA),
      by decide⟩
  ⟨hs, alpha_instances_sort_last false exampleFrameInfo _ _ hs 1 2 instA instB
    (by decide) rfl rfl⟩

/-- C2. For every draw list and every setting of the two flags, a list the sort may
produce is ordered by the lexicographic key (alpha status if alpha-partitioning is on,
priority, z-buffer request if the tie-break is on): the key at a position is at most the
key at any later position. In the scenario A(priority 5, no alpha), B(priority 5, alpha),
C(priority 1, no alpha) with alpha-partitioning on, the sorted list is `[C, A, B]`. -/
theorem sorted_by_lexicographic_key (useAlpha useZBuffer : Bool) (fi : RendererFrameInfo)
    (drawList out : List DrawableContainer)
    (h : StdSortResult (DrawListSortStruct2 useAlpha useZBuffer fi) drawList out) :
    (∀ (i j : Nat) (a b : DrawableContainer), i < j → out[i]? = some a → out[j]? = some b →
      sortKey useAlpha useZBuffer fi a ≤ sortKey useAlpha useZBuffer fi b) ∧
    (∀ A B C : DrawableContainer, useAlpha = true → drawList.Perm [A, B, C] →
      A.drawable.drawPriority = 5 → A.drawable.hasAlpha fi = false →
      B.drawable.drawPriority = 5 → B.drawable.hasAlpha fi = true →
      C.drawable.drawPriority = 1 → C.drawable.hasAlpha fi = false →
      out = [C, A, B]) := by
  constructor
  · intro i j a b hij ha hb
    exact (comp_eq_false_iff_sortKey_le _ _ _ _ _).mp (pairwise_getElem? h.2 hij ha hb)
  · intro A B C hua hp hA1 hA2 hB1 hB2 hC1 hC2
    have hp2 : drawList.Perm [C, A, B] :=
      hp.trans (((List.Perm.swap C B []).cons A).trans (List.Perm.swap C A [B]))
    refine stdSort_unique useAlpha useZBuffer fi drawList [C, A, B] out hp2 ?_ h
    subst hua
    simp [DrawListSortStruct2, hA1, hA2, hB1, hB2, hC1, hC2]

/-- C2 at the scenario: the reference sort of `[A, B, C]` is ordered by key and equals
`[C, A, B]`. -/
theorem sorted_by_lexicographic_key_witness :
    StdSortResult (DrawListSortStruct2 true false exampleFrameInfo) [instA, instB, instC]
        (stdSort (DrawListSortStruct2 true false exampleFrameInfo) [instA, instB, instC]) ∧
      stdSort (DrawListSortStruct2 true false exampleFrameInfo) [instA, instB, instC] =
        [instC, instA, instB] :=
  ⟨stdSort_meets_contract _ _ _ _,
    (sorted_by_lexicographic_key true false exampleFrameInfo [instA, instB, instC] _
      (stdSort_meets_contract _ _ _ _)).2 instA instB instC rfl (List.Perm.refl _)
      rfl rfl rfl rfl rfl rfl⟩

/-- C3 as stated fails: with alpha-partitioning and the z-buffer tie-break both on, an
alpha instance that does not request the z-buffer is sorted after a non-alpha instance of
the same priority that requests it. -/
theorem zbuffer_tiebreak_any_alpha_counterexample :
    StdSortResult (DrawListSortStruct2 true true exampleFrameInfo)
        [instAlphaNoZ, instOpaqueZ] [instOpaqueZ, instAlphaNoZ] ∧
      instAlphaNoZ.drawable.drawPriority = instOpaqueZ.drawable.drawPriority ∧
      instAlphaNoZ.drawable.requestZBuffer = false ∧
      instOpaqueZ.drawable.requestZBuffer = true ∧
      ¬ (∀ (useAlpha : Bool) (fi : RendererFrameInfo) (drawList out : List DrawableContainer),
          StdSortResult (DrawListSortStruct2 useAlpha true fi) drawList out →
          ∀ (i j : Nat) (a b : DrawableContainer), out[i]? = some a → out[j]? = some b →
            a.drawable.drawPriority = b.drawable.drawPriority →
            a.drawable.requestZBuffer = false → b.drawable.requestZBuffer = true → i < j) := by
  have hs : StdSortResult (DrawListSortStruct2 true true exampleFrameInfo)
      [instAlphaNoZ, instOpaqueZ] [instOpaqueZ, instAlphaNoZ] :=
    ⟨List.Perm.swap instAlphaNoZ instOpaqueZ [], by decide⟩
  refine ⟨hs, rfl, rfl, rfl, fun hall => ?_⟩
  have := hall true exampleFrameInfo _ _ hs 1 0 instAlphaNoZ instOpaqueZ rfl rfl rfl rfl rfl
  exact absurd this (by decide)

/-- C3, amended. With the z-buffer tie-break on, for two instances of equal priority
where `a` does not request the z-buffer and `b` does, `a` precedes `b` in the sorted list
provided alpha-partitioning is off or `a` and `b` have the same alpha status. -/
theorem zbuffer_tiebreak_same_alpha (useAlpha : Bool) (fi : RendererFrameInfo)
    (drawList out : List DrawableContainer)
    (h : StdSortResult (DrawListSortStruct2 useAlpha true fi) drawList out)
    (i j : Nat) (a b : DrawableContainer)
    (ha : out[i]? = some a) (hb : out[j]? = some b)
    (hprio : a.drawable.drawPriority = b.drawable.drawPriority)
    (hza : a.drawable.requestZBuffer = false) (hzb : b.drawable.requestZBuffer = true)
    (halpha : useAlpha = false ∨ a.drawable.hasAlpha fi = b.drawable.hasAlpha fi) :
    i < j := by
  have hcomp : DrawListSortStruct2 useAlpha true fi a b = true := by
    rcases halpha with h1 | h1 <;> simp [DrawListSortStruct2, h1, hprio, hza, hzb]
  rcases lt_trichotomy i j with hlt | heq | hgt
  · exact hlt
  · subst heq
    rw [ha] at hb
    cases hb
    rw [hza] at hzb
    cases hzb
  · have := pairwise_getElem? h.2 hgt hb ha
    rw [hcomp] at this
    cases this

/-- C3 amended, at two non-alpha instances of priority 5: the one not requesting the
z-buffer comes first. -/
theorem zbuffer_tiebreak_same_alpha_witness :
    StdSortResult (DrawListSortStruct2 true true exampleFrameInfo)
        [instOpaqueZ, instA] [instA, instOpaqueZ] ∧ 0 < 1 :=
  have hs : StdSortResult (DrawListSortStruct2 true true exampleFrameInfo)
      [instOpaqueZ, instA] [instA, instOpaqueZ] :=
    ⟨List.Perm.swap instOpaqueZ instA [], by decide⟩
  ⟨hs, zbuffer_tiebreak_same_alpha true exampleFrameInfo _ _ hs 0 1 instA instOpaqueZ
    rfl rfl rfl rfl rfl (Or.inr rfl)⟩

/-! ## Theorems: drawable collector -/

/-- C5. When every drawable's active-predicate gives the same answer `active d` under each
offset's context, the collector loop builds exactly one instance for each pair of an
offset and an active drawable, in offset-major order, with or without a local matrix, and
none for inactive drawables; so the draw list has N×D instances. -/
theorem collector_emits_offsets_times_active (inv : Matrix4d → Matrix4d)
    (projMat4d viewTrans4d modelTrans4d : Matrix4d) (baseFrameInfo : RendererFrameInfo)
    (offsetMats : List Matrix4d) (rawDrawables : List Drawable) (active : Drawable → Bool)
    (hact : ∀ off ∈ offsetMats, ∀ d ∈ rawDrawables,
      d.isOn (offsetFrameInfo inv projMat4d viewTrans4d modelTrans4d baseFrameInfo off)
        = active d) :
    collectDrawList inv projMat4d viewTrans4d modelTrans4d baseFrameInfo offsetMats
        rawDrawables =
      offsetMats.flatMap (fun off => (rawDrawables.filter active).map
        (makeContainer inv projMat4d viewTrans4d modelTrans4d off)) ∧
    (collectDrawList inv projMat4d viewTrans4d modelTrans4d baseFrameInfo offsetMats
        rawDrawables).length = offsetMats.length * (rawDrawables.filter active).length := by
  have hoff : ∀ off ∈ offsetMats,
      collectForOffset inv projMat4d viewTrans4d modelTrans4d baseFrameInfo rawDrawables off =
        (rawDrawables.filter active).map
          (makeContainer inv projMat4d viewTrans4d modelTrans4d off) := by
    intro off hmem
    have hd := hact off hmem
    unfold collectForOffset
    simp only []
    clear hact
    induction rawDrawables with
    | nil => rfl
    | cons d ds ih =>
      have h1 := hd d (List.mem_cons_self d ds)
      have h2 := ih (fun e he => hd e (List.mem_cons_of_mem d he))
      rw [List.filterMap_cons, h1, h2]
      cases hda : active d <;> simp [List.filter_cons, hda]
  have heq : collectDrawList inv projMat4d viewTrans4d modelTrans4d baseFrameInfo offsetMats
      rawDrawables = offsetMats.flatMap (fun off => (rawDrawables.filter active).map
        (makeContainer inv projMat4d viewTrans4d modelTrans4d off)) := by
    unfold collectDrawList
    clear hact
    induction offsetMats with
    | nil => rfl
    | cons o os ih =>
      rw [List.flatMap_cons, List.flatMap_cons, hoff o (List.mem_cons_self o os),
        ih (fun off hm => hoff off (List.mem_cons_of_mem o hm))]
  refine ⟨heq, ?_⟩
  rw [heq, List.length_flatMap]
  simp [Function.comp_def]

/-- C5 with two offsets, one active drawable and one inactive drawable: two instances. -/
theorem collector_emits_offsets_times_active_witness :
    (collectDrawList id 1 1 1 exampleFrameInfo [1, 1]
        [exampleLocalDrawable 1, exampleOffDrawable 2]).length = 2 * 1 :=
  (collector_emits_offsets_times_active id 1 1 1 exampleFrameInfo [1, 1]
    [exampleLocalDrawable 1, exampleOffDrawable 2] (fun d => d.isOn exampleFrameInfo)
    (by
      intro off _ d hd
      simp only [List.mem_cons, List.mem_singleton, List.not_mem_nil, or_false] at hd
      rcases hd with rfl | rfl <;> rfl)).2

/-- C6. For every offset `O` and drawable, the instance the collector builds carries, in
exact arithmetic: with a local matrix `L`, `mvp = proj·view·O·model·L`,
`mv = view·O·model·L` and the inverse-transpose of that `mv`; without one, the shared
per-offset composites `mvp = proj·(view·O·model)`, `mv = view·O·model` and the
inverse-transpose of that `mv`; the two agree when `L` is the identity. The draw list
consists of exactly these instances, one for each offset and each drawable that is on
under that offset's context. -/
theorem instance_transforms (inv : Matrix4d → Matrix4d)
    (projMat4d viewTrans4d modelTrans4d : Matrix4d) (baseFrameInfo : RendererFrameInfo)
    (offsetMats : List Matrix4d) (rawDrawables : List Drawable) :
    (∀ c : DrawableContainer,
      c ∈ collectDrawList inv projMat4d viewTrans4d modelTrans4d baseFrameInfo offsetMats
          rawDrawables ↔
        ∃ O ∈ offsetMats, ∃ d ∈ rawDrawables,
          d.isOn (offsetFrameInfo inv projMat4d viewTrans4d modelTrans4d baseFrameInfo O)
            = true ∧
          c = makeContainer inv projMat4d viewTrans4d modelTrans4d O d) ∧
    (∀ (O : Matrix4d) (d : Drawable),
      (makeContainer inv projMat4d viewTrans4d modelTrans4d O d).drawable = d ∧
      (∀ L : Matrix4d, d.localMat = some L →
        (makeContainer inv projMat4d viewTrans4d modelTrans4d O d).mvpMat =
            projMat4d * viewTrans4d * O * modelTrans4d * L ∧
        (makeContainer inv projMat4d viewTrans4d modelTrans4d O d).mvMat =
            viewTrans4d * O * modelTrans4d * L ∧
        (makeContainer inv projMat4d viewTrans4d modelTrans4d O d).mvNormalMat =
            (inv (viewTrans4d * O * modelTrans4d * L)).transpose) ∧
      (d.localMat = none →
        (makeContainer inv projMat4d viewTrans4d modelTrans4d O d).mvpMat =
            projMat4d * (viewTrans4d * O * modelTrans4d) ∧
        (makeContainer inv projMat4d viewTrans4d modelTrans4d O d).mvMat =
            viewTrans4d * O * modelTrans4d ∧
        (makeContainer inv projMat4d viewTrans4d modelTrans4d O d).mvNormalMat =
            (inv (viewTrans4d * O * modelTrans4d)).transpose) ∧
      (d.localMat = some 1 →
        (makeContainer inv projMat4d viewTrans4d modelTrans4d O d).mvpMat =
            projMat4d * (viewTrans4d * O * modelTrans4d) ∧
        (makeContainer inv projMat4d viewTrans4d modelTrans4d O d).mvMat =
            viewTrans4d * O * modelTrans4d ∧
        (makeContainer inv projMat4d viewTrans4d modelTrans4d O d).mvNormalMat =
            (inv (viewTrans4d * O * modelTrans4d)).transpose)) := by
  refine ⟨fun c => ?_, fun O d => ⟨?_, ?_, ?_, ?_⟩⟩
  · simp only [collectDrawList, collectForOffset, List.mem_flatMap, List.mem_filterMap]
    constructor
    · rintro ⟨O, hO, d, hd, hc⟩
      refine ⟨O, hO, d, hd, ?_⟩
      split at hc
      · next hon => exact ⟨hon, (Option.some.inj hc).symm⟩
      · cases hc
    · rintro ⟨O, hO, d, hd, hon, rfl⟩
      exact ⟨O, hO, d, hd, by rw [if_pos hon]⟩
  · unfold makeContainer
    cases d.localMat <;> rfl
  · intro L hL
    simp [makeContainer, hL]
  · intro hL
    simp [makeContainer, hL]
  · intro hL
    simp [makeContainer, hL, Matrix.mul_assoc]

/-! ## Lemmas: traces and their observations -/

theorem glAfter_append (gl : GLState) (a b : List Event) :
    glAfter gl (a ++ b) = glAfter (glAfter gl a) b := by
  simp [glAfter, List.foldl_append]

theorem drawStates_append (gl : GLState) (a b : List Event) :
    drawStates gl (a ++ b) = drawStates gl a ++ drawStates (glAfter gl a) b := by
  induction a generalizing gl with
  | nil => rfl
  | cons e es ih =>
    cases e <;> simp [drawStates, glAfter, ih, GLState.apply]

theorem drawnInstances_append (a b : List Event) :
    drawnInstances (a ++ b) = drawnInstances a ++ drawnInstances b := by
  induction a with
  | nil => rfl
  | cons e es ih => cases e <;> simp [drawnInstances, ih]

theorem calculateCalls_append (a b : List Event) :
    calculateCalls (a ++ b) = calculateCalls a ++ calculateCalls b := by
  induction a with
  | nil => rfl
  | cons e es ih => cases e <;> simp [calculateCalls, ih]

/-- Events that are not draw calls contribute no draw state. -/
theorem drawStates_of_no_draw (gl : GLState) (evs : List Event)
    (h : ∀ e ∈ evs, e.isDraw = false) : drawStates gl evs = [] := by
  induction evs generalizing gl with
  | nil => rfl
  | cons e es ih =>
    have he := h e (List.mem_cons_self e es)
    have hes := fun x hx => h x (List.mem_cons_of_mem e hx)
    clear h
    cases e <;> first
      | (simp [Event.isDraw] at he; done)
      | (simp only [drawStates]; exact ih _ hes)

/-- Events that are not draw calls draw no instance. -/
theorem drawnInstances_of_no_draw (evs : List Event)
    (h : ∀ e ∈ evs, e.isDraw = false) : drawnInstances evs = [] := by
  induction evs with
  | nil => rfl
  | cons e es ih =>
    have he := h e (List.mem_cons_self e es)
    have hes := fun x hx => h x (List.mem_cons_of_mem e hx)
    clear h
    cases e <;> first
      | (simp [Event.isDraw] at he; done)
      | (simp only [drawnInstances]; exact ih hes)

/-- Events that are not depth calls leave the depth state alone. -/
theorem glAfter_of_no_depth_call (gl : GLState) (evs : List Event)
    (h : ∀ e ∈ evs, e.isDepthCall = false) :
    (glAfter gl evs).depthTest = gl.depthTest ∧ (glAfter gl evs).depthMask = gl.depthMask ∧
      (glAfter gl evs).depthFunc = gl.depthFunc := by
  induction evs generalizing gl with
  | nil => exact ⟨rfl, rfl, rfl⟩
  | cons e es ih =>
    have he := h e (List.mem_cons_self e es)
    have hes := fun x hx => h x (List.mem_cons_of_mem e hx)
    have := ih (gl.apply e) hes
    simp only [glAfter, List.foldl_cons] at this ⊢
    rw [this.1, this.2.1, this.2.2]
    cases e with
    | glEnable cap => cases cap <;> simp_all [GLState.apply, GLState.setCap, Event.isDepthCall]
    | glDisable cap => cases cap <;> simp_all [GLState.apply, GLState.setCap, Event.isDepthCall]
    | glDepthMask f => simp [Event.isDepthCall] at he
    | glDepthFunc f => simp [Event.isDepthCall] at he
    | _ => simp [GLState.apply]

/-- While no event enables the depth test, a disabled depth test stays disabled: at the
end, and at every draw call on the way. -/
theorem depthTest_stays_off (gl : GLState) (evs : List Event)
    (h : ∀ e ∈ evs, e ≠ Event.glEnable .GL_DEPTH_TEST) (hoff : gl.depthTest = false) :
    (glAfter gl evs).depthTest = false ∧ ∀ x ∈ drawStates gl evs, x.1.depthTest = false := by
  induction evs generalizing gl with
  | nil => exact ⟨hoff, by simp [drawStates]⟩
  | cons e es ih =>
    have he := h e (List.mem_cons_self e es)
    have hes := fun x hx => h x (List.mem_cons_of_mem e hx)
    have hstep : (gl.apply e).depthTest = false := by
      cases e with
      | glEnable cap => cases cap <;> simp_all [GLState.apply, GLState.setCap]
      | glDisable cap => cases cap <;> simp_all [GLState.apply, GLState.setCap]
      | _ => simp_all [GLState.apply]
    have := ih (gl.apply e) hes hstep
    refine ⟨by simpa [glAfter] using this.1, ?_⟩
    clear h ih
    cases e <;> first
      | exact this.2
      | (intro x hx
         simp only [drawStates, List.mem_cons] at hx
         rcases hx with rfl | hx
         · exact hoff
         · exact this.2 x hx)

/-- The events added since `st` when the trace of `st'` extends that of `st`. -/
theorem eventsSince_of_trace_eq {st st' : FrameState} {evs : List Event}
    (h : st'.trace = st.trace ++ evs) : eventsSince st st' = evs := by
  simp [eventsSince, h]

/-! ## Lemmas: one iteration of the render-target loop -/

@[simp] theorem emit_trace (st : FrameState) (ev : Event) :
    (st.emit ev).trace = st.trace ++ [ev] := rfl

@[simp] theorem emit_baseFrameInfo (st : FrameState) (ev : Event) :
    (st.emit ev).baseFrameInfo = st.baseFrameInfo := rfl

@[simp] theorem emit_curProgramId (st : FrameState) (ev : Event) :
    (st.emit ev).curProgramId = st.curProgramId := rfl

@[simp] theorem emit_depthMaskOn (st : FrameState) (ev : Event) :
    (st.emit ev).depthMaskOn = st.depthMaskOn := rfl

@[simp] theorem emit_numDrawables (st : FrameState) (ev : Event) :
    (st.emit ev).numDrawables = st.numDrawables := rfl

/-- The depth block leaves the frame context, the program handle and the counter alone. -/
theorem depthPolicy_fields (r : SceneRendererES2) (st : FrameState) (c : DrawableContainer) :
    (depthPolicy r st c).baseFrameInfo = st.baseFrameInfo ∧
      (depthPolicy r st c).curProgramId = st.curProgramId ∧
      (depthPolicy r st c).numDrawables = st.numDrawables := by
  unfold depthPolicy
  simp only []
  split_ifs <;> exact ⟨rfl, rfl, rfl⟩

/-- In mode Off, with `depthMaskOn` false, the depth block does nothing. -/
theorem depthPolicy_off (r : SceneRendererES2) (st : FrameState) (c : DrawableContainer)
    (hmode : r.zBufferMode = .zBufferOff) (hmask : st.depthMaskOn = false) :
    depthPolicy r st c = st := by
  unfold depthPolicy
  simp [hmode, hmask]

/-- In mode OffDefault the depth block sets the depth function from the instance's own
z-buffer request and the write mask from its write request, whatever the alpha policy. -/
theorem depthPolicy_offDefault (r : SceneRendererES2) (st : FrameState)
    (c : DrawableContainer) (hmode : r.zBufferMode = .zBufferOffDefault) :
    (depthPolicy r st c).trace = st.trace ++
      [.glDepthFunc (if c.drawable.requestZBuffer then .GL_LESS else .GL_ALWAYS),
        .glDepthMask c.drawable.writeZbuffer] := by
  unfold depthPolicy
  cases hz : c.drawable.requestZBuffer <;> cases hw : c.drawable.writeZbuffer <;>
    simp [hmode, hz, hw]

/-- In mode On the depth block disables the depth test at an alpha instance when the
policy is on and `depthMaskOn` still holds, then sets the write mask. -/
theorem depthPolicy_on (r : SceneRendererES2) (st : FrameState) (c : DrawableContainer)
    (hmode : r.zBufferMode = .zBufferOn) :
    (depthPolicy r st c).trace = st.trace ++
      (if r.depthBufferOffForAlpha && st.depthMaskOn && c.drawable.hasAlpha st.baseFrameInfo
        then [.glDisable .GL_DEPTH_TEST] else []) ++
      [.glDepthMask c.drawable.writeZbuffer] ∧
    (depthPolicy r st c).depthMaskOn =
      (st.depthMaskOn &&
        !(r.depthBufferOffForAlpha && c.drawable.hasAlpha st.baseFrameInfo)) := by
  unfold depthPolicy
  cases hp : r.depthBufferOffForAlpha <;> cases hm : st.depthMaskOn <;>
    cases ha : c.drawable.hasAlpha st.baseFrameInfo <;>
    cases hw : c.drawable.writeZbuffer <;>
    simp [hmode, hp, hm, ha, hw, FrameState.emit]

/-- In every mode the depth block emits only depth calls, none of which is a draw call or
enables the depth test. -/
theorem depthPolicy_trace (r : SceneRendererES2) (st : FrameState) (c : DrawableContainer) :
    ∃ evs, (depthPolicy r st c).trace = st.trace ++ evs ∧
      ∀ e ∈ evs, e.isDepthCall = true ∧ e.isDraw = false ∧
        e ≠ Event.glEnable .GL_DEPTH_TEST := by
  cases hmode : r.zBufferMode with
  | zBufferOn =>
    refine ⟨_, by rw [(depthPolicy_on r st c hmode).1, List.append_assoc], ?_⟩
    intro e he
    split_ifs at he <;> simp at he <;> rcases he with rfl | rfl <;>
      simp [Event.isDepthCall, Event.isDraw]
  | zBufferOff =>
    refine ⟨if r.depthBufferOffForAlpha && st.depthMaskOn
        && c.drawable.hasAlpha st.baseFrameInfo then [.glDisable .GL_DEPTH_TEST] else [],
      ?_, ?_⟩
    · unfold depthPolicy
      cases hp : r.depthBufferOffForAlpha <;> cases hm : st.depthMaskOn <;>
        cases ha : c.drawable.hasAlpha st.baseFrameInfo <;>
        simp [hmode, hp, hm, ha, FrameState.emit]
    · intro e he
      split_ifs at he <;> simp at he
      subst he
      simp [Event.isDepthCall, Event.isDraw]
  | zBufferOffDefault =>
    refine ⟨_, depthPolicy_offDefault r st c hmode, ?_⟩
    intro e he
    simp at he
    rcases he with rfl | rfl <;> simp [Event.isDepthCall, Event.isDraw]

/-- Setting the transforms logs nothing and writes the instance's matrices. -/
theorem setTransforms_fields (inv : Matrix4d → Matrix4d) (st : FrameState)
    (c : DrawableContainer) :
    (setTransforms inv st c).trace = st.trace ∧
      (setTransforms inv st c).depthMaskOn = st.depthMaskOn ∧
      (setTransforms inv st c).numDrawables = st.numDrawables ∧
      (setTransforms inv st c).curProgramId = st.curProgramId ∧
      (setTransforms inv st c).baseFrameInfo.mvpMat = c.mvpMat ∧
      (setTransforms inv st c).baseFrameInfo.viewAndModelMat = c.mvMat ∧
      (setTransforms inv st c).baseFrameInfo.viewModelNormalMat = c.mvNormalMat ∧
      (setTransforms inv st c).baseFrameInfo.program = st.baseFrameInfo.program :=
  ⟨rfl, rfl, rfl, rfl, rfl, rfl, rfl, rfl⟩

/-- The program block emits neither depth calls nor draw calls and leaves the transforms,
`depthMaskOn` and the counter alone. -/
theorem selectProgram_spec (r : SceneRendererES2) (scene : Scene) (st : FrameState)
    (c : DrawableContainer) :
    (∃ evs, (selectProgram r scene st c).trace = st.trace ++ evs ∧
      ∀ e ∈ evs, e.isDepthCall = false ∧ e.isDraw = false) ∧
    (selectProgram r scene st c).depthMaskOn = st.depthMaskOn ∧
    (selectProgram r scene st c).numDrawables = st.numDrawables ∧
    (selectProgram r scene st c).baseFrameInfo.mvpMat = st.baseFrameInfo.mvpMat ∧
    (selectProgram r scene st c).baseFrameInfo.viewAndModelMat =
      st.baseFrameInfo.viewAndModelMat ∧
    (selectProgram r scene st c).baseFrameInfo.viewModelNormalMat =
      st.baseFrameInfo.viewModelNormalMat := by
  unfold selectProgram
  simp only []
  split_ifs with h1
  · cases hp : scene.getProgram c.drawable.program with
    | none => exact ⟨⟨[], by simp, by simp⟩, rfl, rfl, rfl, rfl, rfl⟩
    | some program =>
      simp only []
      split_ifs
      · exact ⟨⟨[.glUseProgram program.glProgram,
            .setLights program (Matrix4dToMatrix4f c.mvpMat),
            .setUniformNumLights program r.numLights], by simp,
            by simp [Event.isDepthCall, Event.isDraw]⟩, rfl, rfl, rfl, rfl, rfl⟩
      · exact ⟨⟨[.glUseProgram program.glProgram,
            .setUniformNumLights program r.numLights], by simp,
            by simp [Event.isDepthCall, Event.isDraw]⟩, rfl, rfl, rfl, rfl, rfl⟩
  · exact ⟨⟨[], by simp, by simp⟩, rfl, rfl, rfl, rfl, rfl⟩

/-- The end of an iteration: a tweaker run and a draw call exactly when the instance has
a program handle and is meant for this render target. -/
theorem issueDraw_spec (renderTarget : RenderTarget) (st : FrameState)
    (c : DrawableContainer) :
    (issueDraw renderTarget st c).trace = st.trace ++
      (if drawnInPass renderTarget c then
        [.runTweakers c.drawable st.baseFrameInfo, .draw c.drawable st.baseFrameInfo]
      else []) ∧
    (issueDraw renderTarget st c).depthMaskOn = st.depthMaskOn ∧
    (issueDraw renderTarget st c).numDrawables =
      st.numDrawables + (if drawnInPass renderTarget c then 1 else 0) := by
  unfold issueDraw drawnInPass
  by_cases h1 : c.drawable.program = EmptyIdentity
  · simp [h1]
  · by_cases h2 : c.drawable.renderTarget = renderTarget.id
    · simp [h1, h2]
    · simp [h1, h2]

/-- One iteration of the inner loop: the depth block, then program calls that are neither
depth calls nor draw calls, then the tweaker run and the draw call of an instance that
passes both filters, issued with the instance's own transforms. -/
theorem drawInstance_spec (inv : Matrix4d → Matrix4d) (r : SceneRendererES2) (scene : Scene)
    (renderTarget : RenderTarget) (st : FrameState) (c : DrawableContainer) :
    ∃ (P : List Event) (info : RendererFrameInfo),
      (∀ e ∈ P, e.isDepthCall = false ∧ e.isDraw = false) ∧
      info.mvpMat = c.mvpMat ∧ info.viewAndModelMat = c.mvMat ∧
      info.viewModelNormalMat = c.mvNormalMat ∧
      (drawInstance inv r scene renderTarget st c).trace =
        (depthPolicy r st c).trace ++ P ++
          (if drawnInPass renderTarget c then
            [.runTweakers c.drawable info, .draw c.drawable info]
          else []) ∧
      (drawInstance inv r scene renderTarget st c).depthMaskOn =
        (depthPolicy r st c).depthMaskOn ∧
      (drawInstance inv r scene renderTarget st c).numDrawables =
        st.numDrawables + (if drawnInPass renderTarget c then 1 else 0) := by
  obtain ⟨⟨P, hP, hPe⟩, hm, hn, h1, h2, h3⟩ :=
    selectProgram_spec r scene (setTransforms inv (depthPolicy r st c) c) c
  have hi := issueDraw_spec renderTarget
    (selectProgram r scene (setTransforms inv (depthPolicy r st c) c) c) c
  refine ⟨P, (selectProgram r scene (setTransforms inv (depthPolicy r st c) c) c).baseFrameInfo,
    hPe, ?_, ?_, ?_, ?_, ?_, ?_⟩
  · rw [h1]; rfl
  · rw [h2]; rfl
  · rw [h3]; rfl
  · unfold drawInstance
    simp only []
    rw [hi.1, hP]
    rfl
  · unfold drawInstance
    simp only []
    rw [hi.2.1, hm]
    rfl
  · unfold drawInstance
    simp only []
    rw [hi.2.2, hn]
    exact congrArg (· + _) (depthPolicy_fields r st c).2.2

/-- The events of one iteration, split into the depth calls of its depth block and the
rest, which holds no depth call. -/
theorem drawInstance_trace (inv : Matrix4d → Matrix4d) (r : SceneRendererES2) (scene : Scene)
    (renderTarget : RenderTarget) (st : FrameState) (c : DrawableContainer) :
    ∃ D R : List Event,
      (depthPolicy r st c).trace = st.trace ++ D ∧
      (drawInstance inv r scene renderTarget st c).trace = st.trace ++ D ++ R ∧
      (∀ e ∈ D, e.isDepthCall = true ∧ e.isDraw = false ∧
        e ≠ Event.glEnable .GL_DEPTH_TEST) ∧
      (∀ e ∈ R, e.isDepthCall = false) ∧
      (∀ x gl, x ∈ drawStates gl R →
        x.1.depthTest = gl.depthTest ∧ x.1.depthMask = gl.depthMask ∧
        x.1.depthFunc = gl.depthFunc ∧ x.2.1 = c.drawable) := by
  obtain ⟨D, hD, hDe⟩ := depthPolicy_trace r st c
  obtain ⟨P, info, hP, -, -, -, htr, -, -⟩ := drawInstance_spec inv r scene renderTarget st c
  refine ⟨D, P ++ (if drawnInPass renderTarget c then
      [.runTweakers c.drawable info, .draw c.drawable info] else []), hD, ?_, hDe, ?_, ?_⟩
  · rw [htr, hD]
    simp only [List.append_assoc]
  · intro e he
    rcases List.mem_append.mp he with h | h
    · exact (hP e h).1
    · split_ifs at h <;> simp at h
      rcases h with rfl | rfl <;> rfl
  · intro x gl hx
    rw [drawStates_append, drawStates_of_no_draw gl P (fun e he => (hP e he).2)] at hx
    have hgl := glAfter_of_no_depth_call gl P (fun e he => (hP e he).1)
    split_ifs at hx
    · simp only [List.nil_append, drawStates, GLState.apply, List.mem_singleton] at hx
      subst hx
      exact ⟨hgl.1, hgl.2.1, hgl.2.2, rfl⟩
    · simp [drawStates] at hx

/-! ## Theorems: render-target loop, which instances are drawn -/

/-- The start of a pass, by cases on whether the target is cleared. -/
theorem beginTargetPass_eq (r : SceneRendererES2) (renderTarget : RenderTarget)
    (st : FrameState) :
    beginTargetPass r renderTarget st =
      if renderTarget.clearEveryFrame || renderTarget.clearOnce then
        ({ renderTarget with clearOnce := false },
          { (st.emit (.setActiveFramebuffer renderTarget.id)).emit .glClear with
            depthMaskOn := (r.zBufferMode == .zBufferOn) })
      else
        (renderTarget,
          { st.emit (.setActiveFramebuffer renderTarget.id) with
            depthMaskOn := (r.zBufferMode == .zBufferOn) }) := by
  unfold beginTargetPass
  split_ifs <;> rfl

/-- The start of a pass logs the framebuffer binding and possibly a clear, keeps the
target's id, the counter and the frame context, and initialises `depthMaskOn`. -/
theorem beginTargetPass_spec (r : SceneRendererES2) (renderTarget : RenderTarget)
    (st : FrameState) :
    (∃ evs, (beginTargetPass r renderTarget st).2.trace = st.trace ++ evs ∧
      ∀ e ∈ evs, e.isDepthCall = false ∧ e.isDraw = false) ∧
    (beginTargetPass r renderTarget st).1.id = renderTarget.id ∧
    (beginTargetPass r renderTarget st).2.numDrawables = st.numDrawables ∧
    (beginTargetPass r renderTarget st).2.depthMaskOn = (r.zBufferMode == .zBufferOn) ∧
    (beginTargetPass r renderTarget st).2.baseFrameInfo = st.baseFrameInfo := by
  rw [beginTargetPass_eq]
  split_ifs
  · exact ⟨⟨[.setActiveFramebuffer renderTarget.id, .glClear], by simp,
      by simp [Event.isDepthCall, Event.isDraw]⟩, rfl, rfl, rfl, rfl⟩
  · exact ⟨⟨[.setActiveFramebuffer renderTarget.id], by simp,
      by simp [Event.isDepthCall, Event.isDraw]⟩, rfl, rfl, rfl, rfl⟩

/-- One iteration draws its instance exactly when the instance passes both filters. -/
theorem drawInstance_drawn (inv : Matrix4d → Matrix4d) (r : SceneRendererES2) (scene : Scene)
    (renderTarget : RenderTarget) (st : FrameState) (c : DrawableContainer) :
    ∃ evs, (drawInstance inv r scene renderTarget st c).trace = st.trace ++ evs ∧
      drawnInstances evs = (if drawnInPass renderTarget c then [c] else []) ∧
      (drawInstance inv r scene renderTarget st c).numDrawables =
        st.numDrawables + (if drawnInPass renderTarget c then 1 else 0) := by
  obtain ⟨D, hD, hDe⟩ := depthPolicy_trace r st c
  obtain ⟨P, info, hP, h1, h2, h3, htr, -, hn⟩ :=
    drawInstance_spec inv r scene renderTarget st c
  refine ⟨D ++ P ++ (if drawnInPass renderTarget c then
      [.runTweakers c.drawable info, .draw c.drawable info] else []), ?_, ?_, hn⟩
  · rw [htr, hD]
    simp only [List.append_assoc]
  · rw [drawnInstances_append, drawnInstances_append,
      drawnInstances_of_no_draw D (fun e he => (hDe e he).2.1),
      drawnInstances_of_no_draw P (fun e he => (hP e he).2)]
    split_ifs
    · simp only [List.nil_append, drawnInstances, h1, h2, h3]
    · rfl

/-- The inner loop of a pass draws, in list order, exactly the instances that pass both
filters, and counts them. -/
theorem drawInstances_drawn (inv : Matrix4d → Matrix4d) (r : SceneRendererES2) (scene : Scene)
    (renderTarget : RenderTarget) (drawList : List DrawableContainer) (st : FrameState) :
    ∃ evs, (drawInstances inv r scene renderTarget st drawList).trace = st.trace ++ evs ∧
      drawnInstances evs = drawList.filter (drawnInPass renderTarget) ∧
      (drawInstances inv r scene renderTarget st drawList).numDrawables =
        st.numDrawables + (drawList.filter (drawnInPass renderTarget)).length := by
  induction drawList generalizing st with
  | nil => exact ⟨[], by simp [drawInstances], rfl, rfl⟩
  | cons c cs ih =>
    obtain ⟨e1, ht1, hd1, hn1⟩ := drawInstance_drawn inv r scene renderTarget st c
    obtain ⟨e2, ht2, hd2, hn2⟩ := ih (drawInstance inv r scene renderTarget st c)
    refine ⟨e1 ++ e2, ?_, ?_, ?_⟩
    · simp only [drawInstances, List.foldl_cons] at ht2 ⊢
      rw [ht2, ht1, List.append_assoc]
    · rw [drawnInstances_append, hd1, hd2, List.filter_cons]
      split_ifs <;> rfl
    · simp only [drawInstances, List.foldl_cons] at hn2 ⊢
      rw [hn2, hn1, List.filter_cons]
      split_ifs
      · simp only [List.length_cons]; omega
      · omega

/-- One pass draws exactly the instances that pass both filters for its target. -/
theorem targetPass_drawn (inv : Matrix4d → Matrix4d) (r : SceneRendererES2) (scene : Scene)
    (drawList : List DrawableContainer) (renderTarget : RenderTarget) (st : FrameState) :
    ∃ evs, (targetPass inv r scene drawList renderTarget st).2.trace = st.trace ++ evs ∧
      drawnInstances evs = drawList.filter (drawnInPass renderTarget) ∧
      (targetPass inv r scene drawList renderTarget st).2.numDrawables =
        st.numDrawables + (drawList.filter (drawnInPass renderTarget)).length := by
  obtain ⟨⟨e0, ht0, he0⟩, hid, hn0, -, -⟩ := beginTargetPass_spec r renderTarget st
  obtain ⟨e1, ht1, hd1, hn1⟩ := drawInstances_drawn inv r scene
    (beginTargetPass r renderTarget st).1 drawList (beginTargetPass r renderTarget st).2
  have hf : drawnInPass (beginTargetPass r renderTarget st).1 = drawnInPass renderTarget := by
    funext c
    simp [drawnInPass, hid]
  refine ⟨e0 ++ e1, ?_, ?_, ?_⟩
  · show (drawInstances inv r scene (beginTargetPass r renderTarget st).1
      (beginTargetPass r renderTarget st).2 drawList).trace = _
    rw [ht1, ht0, List.append_assoc]
  · rw [drawnInstances_append, drawnInstances_of_no_draw e0 (fun e he => (he0 e he).2), hd1, hf]
    rfl
  · show (drawInstances inv r scene (beginTargetPass r renderTarget st).1
      (beginTargetPass r renderTarget st).2 drawList).numDrawables = _
    rw [hn1, hn0, hf]

/-- The render-target loop draws, target after target, exactly the instances that pass
both filters for that target, and `numDrawables` grows by their number. -/
theorem targetLoop_drawn (inv : Matrix4d → Matrix4d) (r : SceneRendererES2) (scene : Scene)
    (drawList : List DrawableContainer) (targets : List RenderTarget) (st : FrameState) :
    ∃ evs, (targetLoop inv r scene drawList targets st).2.trace = st.trace ++ evs ∧
      drawnInstances evs = targets.flatMap (fun t => drawList.filter (drawnInPass t)) ∧
      (targetLoop inv r scene drawList targets st).2.numDrawables = st.numDrawables +
        (targets.flatMap (fun t => drawList.filter (drawnInPass t))).length := by
  induction targets generalizing st with
  | nil => exact ⟨[], by simp [targetLoop], rfl, rfl⟩
  | cons t ts ih =>
    obtain ⟨e1, ht1, hd1, hn1⟩ := targetPass_drawn inv r scene drawList t st
    obtain ⟨e2, ht2, hd2, hn2⟩ := ih (targetPass inv r scene drawList t st).2
    refine ⟨e1 ++ e2, ?_, ?_, ?_⟩
    · show (targetLoop inv r scene drawList ts (targetPass inv r scene drawList t st).2).2.trace
        = _
      rw [ht2, ht1, List.append_assoc]
    · rw [drawnInstances_append, hd1, hd2, List.flatMap_cons]
    · show (targetLoop inv r scene drawList ts
        (targetPass inv r scene drawList t st).2).2.numDrawables = _
      rw [hn2, hn1, List.flatMap_cons, List.length_append]
      omega

/-- C10. For every draw list and every list of render targets: the pass of target `t`
issues a draw call for exactly the instances whose program handle is not `EmptyIdentity`
and whose render-target id is `t`'s id, in list order; `numDrawables` grows over the
loop by the number of such (target, instance) pairs; and an instance whose render-target
id matches no configured target is never drawn. -/
theorem draws_exactly_matching_instances (inv : Matrix4d → Matrix4d) (r : SceneRendererES2)
    (scene : Scene) (drawList : List DrawableContainer) :
    (∀ (t : RenderTarget) (c : DrawableContainer), drawnInPass t c = true ↔
      c.drawable.program ≠ EmptyIdentity ∧ c.drawable.renderTarget = t.id) ∧
    (∀ (t : RenderTarget) (st : FrameState),
      drawnInstances (eventsSince st (targetPass inv r scene drawList t st).2) =
        drawList.filter (drawnInPass t)) ∧
    (∀ (targets : List RenderTarget) (st : FrameState),
      drawnInstances (eventsSince st (targetLoop inv r scene drawList targets st).2) =
        targets.flatMap (fun t => drawList.filter (drawnInPass t)) ∧
      (targetLoop inv r scene drawList targets st).2.numDrawables = st.numDrawables +
        (targets.flatMap (fun t => drawList.filter (drawnInPass t))).length) ∧
    (∀ (targets : List RenderTarget) (st : FrameState) (c : DrawableContainer),
      (∀ t ∈ targets, c.drawable.renderTarget ≠ t.id) →
      c ∉ drawnInstances (eventsSince st (targetLoop inv r scene drawList targets st).2)) := by
  refine ⟨fun t c => by simp [drawnInPass], fun t st => ?_, fun targets st => ?_,
    fun targets st c hc => ?_⟩
  · obtain ⟨evs, ht, hd, -⟩ := targetPass_drawn inv r scene drawList t st
    rw [eventsSince_of_trace_eq ht, hd]
  · obtain ⟨evs, ht, hd, hn⟩ := targetLoop_drawn inv r scene drawList targets st
    rw [eventsSince_of_trace_eq ht, hd]
    exact ⟨rfl, hn⟩
  · obtain ⟨evs, ht, hd, -⟩ := targetLoop_drawn inv r scene drawList targets st
    rw [eventsSince_of_trace_eq ht, hd, List.mem_flatMap]
    rintro ⟨t, htm, hmem⟩
    have := (List.mem_filter.mp hmem).2
    simp only [drawnInPass, Bool.and_eq_true, decide_eq_true_eq] at this
    exact hc t htm this.2

/-! ## Lemmas: calculation pre-pass -/

/-- One iteration of the calculation loop: no depth call, no draw call, and one
`calculate` call exactly when the instance's drawable has a calculation program. -/
theorem calcInstance_spec (scene : Scene) (st : FrameState) (c : DrawableContainer) :
    ∃ evs, (calcInstance scene st c).trace = st.trace ++ evs ∧
      (∀ e ∈ evs, e.isDepthCall = false ∧ e.isDraw = false) ∧
      calculateCalls evs =
        (if c.drawable.calculationProgram ≠ EmptyIdentity then [c.drawable] else []) ∧
      (calcInstance scene st c).numDrawables = st.numDrawables ∧
      (calcInstance scene st c).depthMaskOn = st.depthMaskOn := by
  unfold calcInstance
  by_cases h : c.drawable.calculationProgram = EmptyIdentity
  · rw [if_pos h]
    exact ⟨[], by simp, by simp, by simp [calculateCalls, h], rfl, rfl⟩
  · rw [if_neg h]
    simp only []
    cases hp : scene.getProgram c.drawable.calculationProgram with
    | none =>
      exact ⟨[.runTweakers c.drawable st.baseFrameInfo, .calculate c.drawable st.baseFrameInfo],
        by simp, by simp [Event.isDepthCall, Event.isDraw], by simp [calculateCalls, h],
        rfl, rfl⟩
    | some program =>
      exact ⟨[.glUseProgram program.glProgram,
          .runTweakers c.drawable { st.baseFrameInfo with program := some program },
          .calculate c.drawable { st.baseFrameInfo with program := some program }],
        by simp, by simp [Event.isDepthCall, Event.isDraw], by simp [calculateCalls, h],
        rfl, rfl⟩

/-- The calculation loop calls `calculate` once for every instance, in list order, whose
drawable has a calculation program. -/
theorem calcLoop_spec (scene : Scene) (drawList : List DrawableContainer) (st : FrameState) :
    ∃ evs, (drawList.foldl (calcInstance scene) st).trace = st.trace ++ evs ∧
      (∀ e ∈ evs, e.isDepthCall = false ∧ e.isDraw = false) ∧
      calculateCalls evs =
        (drawList.filter
          (fun c => decide (c.drawable.calculationProgram ≠ EmptyIdentity))).map
          (fun c => c.drawable) ∧
      (drawList.foldl (calcInstance scene) st).numDrawables = st.numDrawables ∧
      (drawList.foldl (calcInstance scene) st).depthMaskOn = st.depthMaskOn := by
  induction drawList generalizing st with
  | nil => exact ⟨[], by simp, by simp, rfl, rfl, rfl⟩
  | cons c cs ih =>
    obtain ⟨e1, ht1, hp1, hc1, hn1, hm1⟩ := calcInstance_spec scene st c
    obtain ⟨e2, ht2, hp2, hc2, hn2, hm2⟩ := ih (calcInstance scene st c)
    refine ⟨e1 ++ e2, ?_, ?_, ?_, ?_, ?_⟩
    · rw [List.foldl_cons, ht2, ht1, List.append_assoc]
    · intro e he
      rcases List.mem_append.mp he with h | h
      · exact hp1 e h
      · exact hp2 e h
    · rw [calculateCalls_append, hc1, hc2, List.filter_cons]
      by_cases h : c.drawable.calculationProgram = EmptyIdentity <;> simp [h]
    · rw [List.foldl_cons, hn2, hn1]
    · rw [List.foldl_cons, hm2, hm1]

/-- The calculation pre-pass, when it does not fault: no depth call, no draw call, and one
`calculate` call for every instance whose drawable has a calculation program. -/
theorem calcPass_spec (scene : Scene) (renderTargets : List RenderTarget)
    (drawList : List DrawableContainer) (st st' : FrameState)
    (h : calcPass scene renderTargets drawList st = .ok st') :
    ∃ evs, st'.trace = st.trace ++ evs ∧
      (∀ e ∈ evs, e.isDepthCall = false ∧ e.isDraw = false) ∧
      calculateCalls evs =
        (drawList.filter
          (fun c => decide (c.drawable.calculationProgram ≠ EmptyIdentity))).map
          (fun c => c.drawable) ∧
      st'.numDrawables = st.numDrawables := by
  unfold calcPass at h
  simp only [] at h
  split_ifs at h with hany
  · cases renderTargets with
    | nil => cases h
    | cons t ts =>
      simp only [Except.ok.injEq] at h
      subst h
      obtain ⟨evs, ht, hp, hc, hn, -⟩ := calcLoop_spec scene drawList
        ((st.emit (.setActiveFramebuffer t.id)).emit (.glEnable .GL_RASTERIZER_DISCARD))
      refine ⟨[.setActiveFramebuffer t.id, .glEnable .GL_RASTERIZER_DISCARD] ++ evs ++
        [.glDisable .GL_RASTERIZER_DISCARD], ?_, ?_, ?_, ?_⟩
      · rw [emit_trace, ht]
        simp
      · intro e he
        simp only [List.mem_append, List.mem_cons, List.mem_singleton, List.not_mem_nil,
          or_false] at he
        rcases he with (((rfl | rfl) | he) | rfl)
        · exact ⟨rfl, rfl⟩
        · exact ⟨rfl, rfl⟩
        · exact hp e he
        · exact ⟨rfl, rfl⟩
      · rw [calculateCalls_append, calculateCalls_append, hc]
        simp [calculateCalls]
      · rw [emit_numDrawables, hn]
        rfl
  · simp only [Except.ok.injEq] at h
    subst h
    refine ⟨[], by simp, by simp, ?_, rfl⟩
    have hnone : drawList.filter
        (fun c => decide (c.drawable.calculationProgram ≠ EmptyIdentity)) = [] := by
      rw [List.filter_eq_nil_iff]
      intro c hc hdec
      exact hany (List.any_eq_true.mpr ⟨c, hc, hdec⟩)
    rw [hnone]
    rfl

/-! ## Theorems: calculation pre-pass -/

/-- C4, evaluated at a failing input. A map view with two offset matrices, one render
target and a scene whose single drawable (identity 1) has a calculation program: the
frame invokes `calculate` on that drawable twice, once per offset copy in the draw list. -/
theorem calc_prepass_runs_once_per_offset_copy :
    ∃ r' trace,
      render id stdSort 0
          (exampleRenderer .zBufferOn false [exampleDrawable 1 0 false false 9]
            [1, exampleShift] [exampleTarget 0]) = .ok (r', trace) ∧
        (calculateCalls trace).map (fun d => d.ident) = [1, 1] :=
  ⟨_, _, rfl, by decide⟩

/-! ## Theorems: z-buffer mode Off -/

/-- In mode Off, with `depthMaskOn` false, one iteration of the inner loop makes no depth
call and leaves `depthMaskOn` false. -/
theorem drawInstance_off (inv : Matrix4d → Matrix4d) (r : SceneRendererES2) (scene : Scene)
    (renderTarget : RenderTarget) (st : FrameState) (c : DrawableContainer)
    (hmode : r.zBufferMode = .zBufferOff) (hmask : st.depthMaskOn = false) :
    ∃ evs, (drawInstance inv r scene renderTarget st c).trace = st.trace ++ evs ∧
      (∀ e ∈ evs, e.isDepthCall = false) ∧
      (drawInstance inv r scene renderTarget st c).depthMaskOn = false := by
  obtain ⟨D, R, hD, hR, -, hRe, -⟩ := drawInstance_trace inv r scene renderTarget st c
  obtain ⟨-, -, -, -, -, -, -, hm, -⟩ := drawInstance_spec inv r scene renderTarget st c
  rw [depthPolicy_off r st c hmode hmask] at hD hm
  have hDnil : D = [] := by simpa using hD
  subst hDnil
  exact ⟨R, by simpa using hR, hRe, hm.trans hmask⟩

/-- In mode Off the inner loop of a pass makes no depth call. -/
theorem drawInstances_off (inv : Matrix4d → Matrix4d) (r : SceneRendererES2) (scene : Scene)
    (renderTarget : RenderTarget) (drawList : List DrawableContainer) (st : FrameState)
    (hmode : r.zBufferMode = .zBufferOff) (hmask : st.depthMaskOn = false) :
    ∃ evs, (drawInstances inv r scene renderTarget st drawList).trace = st.trace ++ evs ∧
      ∀ e ∈ evs, e.isDepthCall = false := by
  induction drawList generalizing st with
  | nil => exact ⟨[], by simp [drawInstances], by simp⟩
  | cons c cs ih =>
    obtain ⟨e1, ht1, hp1, hm1⟩ := drawInstance_off inv r scene renderTarget st c hmode hmask
    obtain ⟨e2, ht2, hp2⟩ := ih (drawInstance inv r scene renderTarget st c) hm1
    refine ⟨e1 ++ e2, ?_, ?_⟩
    · simp only [drawInstances, List.foldl_cons] at ht2 ⊢
      rw [ht2, ht1, List.append_assoc]
    · intro e he
      rcases List.mem_append.mp he with h | h
      · exact hp1 e h
      · exact hp2 e h

/-- In mode Off the render-target loop makes no depth call. -/
theorem targetLoop_off (inv : Matrix4d → Matrix4d) (r : SceneRendererES2) (scene : Scene)
    (drawList : List DrawableContainer) (targets : List RenderTarget) (st : FrameState)
    (hmode : r.zBufferMode = .zBufferOff) :
    ∃ evs, (targetLoop inv r scene drawList targets st).2.trace = st.trace ++ evs ∧
      ∀ e ∈ evs, e.isDepthCall = false := by
  induction targets generalizing st with
  | nil => exact ⟨[], by simp [targetLoop], by simp⟩
  | cons t ts ih =>
    obtain ⟨⟨e0, ht0, he0⟩, -, -, hm0, -⟩ := beginTargetPass_spec r t st
    have hmask : (beginTargetPass r t st).2.depthMaskOn = false := by
      rw [hm0, hmode]
      rfl
    obtain ⟨e1, ht1, hp1⟩ := drawInstances_off inv r scene (beginTargetPass r t st).1 drawList
      (beginTargetPass r t st).2 hmode hmask
    obtain ⟨e2, ht2, hp2⟩ := ih (targetPass inv r scene drawList t st).2
    refine ⟨e0 ++ e1 ++ e2, ?_, ?_⟩
    · show (targetLoop inv r scene drawList ts (targetPass inv r scene drawList t st).2).2.trace
        = _
      rw [ht2]
      show (drawInstances inv r scene (beginTargetPass r t st).1
        (beginTargetPass r t st).2 drawList).trace ++ e2 = _
      rw [ht1, ht0]
      simp only [List.append_assoc]
    · intro e he
      simp only [List.mem_append] at he
      rcases he with (h | h) | h
      · exact (he0 e h).1
      · exact hp1 e h
      · exact hp2 e h

/-- The events the active-model loop logs are no depth calls and no draw calls. -/
theorem activeModels_trace (models : List Nat) (st : FrameState) :
    ∃ evs, (models.foldl (fun st m => st.emit (.updateForFrame m)) st).trace =
        st.trace ++ evs ∧
      (∀ e ∈ evs, e.isDepthCall = false ∧ e.isDraw = false) ∧
      calculateCalls evs = [] := by
  induction models generalizing st with
  | nil => exact ⟨[], by simp, by simp, rfl⟩
  | cons m ms ih =>
    obtain ⟨evs, ht, hp, hc⟩ := ih (st.emit (.updateForFrame m))
    refine ⟨.updateForFrame m :: evs, ?_, ?_, ?_⟩
    · rw [List.foldl_cons, ht]
      simp
    · intro e he
      rcases List.mem_cons.mp he with rfl | h
      · exact ⟨rfl, rfl⟩
      · exact hp e h
    · simpa [calculateCalls] using hc

/-- The local state at the end of a drawn frame, in terms of the calculation pre-pass and
the render-target loop. -/
theorem drawFrame_eq (inv : Matrix4d → Matrix4d)
    (sort : (DrawableContainer → DrawableContainer → Bool) →
      List DrawableContainer → List DrawableContainer)
    (r : SceneRendererES2) (scene : Scene) (theView : View) (trace0 : List Event)
    (targets : List RenderTarget) (st : FrameState)
    (h : drawFrame inv sort r scene theView trace0 = .ok (targets, st)) :
    ∃ (drawList : List DrawableContainer) (st0 st1 : FrameState) (pre : List Event),
      st0.trace = trace0 ++ frameSetup r.zBufferMode ++ pre ∧
      (∀ e ∈ pre, e.isDepthCall = false ∧ e.isDraw = false) ∧
      calculateCalls pre = [] ∧
      calcPass scene r.renderTargets drawList st0 = .ok st1 ∧
      targets = (targetLoop inv r scene drawList r.renderTargets
        { st1 with curProgramId := EmptyIdentity }).1 ∧
      st.trace = (targetLoop inv r scene drawList r.renderTargets
        { st1 with curProgramId := EmptyIdentity }).2.trace ++
        [.glInvalidateFramebuffer, .presentRender, .snapshotCallback] := by
  unfold drawFrame at h
  simp only [] at h
  split at h
  · cases h
  · next st1 hcalc =>
    obtain ⟨evs, ht, hp, hc⟩ := activeModels_trace scene.activeModels
      (FrameState.emit
        { baseFrameInfo :=
            buildBaseFrameInfo inv theView scene r.framebufferWidth r.framebufferHeight,
          curProgramId := EmptyIdentity, depthMaskOn := false, numDrawables := 0,
          trace := trace0 ++ frameSetup r.zBufferMode } .preProcessChanges)
    refine ⟨_, _, st1, [.preProcessChanges] ++ evs ++ [.processChanges], ?_, ?_, ?_, hcalc, ?_, ?_⟩
    · rw [emit_trace, ht, emit_trace]
      simp only [List.append_assoc]
    · intro e he
      simp only [List.mem_append, List.mem_singleton] at he
      rcases he with (rfl | he) | rfl
      · exact ⟨rfl, rfl⟩
      · exact hp e he
      · exact ⟨rfl, rfl⟩
    · rw [calculateCalls_append, calculateCalls_append, hc]
      rfl
    · simp only [Except.ok.injEq, Prod.mk.injEq] at h
      exact h.1.symm
    · simp only [Except.ok.injEq, Prod.mk.injEq] at h
      rw [← h.2]
      simp

/-- A call of `render` that returns either skips the frame, logging at most the scene
processing or the view animation, or draws a frame with the same configuration. -/
theorem render_cases (inv : Matrix4d → Matrix4d)
    (sort : (DrawableContainer → DrawableContainer → Bool) →
      List DrawableContainer → List DrawableContainer)
    (now : ℚ) (r r' : SceneRendererES2) (trace : List Event)
    (h : render inv sort now r = .ok (r', trace)) :
    (trace = [] ∨ trace = [.processChanges] ∨ trace = [.animate]) ∨
    ∃ (scene : Scene) (theView : View) (r1 : SceneRendererES2)
      (targets : List RenderTarget) (st : FrameState),
      r.scene = some scene ∧ r.theView = some theView ∧
      r1.zBufferMode = r.zBufferMode ∧
      r1.depthBufferOffForAlpha = r.depthBufferOffForAlpha ∧
      r1.sortAlphaToEnd = r.sortAlphaToEnd ∧
      r1.renderTargets = r.renderTargets ∧
      drawFrame inv sort r1 scene theView [.animate] = .ok (targets, st) ∧
      trace = st.trace := by
  unfold render at h
  cases hs : r.scene with
  | none =>
    simp only [hs, Except.ok.injEq, Prod.mk.injEq] at h
    exact Or.inl (Or.inl h.2.symm)
  | some scene =>
    simp only [hs] at h
    by_cases hsize : (decide (r.framebufferWidth ≤ 0) || decide (r.framebufferHeight ≤ 0)) = true
    · rw [if_pos hsize] at h
      simp only [Except.ok.injEq, Prod.mk.injEq, processScene] at h
      exact Or.inl (Or.inr (Or.inl h.2.symm))
    · rw [if_neg hsize] at h
      cases hv : r.theView with
      | none => simp [hv] at h
      | some theView =>
        simp only [hv] at h
        split at h
        · simp only [Except.ok.injEq, Prod.mk.injEq] at h
          exact Or.inl (Or.inr (Or.inr h.2.symm))
        · next r1 hdec =>
          split at h
          · cases h
          · next targets st hdf =>
            simp only [Except.ok.injEq, Prod.mk.injEq] at h
            have hr1 : r1.zBufferMode = r.zBufferMode ∧
                r1.depthBufferOffForAlpha = r.depthBufferOffForAlpha ∧
                r1.sortAlphaToEnd = r.sortAlphaToEnd ∧
                r1.renderTargets = r.renderTargets := by
              unfold drawDecision at hdec
              split_ifs at hdec <;> simp only [Option.some.injEq] at hdec <;> subst hdec <;>
                exact ⟨rfl, rfl, rfl, rfl⟩
            exact Or.inr ⟨scene, theView, { r1 with lastDraw := now }, targets, st, rfl, rfl,
              hr1.1, hr1.2.1, hr1.2.2.1, hr1.2.2.2, hdf, h.2.symm⟩

/-- While no depth call is made, every draw call sees the depth state it started from. -/
theorem drawStates_of_no_depth_call (gl : GLState) (evs : List Event)
    (h : ∀ e ∈ evs, e.isDepthCall = false) :
    ∀ x ∈ drawStates gl evs, x.1.depthTest = gl.depthTest ∧ x.1.depthMask = gl.depthMask ∧
      x.1.depthFunc = gl.depthFunc := by
  induction evs generalizing gl with
  | nil => simp [drawStates]
  | cons e es ih =>
    have he := h e (List.mem_cons_self e es)
    have hes := fun x hx => h x (List.mem_cons_of_mem e hx)
    have hstep := glAfter_of_no_depth_call gl [e] (by simpa using he)
    simp only [glAfter, List.foldl_cons, List.foldl_nil] at hstep
    have := ih (gl.apply e) hes
    clear h ih
    intro x hx
    cases e <;> first
      | (simp only [drawStates, List.mem_cons] at hx
         rcases hx with rfl | hx
         · exact ⟨rfl, rfl, rfl⟩
         · exact this x hx)
      | (simp only [drawStates] at hx
         have hx2 := this x hx
         exact ⟨hx2.1.trans hstep.1, hx2.2.1.trans hstep.2.1, hx2.2.2.trans hstep.2.2⟩)

/-- C9. In z-buffer mode Off, in every call of `render` that returns, whatever the draw
list, the render targets, the alpha policy and the drawables' flags: at every draw call
the depth test is disabled, the depth write mask is off and the depth function is the
one the frame started with; and the frame either is skipped without any depth call or draw
call, or consists of the view animation, the setup of mode Off and events none of which
enables the test, changes the depth function or sets the write mask. -/
theorem zbuffer_off_depth_untouched (inv : Matrix4d → Matrix4d)
    (sort : (DrawableContainer → DrawableContainer → Bool) →
      List DrawableContainer → List DrawableContainer)
    (now : ℚ) (r r' : SceneRendererES2) (trace : List Event) (gl : GLState)
    (hmode : r.zBufferMode = .zBufferOff)
    (h : render inv sort now r = .ok (r', trace)) :
    (∀ x ∈ drawStates gl trace,
      x.1.depthTest = false ∧ x.1.depthMask = false ∧ x.1.depthFunc = gl.depthFunc) ∧
    ((∀ e ∈ trace, e.isDepthCall = false ∧ e.isDraw = false) ∨
      ∃ rest, trace = .animate :: frameSetup .zBufferOff ++ rest ∧
        ∀ e ∈ rest, e.isDepthCall = false) := by
  rcases render_cases inv sort now r r' trace h with hskip | hdraw
  · have hno : ∀ e ∈ trace, e.isDepthCall = false ∧ e.isDraw = false := by
      rcases hskip with rfl | rfl | rfl <;> simp [Event.isDepthCall, Event.isDraw]
    refine ⟨?_, Or.inl hno⟩
    rw [drawStates_of_no_draw gl trace (fun e he => (hno e he).2)]
    simp
  · obtain ⟨scene, theView, r1, targets, st, -, -, hm1, -, -, -, hdf, rfl⟩ := hdraw
    obtain ⟨drawList, st0, st1, pre, ht0, hpre, -, hcalc, -, hst⟩ :=
      drawFrame_eq inv sort r1 scene theView _ targets st hdf
    obtain ⟨cevs, htc, hcp, -, -⟩ := calcPass_spec scene r1.renderTargets drawList st0 st1 hcalc
    obtain ⟨levs, htl, hlp⟩ := targetLoop_off inv r1 scene drawList r1.renderTargets
      { st1 with curProgramId := EmptyIdentity } (hm1.trans hmode)
    have hrest : ∀ e ∈ pre ++ cevs ++ levs ++
        [.glInvalidateFramebuffer, .presentRender, .snapshotCallback], e.isDepthCall = false := by
      intro e he
      simp only [List.mem_append, List.mem_cons, List.mem_singleton, List.not_mem_nil,
        or_false] at he
      rcases he with ((he | he) | he) | (rfl | rfl | rfl)
      · exact (hpre e he).1
      · exact (hcp e he).1
      · exact hlp e he
      · rfl
      · rfl
      · rfl
    have htrace : st.trace = .animate :: frameSetup .zBufferOff ++
        (pre ++ cevs ++ levs ++
          [.glInvalidateFramebuffer, .presentRender, .snapshotCallback]) := by
      rw [hst, htl]
      show st1.trace ++ levs ++ _ = _
      rw [htc, ht0, hm1, hmode]
      simp only [List.append_assoc, List.singleton_append, List.cons_append, List.nil_append]
    refine ⟨?_, Or.inr ⟨_, htrace, hrest⟩⟩
    rw [htrace]
    intro x hx
    rw [drawStates_append] at hx
    have hsetup : drawStates gl (.animate :: frameSetup .zBufferOff) = [] := by
      simp [frameSetup, drawStates]
    rw [hsetup, List.nil_append] at hx
    have := drawStates_of_no_depth_call _ _ hrest x hx
    rw [this.1, this.2.1, this.2.2]
    simp [frameSetup, glAfter, GLState.apply, GLState.setCap]

/-- C9 on a frame in mode Off with the alpha policy on and one alpha drawable that
requests the z-buffer and depth writes: the frame has one draw call, issued with the
depth test disabled and the write mask off. -/
theorem zbuffer_off_depth_untouched_witness :
    ∃ r' trace,
      render id stdSort 0
          (exampleRenderer .zBufferOff true [exampleDrawable 1 0 true true 0] [1]
            [exampleTarget 0]) = .ok (r', trace) ∧
        (drawStates exampleGL trace).length = 1 ∧
        ∀ x ∈ drawStates exampleGL trace,
          x.1.depthTest = false ∧ x.1.depthMask = false ∧
            x.1.depthFunc = exampleGL.depthFunc := by
  refine ⟨_, _, rfl, ?_, ?_⟩
  · decide
  · exact (zbuffer_off_depth_untouched id stdSort 0
      (exampleRenderer .zBufferOff true [exampleDrawable 1 0 true true 0] [1]
        [exampleTarget 0]) _ _ exampleGL rfl rfl).1

/-! ## Theorems: z-buffer mode OffDefault -/

/-- In mode OffDefault one iteration sets the depth function from the instance's own
z-buffer request, then the write mask, and makes no further depth call. -/
theorem drawInstance_offDefault (inv : Matrix4d → Matrix4d) (r : SceneRendererES2)
    (scene : Scene) (renderTarget : RenderTarget) (st : FrameState) (c : DrawableContainer)
    (hmode : r.zBufferMode = .zBufferOffDefault) :
    ∃ R : List Event,
      (drawInstance inv r scene renderTarget st c).trace = st.trace ++
        [.glDepthFunc (requestedDepthFunc c.drawable), .glDepthMask c.drawable.writeZbuffer]
        ++ R ∧
      (∀ e ∈ R, e.isDepthCall = false) ∧
      (∀ x gl, x ∈ drawStates gl R → x.1.depthFunc = gl.depthFunc ∧ x.2.1 = c.drawable) := by
  obtain ⟨D, R, hD, hR, -, hRe, hRd⟩ := drawInstance_trace inv r scene renderTarget st c
  have hD2 := depthPolicy_offDefault r st c hmode
  rw [hD] at hD2
  have hDeq := List.append_cancel_left hD2
  subst hDeq
  exact ⟨R, hR, hRe, fun x gl hx => ⟨(hRd x gl hx).2.2.1, (hRd x gl hx).2.2.2⟩⟩

/-- In mode OffDefault every draw call of the inner loop is issued with the depth
function its own drawable asks for. -/
theorem drawInstances_offDefault (inv : Matrix4d → Matrix4d) (r : SceneRendererES2)
    (scene : Scene) (renderTarget : RenderTarget) (drawList : List DrawableContainer)
    (st : FrameState) (gl : GLState) (hmode : r.zBufferMode = .zBufferOffDefault) :
    ∃ evs, (drawInstances inv r scene renderTarget st drawList).trace = st.trace ++ evs ∧
      ∀ x ∈ drawStates gl evs, x.1.depthFunc = requestedDepthFunc x.2.1 := by
  induction drawList generalizing st gl with
  | nil => exact ⟨[], by simp [drawInstances], by simp [drawStates]⟩
  | cons c cs ih =>
    obtain ⟨R, ht1, -, hRd⟩ := drawInstance_offDefault inv r scene renderTarget st c hmode
    obtain ⟨e2, ht2, hd2⟩ := ih (drawInstance inv r scene renderTarget st c)
      (glAfter gl ([.glDepthFunc (requestedDepthFunc c.drawable),
        .glDepthMask c.drawable.writeZbuffer] ++ R))
    refine ⟨[.glDepthFunc (requestedDepthFunc c.drawable),
        .glDepthMask c.drawable.writeZbuffer] ++ R ++ e2, ?_, ?_⟩
    · simp only [drawInstances, List.foldl_cons] at ht2 ⊢
      rw [ht2, ht1]
      simp only [List.append_assoc]
    · intro x hx
      rw [drawStates_append] at hx
      rcases List.mem_append.mp hx with h | h
      · rw [drawStates_append] at h
        simp only [drawStates, List.nil_append] at h
        have := hRd x _ h
        rw [this.1, this.2]
        rfl
      · exact hd2 x h

/-- C7 as stated fails. In mode OffDefault, for the scene with a drawable of priority 1
that requests the z-buffer and a drawable of priority 2 that does not, the sorted draw
list holds them in this order, and the second is drawn with depth function "always"
although it comes after the first z-buffer-requesting instance of the pass. -/
theorem offDefault_depth_func_flip_counterexample :
    ∃ r' trace,
      render id stdSort 0
          (exampleRenderer .zBufferOffDefault false
            [exampleDrawable 1 1 false true 0, exampleDrawable 2 2 false false 0] [1]
            [exampleTarget 0]) = .ok (r', trace) ∧
        (drawStates exampleGL trace).map (fun x => (x.2.1.ident, x.2.1.requestZBuffer,
          x.1.depthFunc)) = [(1, true, .GL_LESS), (2, false, .GL_ALWAYS)] :=
  ⟨_, _, rfl, by decide⟩

/-- C7, amended. In mode OffDefault, for every draw list and every render-target pass,
the depth function in force while an instance is processed is "less" when that instance
requests the z-buffer and "always" when it does not: after the iteration of each instance
`c` of the pass, and at every draw call of the pass. So it is "always" for every instance
before the first z-buffer-requesting one and "less" for that one; for a later instance it
is again decided by that instance's own request. -/
theorem offDefault_depth_func_follows_request (inv : Matrix4d → Matrix4d)
    (r : SceneRendererES2) (scene : Scene) (gl : GLState)
    (hmode : r.zBufferMode = .zBufferOffDefault) :
    (∀ (t : RenderTarget) (st : FrameState) (pre : List DrawableContainer)
        (c : DrawableContainer),
      (glAfter gl (targetPass inv r scene (pre ++ [c]) t st).2.trace).depthFunc =
        if c.drawable.requestZBuffer then .GL_LESS else .GL_ALWAYS) ∧
    (∀ (t : RenderTarget) (st : FrameState) (drawList : List DrawableContainer),
      ∀ x ∈ drawStates (glAfter gl st.trace)
          (eventsSince st (targetPass inv r scene drawList t st).2),
        x.1.depthFunc = if x.2.1.requestZBuffer then .GL_LESS else .GL_ALWAYS) := by
  constructor
  · intro t st pre c
    show (glAfter gl (drawInstances inv r scene (beginTargetPass r t st).1
      (beginTargetPass r t st).2 (pre ++ [c])).trace).depthFunc = _
    simp only [drawInstances, List.foldl_append, List.foldl_cons, List.foldl_nil]
    obtain ⟨R, ht, hRe, -⟩ := drawInstance_offDefault inv r scene (beginTargetPass r t st).1
      (List.foldl (drawInstance inv r scene (beginTargetPass r t st).1)
        (beginTargetPass r t st).2 pre) c hmode
    rw [ht, glAfter_append, (glAfter_of_no_depth_call _ R hRe).2.2, glAfter_append]
    rfl
  · intro t st drawList x hx
    obtain ⟨⟨e0, ht0, he0⟩, -, -, -, -⟩ := beginTargetPass_spec r t st
    obtain ⟨e1, ht1, hd1⟩ := drawInstances_offDefault inv r scene (beginTargetPass r t st).1
      drawList (beginTargetPass r t st).2 (glAfter (glAfter gl st.trace) e0) hmode
    have htr : (targetPass inv r scene drawList t st).2.trace = st.trace ++ (e0 ++ e1) := by
      show (drawInstances inv r scene (beginTargetPass r t st).1
        (beginTargetPass r t st).2 drawList).trace = _
      rw [ht1, ht0, List.append_assoc]
    rw [eventsSince_of_trace_eq htr, drawStates_append,
      drawStates_of_no_draw _ e0 (fun e he => (he0 e he).2), List.nil_append] at hx
    exact hd1 x hx

/-- C7 amended, in a pass over a z-buffer-requesting instance followed by one that does
not request it: after the second iteration the depth function is "always". -/
theorem offDefault_depth_func_follows_request_witness :
    (glAfter exampleGL
        (targetPass id (exampleRenderer .zBufferOffDefault false [] [1] [exampleTarget 0])
          (exampleScene []) ([instOpaqueZ] ++ [instA]) (exampleTarget 0)
          exampleState).2.trace).depthFunc = .GL_ALWAYS :=
  (offDefault_depth_func_follows_request id
    (exampleRenderer .zBufferOffDefault false [] [1] [exampleTarget 0]) (exampleScene [])
    exampleGL rfl).1 (exampleTarget 0) exampleState [instOpaqueZ] instA

/-! ## Theorems: depth-off-for-alpha policy -/

/-- No iteration of the inner loop enables the depth test, in any mode. -/
theorem drawInstances_no_enable (inv : Matrix4d → Matrix4d) (r : SceneRendererES2)
    (scene : Scene) (renderTarget : RenderTarget) (drawList : List DrawableContainer)
    (st : FrameState) :
    ∃ evs, (drawInstances inv r scene renderTarget st drawList).trace = st.trace ++ evs ∧
      ∀ e ∈ evs, e ≠ Event.glEnable .GL_DEPTH_TEST := by
  induction drawList generalizing st with
  | nil => exact ⟨[], by simp [drawInstances], by simp⟩
  | cons c cs ih =>
    obtain ⟨D, R, -, ht1, hDe, hRe, -⟩ := drawInstance_trace inv r scene renderTarget st c
    obtain ⟨e2, ht2, hp2⟩ := ih (drawInstance inv r scene renderTarget st c)
    refine ⟨D ++ R ++ e2, ?_, ?_⟩
    · simp only [drawInstances, List.foldl_cons] at ht2 ⊢
      rw [ht2, ht1]
      simp only [List.append_assoc]
    · intro e he
      simp only [List.mem_append] at he
      rcases he with (h | h) | h
      · exact (hDe e h).2.2
      · intro heq
        have := hRe e h
        rw [heq] at this
        cases this
      · exact hp2 e h

/-- In mode On, while the pass keeps the link "`depthMaskOn` false implies depth test
disabled", one iteration keeps it; and at an alpha instance under the policy the depth
test is disabled once the depth block has run. -/
theorem drawInstance_on (inv : Matrix4d → Matrix4d) (r : SceneRendererES2) (scene : Scene)
    (renderTarget : RenderTarget) (st : FrameState) (c : DrawableContainer) (gl : GLState)
    (hmode : r.zBufferMode = .zBufferOn)
    (hinv : st.depthMaskOn = false → (glAfter gl st.trace).depthTest = false) :
    ((drawInstance inv r scene renderTarget st c).depthMaskOn = false →
      (glAfter gl (drawInstance inv r scene renderTarget st c).trace).depthTest = false) ∧
    (r.depthBufferOffForAlpha = true → c.drawable.hasAlpha st.baseFrameInfo = true →
      ∃ D R, (drawInstance inv r scene renderTarget st c).trace = st.trace ++ D ++ R ∧
        (∀ e ∈ D, e.isDraw = false) ∧
        (glAfter gl (st.trace ++ D)).depthTest = false ∧
        (∀ e ∈ R, e ≠ Event.glEnable .GL_DEPTH_TEST)) := by
  obtain ⟨D, R, hD, hR, hDe, hRe, -⟩ := drawInstance_trace inv r scene renderTarget st c
  obtain ⟨-, -, -, -, -, -, -, hm, -⟩ := drawInstance_spec inv r scene renderTarget st c
  obtain ⟨hon1, hon2⟩ := depthPolicy_on r st c hmode
  rw [hD, List.append_assoc] at hon1
  have hDeq := List.append_cancel_left hon1
  have hRne : ∀ e ∈ R, e ≠ Event.glEnable .GL_DEPTH_TEST := by
    intro e he heq
    have := hRe e he
    rw [heq] at this
    cases this
  have hDne : ∀ e ∈ D, e ≠ Event.glEnable .GL_DEPTH_TEST := fun e he => (hDe e he).2.2
  -- the depth test after the depth block, when the flag ends up false
  have hafterD : (depthPolicy r st c).depthMaskOn = false →
      (glAfter gl (st.trace ++ D)).depthTest = false := by
    intro hoff
    rw [hon2] at hoff
    cases hmask : st.depthMaskOn with
    | false =>
      rw [glAfter_append]
      exact (depthTest_stays_off _ D hDne (hinv hmask)).1
    | true =>
      have hcond : (r.depthBufferOffForAlpha && c.drawable.hasAlpha st.baseFrameInfo) = true := by
        simpa [hmask] using hoff
      have hc2 : (r.depthBufferOffForAlpha && st.depthMaskOn &&
          c.drawable.hasAlpha st.baseFrameInfo) = true := by
        simp only [Bool.and_eq_true] at hcond ⊢
        exact ⟨⟨hcond.1, hmask⟩, hcond.2⟩
      rw [hDeq, if_pos hc2, glAfter_append]
      simp [glAfter, GLState.apply, GLState.setCap]
  constructor
  · intro hoff
    rw [hm] at hoff
    rw [hR, glAfter_append]
    exact (depthTest_stays_off _ R hRne (hafterD hoff)).1
  · intro hpol halpha
    refine ⟨D, R, hR, fun e he => (hDe e he).2.1, ?_, hRne⟩
    apply hafterD
    rw [hon2, hpol, halpha]
    simp

/-- In mode On the inner loop keeps the link "`depthMaskOn` false implies depth test
disabled". -/
theorem drawInstances_on (inv : Matrix4d → Matrix4d) (r : SceneRendererES2) (scene : Scene)
    (renderTarget : RenderTarget) (drawList : List DrawableContainer) (st : FrameState)
    (gl : GLState) (hmode : r.zBufferMode = .zBufferOn)
    (hinv : st.depthMaskOn = false → (glAfter gl st.trace).depthTest = false) :
    (drawInstances inv r scene renderTarget st drawList).depthMaskOn = false →
      (glAfter gl (drawInstances inv r scene renderTarget st drawList).trace).depthTest
        = false := by
  induction drawList generalizing st with
  | nil => exact hinv
  | cons c cs ih =>
    simp only [drawInstances, List.foldl_cons] at ih ⊢
    exact ih _ (drawInstance_on inv r scene renderTarget st c gl hmode hinv).1

/-- In mode OffDefault an iteration of the inner loop is the same whatever the alpha
policy is. -/
theorem drawInstance_offDefault_policy (inv : Matrix4d → Matrix4d) (r : SceneRendererES2)
    (scene : Scene) (renderTarget : RenderTarget) (p : Bool)
    (hmode : r.zBufferMode = .zBufferOffDefault) :
    drawInstance inv { r with depthBufferOffForAlpha := p } scene renderTarget =
      drawInstance inv r scene renderTarget := by
  funext st c
  have hd : depthPolicy { r with depthBufferOffForAlpha := p } st c = depthPolicy r st c := by
    unfold depthPolicy
    simp [hmode]
  unfold drawInstance
  simp only [hd]
  rfl

/-- In mode OffDefault no iteration of the inner loop disables the depth test. -/
theorem drawInstances_offDefault_no_disable (inv : Matrix4d → Matrix4d)
    (r : SceneRendererES2) (scene : Scene) (renderTarget : RenderTarget)
    (drawList : List DrawableContainer) (st : FrameState)
    (hmode : r.zBufferMode = .zBufferOffDefault) :
    ∃ evs, (drawInstances inv r scene renderTarget st drawList).trace = st.trace ++ evs ∧
      ∀ e ∈ evs, e ≠ Event.glDisable .GL_DEPTH_TEST := by
  induction drawList generalizing st with
  | nil => exact ⟨[], by simp [drawInstances], by simp⟩
  | cons c cs ih =>
    obtain ⟨R, ht1, hRe, -⟩ := drawInstance_offDefault inv r scene renderTarget st c hmode
    obtain ⟨e2, ht2, hp2⟩ := ih (drawInstance inv r scene renderTarget st c)
    refine ⟨[.glDepthFunc (requestedDepthFunc c.drawable),
        .glDepthMask c.drawable.writeZbuffer] ++ R ++ e2, ?_, ?_⟩
    · simp only [drawInstances, List.foldl_cons] at ht2 ⊢
      rw [ht2, ht1]
      simp only [List.append_assoc]
    · intro e he
      simp only [List.mem_append, List.mem_cons, List.mem_singleton, List.not_mem_nil,
        or_false] at he
      rcases he with ((rfl | rfl) | h) | h
      · simp
      · simp
      · intro heq
        have := hRe e h
        rw [heq] at this
        cases this
      · exact hp2 e h

/-- C8. With depth-off-for-alpha enabled and z-buffer mode On, in every render-target
pass over every draw list: once the traversal reaches an instance `c` whose drawable has
alpha (asked with the frame context of that moment), the depth test is disabled after
the iteration of `c` and after every later iteration of the pass, and every draw call
issued from `c` onward sees it disabled. In mode OffDefault the policy has no effect: the
pass is the same with the policy on or off, and it never disables the depth test. -/
theorem alpha_policy_disables_depth_test (inv : Matrix4d → Matrix4d) (r : SceneRendererES2)
    (scene : Scene) (gl : GLState) :
    (r.zBufferMode = .zBufferOn → r.depthBufferOffForAlpha = true →
      ∀ (t : RenderTarget) (st : FrameState) (pre : List DrawableContainer)
        (c : DrawableContainer) (mid : List DrawableContainer),
        c.drawable.hasAlpha (targetPass inv r scene pre t st).2.baseFrameInfo = true →
        (glAfter gl (targetPass inv r scene (pre ++ c :: mid) t st).2.trace).depthTest
          = false ∧
        ∀ x ∈ drawStates (glAfter gl (targetPass inv r scene pre t st).2.trace)
            (eventsSince (targetPass inv r scene pre t st).2
              (targetPass inv r scene (pre ++ c :: mid) t st).2),
          x.1.depthTest = false) ∧
    (r.zBufferMode = .zBufferOffDefault →
      ∀ (t : RenderTarget) (st : FrameState) (drawList : List DrawableContainer),
        (∀ e ∈ eventsSince st (targetPass inv r scene drawList t st).2,
          e ≠ Event.glDisable .GL_DEPTH_TEST) ∧
        targetPass inv { r with depthBufferOffForAlpha := true } scene drawList t st =
          targetPass inv { r with depthBufferOffForAlpha := false } scene drawList t st) := by
  constructor
  · intro hmode hpol t st pre c mid halpha
    obtain ⟨-, -, -, hb, -⟩ := beginTargetPass_spec r t st
    have hinv0 : (beginTargetPass r t st).2.depthMaskOn = false →
        (glAfter gl (beginTargetPass r t st).2.trace).depthTest = false := by
      rw [hb, hmode]
      intro h
      cases h
    have hinv1 := drawInstances_on inv r scene (beginTargetPass r t st).1 pre
      (beginTargetPass r t st).2 gl hmode hinv0
    change c.drawable.hasAlpha (drawInstances inv r scene (beginTargetPass r t st).1
      (beginTargetPass r t st).2 pre).baseFrameInfo = true at halpha
    obtain ⟨D, R, htr, hDd, hoff, hRne⟩ := (drawInstance_on inv r scene
      (beginTargetPass r t st).1 _ c gl hmode hinv1).2 hpol halpha
    obtain ⟨e2, ht2, hp2⟩ := drawInstances_no_enable inv r scene (beginTargetPass r t st).1 mid
      (drawInstance inv r scene (beginTargetPass r t st).1
        (drawInstances inv r scene (beginTargetPass r t st).1 (beginTargetPass r t st).2 pre) c)
    have hfinal : (targetPass inv r scene (pre ++ c :: mid) t st).2.trace =
        (targetPass inv r scene pre t st).2.trace ++ (D ++ (R ++ e2)) := by
      show (drawInstances inv r scene (beginTargetPass r t st).1
        (beginTargetPass r t st).2 (pre ++ c :: mid)).trace =
        (drawInstances inv r scene (beginTargetPass r t st).1
          (beginTargetPass r t st).2 pre).trace ++ _
      have : drawInstances inv r scene (beginTargetPass r t st).1
          (beginTargetPass r t st).2 (pre ++ c :: mid) =
          drawInstances inv r scene (beginTargetPass r t st).1
            (drawInstance inv r scene (beginTargetPass r t st).1
              (drawInstances inv r scene (beginTargetPass r t st).1
                (beginTargetPass r t st).2 pre) c) mid := by
        simp [drawInstances, List.foldl_append]
      rw [this, ht2, htr]
      simp only [List.append_assoc]
    have hRe2 : ∀ e ∈ R ++ e2, e ≠ Event.glEnable .GL_DEPTH_TEST := by
      intro e he
      rcases List.mem_append.mp he with h | h
      · exact hRne e h
      · exact hp2 e h
    have hstay := depthTest_stays_off _ (R ++ e2) hRe2 hoff
    constructor
    · rw [hfinal, ← List.append_assoc, glAfter_append]
      exact hstay.1
    · intro x hx
      rw [eventsSince_of_trace_eq hfinal, drawStates_append,
        drawStates_of_no_draw _ D hDd, List.nil_append, ← glAfter_append] at hx
      exact hstay.2 x hx
  · intro hmode t st drawList
    constructor
    · obtain ⟨⟨e0, ht0, he0⟩, -, -, -, -⟩ := beginTargetPass_spec r t st
      obtain ⟨e1, ht1, hp1⟩ := drawInstances_offDefault_no_disable inv r scene
        (beginTargetPass r t st).1 drawList (beginTargetPass r t st).2 hmode
      have htr : (targetPass inv r scene drawList t st).2.trace = st.trace ++ (e0 ++ e1) := by
        show (drawInstances inv r scene (beginTargetPass r t st).1
          (beginTargetPass r t st).2 drawList).trace = _
        rw [ht1, ht0, List.append_assoc]
      rw [eventsSince_of_trace_eq htr]
      intro e he
      rcases List.mem_append.mp he with h | h
      · intro heq
        have := (he0 e h).1
        rw [heq] at this
        cases this
      · exact hp1 e h
    · unfold targetPass drawInstances
      simp only [fun t p => drawInstance_offDefault_policy inv r scene t p hmode]
      rfl

/-- C8 in mode On with the policy enabled, in a pass over `[A, B, C]` that starts with
the depth test enabled: B has alpha, and after the pass the depth test is disabled,
as it is at the draw calls of B and C. -/
theorem alpha_policy_disables_depth_test_witness :
    (glAfter exampleGLDepthOn
        (targetPass id (exampleRenderer .zBufferOn true [] [1] [exampleTarget 0])
          (exampleScene []) ([instA] ++ instB :: [instC]) (exampleTarget 0)
          exampleState).2.trace).depthTest = false ∧
      (drawStates exampleGLDepthOn
        (targetPass id (exampleRenderer .zBufferOn true [] [1] [exampleTarget 0])
          (exampleScene []) ([instA] ++ instB :: [instC]) (exampleTarget 0)
          exampleState).2.trace).map (fun x => (x.2.1.ident, x.1.depthTest)) =
        [(1, true), (2, false), (3, false)] :=
  ⟨((alpha_policy_disables_depth_test id
      (exampleRenderer .zBufferOn true [] [1] [exampleTarget 0]) (exampleScene [])
      exampleGLDepthOn).1 rfl rfl (exampleTarget 0) exampleState [instA] instB [instC] rfl).1,
    by decide⟩

/-! ## Theorems: degenerate configurations -/

/-- With no render target `setClearColor` changes nothing. -/
theorem setClearColor_no_targets (r : SceneRendererES2) (color : RGBAColor)
    (h : r.renderTargets = []) : setClearColor r color = r := by
  unfold setClearColor
  rw [h]
  rfl

/-- C11, evaluated at a failing input. With zero render targets and a scene holding one
drawable with a calculation program, `setClearColor` changes nothing, and the following
`render` reads `renderTargets[0]` of the empty list in the calculation pre-pass. -/
theorem zero_targets_calc_prepass_reads_out_of_range :
    setClearColor
        (exampleRenderer .zBufferOn false [exampleDrawable 1 0 false false 9] [1] [])
        ⟨255, 0, 0, 255⟩ =
      exampleRenderer .zBufferOn false [exampleDrawable 1 0 false false 9] [1] [] ∧
    render id stdSort 0
        (setClearColor
          (exampleRenderer .zBufferOn false [exampleDrawable 1 0 false false 9] [1] [])
          ⟨255, 0, 0, 255⟩) = .error .renderTargetIndex :=
  ⟨rfl, rfl⟩

/-- C12, evaluated at a failing input. Drawable 1 uses program handle 7, which the scene
resolves to GL program 70; drawable 2 uses handle 8, for which the scene has no program.
Both are drawn, and the draw call of drawable 2 is issued with GL program 70 bound and
with the frame context still carrying the program of drawable 1. -/
theorem missing_program_instance_is_drawn :
    ∃ r' trace,
      render id stdSort 0
          (exampleRenderer .zBufferOn false
            [exampleDrawable 1 1 false false 0,
              { exampleDrawable 2 2 false false 0 with program := 8 }] [1]
            [exampleTarget 0]) = .ok (r', trace) ∧
        (exampleScene []).getProgram 8 = none ∧
        (drawStates exampleGL trace).map (fun x => (x.2.1.ident, x.2.1.program, x.1.program,
          x.2.2.program.map (fun p => p.glProgram))) =
          [(1, 7, 70, some 70), (2, 8, 70, some 70)] := by
  refine ⟨_, _, rfl, rfl, ?_⟩
  decide

/-- C15. With a scene present and a surface of zero area, `render` returns after the
scene's change processing alone: the only event is `processChanges` (no OpenGL call, no
view animation, no collection, no draw call, no present or snapshot hook), and the
renderer is left as it was except for the frame counter. -/
theorem zero_area_surface_only_processes_scene (inv : Matrix4d → Matrix4d)
    (sort : (DrawableContainer → DrawableContainer → Bool) →
      List DrawableContainer → List DrawableContainer)
    (now : ℚ) (r : SceneRendererES2) (scene : Scene) (hs : r.scene = some scene)
    (hsize : r.framebufferWidth ≤ 0 ∨ r.framebufferHeight ≤ 0) :
    ∃ r', render inv sort now r = .ok (r', [.processChanges]) ∧
      r' = { r with frameCount := r.frameCount + 1 } ∧
      r'.extraFrameDrawn = r.extraFrameDrawn ∧ r'.lastDraw = r.lastDraw := by
  refine ⟨{ r with frameCount := r.frameCount + 1 }, ?_, rfl, rfl, rfl⟩
  unfold render
  simp only [hs]
  have hcond : (decide (r.framebufferWidth ≤ 0) || decide (r.framebufferHeight ≤ 0)) = true := by
    rcases hsize with h | h <;> simp [h]
  rw [if_pos hcond]
  simp [processScene, hs]

/-- C15 on a surface of width 0. -/
theorem zero_area_surface_only_processes_scene_witness :
    ∃ r', render id stdSort 0
        { exampleRenderer .zBufferOn false [exampleDrawable 1 0 false false 0] [1]
            [exampleTarget 0] with framebufferWidth := 0 } = .ok (r', [.processChanges]) ∧
      r' = { ({ exampleRenderer .zBufferOn false [exampleDrawable 1 0 false false 0] [1]
            [exampleTarget 0] with framebufferWidth := 0 } : SceneRendererES2) with
          frameCount := 0 + 1 } ∧
      r'.extraFrameDrawn = false ∧ r'.lastDraw = 0 :=
  zero_area_surface_only_processes_scene id stdSort 0
    { exampleRenderer .zBufferOn false [exampleDrawable 1 0 false false 0] [1]
        [exampleTarget 0] with framebufferWidth := 0 }
    (exampleScene [exampleDrawable 1 0 false false 0]) rfl (Or.inl (by decide))

/-- C16, evaluated at a failing input. With the scene absent `render` returns at once and
leaves the renderer as it was; with a scene, a surface of non-zero area and the view
absent it dereferences the null view in `theView->animate()`. -/
theorem absent_view_is_dereferenced :
    (∀ (inv : Matrix4d → Matrix4d)
        (sort : (DrawableContainer → DrawableContainer → Bool) →
          List DrawableContainer → List DrawableContainer)
        (now : ℚ) (r : SceneRendererES2), r.scene = none →
        render inv sort now r = .ok (r, [])) ∧
    render id stdSort 0
        { exampleRenderer .zBufferOn false [exampleDrawable 1 0 false false 0] [1]
            [exampleTarget 0] with theView := none } = .error .nullView := by
  refine ⟨fun inv sort now r h => ?_, rfl⟩
  unfold render
  simp only [h]

/-- C19, evaluated at failing inputs. Two render targets, 0 and 1. In mode On with
depth-off-for-alpha: drawable 1 (no alpha, target 1) and drawable 2 (alpha, target 0);
the pass of target 0 starts with the depth test enabled, the pass of target 1 starts with
it disabled, and drawable 1 is drawn there without depth test. In mode OffDefault with one
z-buffer-requesting drawable: the pass of target 1 starts with depth function "less". -/
theorem depth_state_carries_over_to_next_pass :
    (∃ r' trace,
      render id stdSort 0
          (exampleRenderer .zBufferOn true
            [{ exampleDrawable 1 1 false false 0 with renderTarget := 1 },
              exampleDrawable 2 2 true false 0] [1]
            [exampleTarget 0, exampleTarget 1]) = .ok (r', trace) ∧
        (bindStates exampleGL trace).map (fun x => (x.1, x.2.depthTest)) =
          [(0, true), (1, false)] ∧
        (drawStates exampleGL trace).map (fun x => (x.2.1.ident, x.1.depthTest)) =
          [(2, false), (1, false)]) ∧
    (∃ r' trace,
      render id stdSort 0
          (exampleRenderer .zBufferOffDefault false [exampleDrawable 1 1 false true 0] [1]
            [exampleTarget 0, exampleTarget 1]) = .ok (r', trace) ∧
        (bindStates exampleGL trace).map (fun x => (x.1, x.2.depthFunc)) =
          [(0, .GL_ALWAYS), (1, .GL_LESS)]) := by
  refine ⟨⟨_, _, rfl, ?_, ?_⟩, ⟨_, _, rfl, ?_⟩⟩ <;> decide

/-! ## Theorems: clearing render targets -/

theorem clearCalls_append (a b : List Event) :
    clearCalls (a ++ b) = clearCalls a + clearCalls b := by
  induction a with
  | nil => simp [clearCalls]
  | cons e es ih =>
    cases e <;> simp [clearCalls, ih]
    omega

/-- The inner loop of a pass never clears. -/
theorem drawInstance_clearCalls (inv : Matrix4d → Matrix4d) (r : SceneRendererES2)
    (scene : Scene) (renderTarget : RenderTarget) (st : FrameState) (c : DrawableContainer) :
    clearCalls (drawInstance inv r scene renderTarget st c).trace = clearCalls st.trace := by
  have hdepth : clearCalls (depthPolicy r st c).trace = clearCalls st.trace := by
    unfold depthPolicy
    simp only []
    split_ifs <;> simp [clearCalls_append, clearCalls, FrameState.emit]
  have hprog : ∀ s : FrameState, clearCalls (selectProgram r scene s c).trace =
      clearCalls s.trace := by
    intro s
    unfold selectProgram
    simp only []
    split_ifs
    · cases scene.getProgram c.drawable.program with
      | none => rfl
      | some program =>
        simp only []
        split_ifs <;> simp [clearCalls_append, clearCalls]
    · rfl
  unfold drawInstance
  simp only []
  rw [(issueDraw_spec renderTarget _ c).1, clearCalls_append, hprog,
    (setTransforms_fields inv _ c).1, hdepth]
  split_ifs <;> simp [clearCalls]

theorem drawInstances_clearCalls (inv : Matrix4d → Matrix4d) (r : SceneRendererES2)
    (scene : Scene) (renderTarget : RenderTarget) (drawList : List DrawableContainer)
    (st : FrameState) :
    clearCalls (drawInstances inv r scene renderTarget st drawList).trace =
      clearCalls st.trace := by
  induction drawList generalizing st with
  | nil => rfl
  | cons c cs ih =>
    simp only [drawInstances, List.foldl_cons] at ih ⊢
    rw [ih, drawInstance_clearCalls]

/-- One pass leaves its target with `clearOnce` reset and everything else as it was, and
its trace extends the trace it started from. -/
theorem targetPass_target (inv : Matrix4d → Matrix4d) (r : SceneRendererES2) (scene : Scene)
    (drawList : List DrawableContainer) (t : RenderTarget) (st : FrameState) :
    (targetPass inv r scene drawList t st).1 = { t with clearOnce := false } ∧
    ∃ evs, (targetPass inv r scene drawList t st).2.trace = st.trace ++ evs ∧
      clearCalls evs = if t.clearEveryFrame || t.clearOnce then 1 else 0 := by
  obtain ⟨evs, htr, -, -⟩ := targetPass_drawn inv r scene drawList t st
  have hcount : clearCalls (targetPass inv r scene drawList t st).2.trace =
      clearCalls st.trace + if t.clearEveryFrame || t.clearOnce then 1 else 0 := by
    show clearCalls (drawInstances inv r scene (beginTargetPass r t st).1
      (beginTargetPass r t st).2 drawList).trace = _
    rw [drawInstances_clearCalls, beginTargetPass_eq]
    split_ifs <;> simp [clearCalls_append, clearCalls]
  constructor
  · show (beginTargetPass r t st).1 = _
    rw [beginTargetPass_eq]
    split_ifs with h
    · rfl
    · have hc : t.clearOnce = false := by
        cases hco : t.clearOnce
        · rfl
        · simp [hco] at h
      cases t
      simp only at hc
      subst hc
      rfl
  · refine ⟨evs, htr, ?_⟩
    rw [htr, clearCalls_append] at hcount
    omega

/-- The render-target loop returns every target with `clearOnce` reset. -/
theorem targetLoop_targets (inv : Matrix4d → Matrix4d) (r : SceneRendererES2)
    (scene : Scene) (drawList : List DrawableContainer) (targets : List RenderTarget)
    (st : FrameState) :
    (targetLoop inv r scene drawList targets st).1 =
      targets.map (fun t => { t with clearOnce := false }) := by
  induction targets generalizing st with
  | nil => rfl
  | cons t ts ih =>
    show (targetPass inv r scene drawList t st).1 ::
      (targetLoop inv r scene drawList ts (targetPass inv r scene drawList t st).2).1 = _
    rw [ih, (targetPass_target inv r scene drawList t st).1]
    rfl

/-- C20. For every render target of a drawn frame: its pass clears (once) exactly when
its `clearEveryFrame` or `clearOnce` flag is set as the pass starts; the pass leaves the
target with `clearOnce` false and all else, `clearEveryFrame` included, unchanged; hence
the loop returns every target with `clearOnce` reset, and a target with only `clearOnce`
set is cleared by its pass and not by a later pass over the target as that pass left it. -/
theorem clear_follows_flags_and_consumes_clearOnce (inv : Matrix4d → Matrix4d)
    (r : SceneRendererES2) (scene : Scene) (drawList : List DrawableContainer) :
    (∀ (t : RenderTarget) (st : FrameState),
      clearCalls (eventsSince st (targetPass inv r scene drawList t st).2) =
        (if t.clearEveryFrame || t.clearOnce then 1 else 0) ∧
      (targetPass inv r scene drawList t st).1.clearOnce = false ∧
      (targetPass inv r scene drawList t st).1.clearEveryFrame = t.clearEveryFrame ∧
      (targetPass inv r scene drawList t st).1 = { t with clearOnce := false }) ∧
    (∀ (targets : List RenderTarget) (st : FrameState),
      (targetLoop inv r scene drawList targets st).1 =
        targets.map (fun t => { t with clearOnce := false })) ∧
    (∀ (t : RenderTarget) (st st2 : FrameState) (r2 : SceneRendererES2) (scene2 : Scene)
        (drawList2 : List DrawableContainer),
      t.clearEveryFrame = false → t.clearOnce = true →
      clearCalls (eventsSince st (targetPass inv r scene drawList t st).2) = 1 ∧
      clearCalls (eventsSince st2 (targetPass inv r2 scene2 drawList2
        (targetPass inv r scene drawList t st).1 st2).2) = 0) := by
  refine ⟨fun t st => ?_, fun targets st => ?_, fun t st st2 r2 scene2 drawList2 he ho => ?_⟩
  · obtain ⟨ht, evs, htr, hc⟩ := targetPass_target inv r scene drawList t st
    rw [eventsSince_of_trace_eq htr, ht]
    exact ⟨hc, rfl, rfl, rfl⟩
  · exact targetLoop_targets inv r scene drawList targets st
  · obtain ⟨ht, evs, htr, hc⟩ := targetPass_target inv r scene drawList t st
    obtain ⟨-, evs2, htr2, hc2⟩ := targetPass_target inv r2 scene2 drawList2
      (targetPass inv r scene drawList t st).1 st2
    rw [eventsSince_of_trace_eq htr, eventsSince_of_trace_eq htr2, hc, hc2, ht]
    simp [he, ho]

/-! ## Theorems: the decision to draw -/

/-- `render` with a scene, a view and a surface of non-zero area: the view is animated,
then the frame is skipped or drawn as `drawDecision` says. -/
theorem render_eq (inv : Matrix4d → Matrix4d)
    (sort : (DrawableContainer → DrawableContainer → Bool) →
      List DrawableContainer → List DrawableContainer)
    (now : ℚ) (r : SceneRendererES2) (scene : Scene) (theView : View)
    (hs : r.scene = some scene) (hv : r.theView = some theView)
    (hw : 0 < r.framebufferWidth) (hh : 0 < r.framebufferHeight) :
    render inv sort now r =
      match drawDecision { r with frameCount := r.frameCount + 1 } scene with
      | none => .ok ({ r with frameCount := r.frameCount + 1 }, [.animate])
      | some r2 =>
        match drawFrame inv sort { r2 with lastDraw := now } scene theView [.animate] with
        | .error e => .error e
        | .ok (renderTargets, st) =>
          .ok (updateFrameCount { r2 with lastDraw := now, renderTargets := renderTargets },
            st.trace) := by
  unfold render
  simp only [hs, hv]
  have hcond : ¬ (decide (r.framebufferWidth ≤ 0) || decide (r.framebufferHeight ≤ 0)) = true := by
    simp only [Bool.or_eq_true, decide_eq_true_eq, not_or, not_le]
    exact ⟨hw, hh⟩
  rw [if_neg hcond]

/-- The frame counter update touches nothing but the frame counter. -/
theorem updateFrameCount_fields (r : SceneRendererES2) :
    (updateFrameCount r).extraFrameDrawn = r.extraFrameDrawn ∧
    (updateFrameCount r).extraFrameMode = r.extraFrameMode ∧
    (updateFrameCount r).lastDraw = r.lastDraw ∧
    (updateFrameCount r).framebufferWidth = r.framebufferWidth ∧
    (updateFrameCount r).framebufferHeight = r.framebufferHeight ∧
    (updateFrameCount r).renderTargets = r.renderTargets := by
  unfold updateFrameCount
  split_ifs <;> exact ⟨rfl, rfl, rfl, rfl, rfl, rfl⟩

/-- With at least one render target, the drawing of a frame does not fault; it ends with
the present hook and returns as many render targets as there were. -/
theorem drawFrame_ok (inv : Matrix4d → Matrix4d)
    (sort : (DrawableContainer → DrawableContainer → Bool) →
      List DrawableContainer → List DrawableContainer)
    (r : SceneRendererES2) (scene : Scene) (theView : View) (trace0 : List Event)
    (ht : r.renderTargets ≠ []) :
    ∃ targets st, drawFrame inv sort r scene theView trace0 = .ok (targets, st) ∧
      frameDrawn st.trace = true ∧ targets ≠ [] := by
  have hcalc : ∀ (drawList : List DrawableContainer) (st0 : FrameState),
      ∃ st1, calcPass scene r.renderTargets drawList st0 = .ok st1 := by
    intro drawList st0
    unfold calcPass
    simp only []
    split_ifs
    · cases hrt : r.renderTargets with
      | nil => exact absurd hrt ht
      | cons t ts => exact ⟨_, rfl⟩
    · exact ⟨_, rfl⟩
  cases hdf : drawFrame inv sort r scene theView trace0 with
  | error e =>
    exfalso
    unfold drawFrame at hdf
    simp only [] at hdf
    split at hdf
    · next e' herr =>
      obtain ⟨st1, hst1⟩ := hcalc _ _
      rw [hst1] at herr
      cases herr
    · cases hdf
  | ok p =>
    obtain ⟨targets, st⟩ := p
    obtain ⟨drawList, st0, st1, pre, -, -, -, -, htargets, hst⟩ :=
      drawFrame_eq inv sort r scene theView trace0 targets st hdf
    refine ⟨targets, st, rfl, ?_, ?_⟩
    · rw [hst]
      simp [frameDrawn, Event.isPresent]
    · rw [htargets, (targetLoop_targets inv r scene drawList r.renderTargets _)]
      simpa using ht

/-- Without changes the frame is skipped when extra-frame mode is off or the extra frame
has been drawn. -/
theorem drawDecision_none (r : SceneRendererES2) (scene : Scene)
    (hc : hasChanges r scene = false)
    (h : r.extraFrameMode = false ∨ r.extraFrameDrawn = true) :
    drawDecision r scene = none := by
  unfold drawDecision
  rcases h with h | h
  · simp [hc, h]
  · cases hm : r.extraFrameMode <;> simp [hc, h, hm]

/-- With changes the frame is drawn and `extraFrameDrawn` is reset. -/
theorem drawDecision_changed (r : SceneRendererES2) (scene : Scene)
    (hc : hasChanges r scene = true) :
    drawDecision r scene = some { r with extraFrameDrawn := false } := by
  unfold drawDecision
  simp [hc]

/-- Without changes, in extra-frame mode, the frame is drawn once and `extraFrameDrawn`
is set. -/
theorem drawDecision_extra (r : SceneRendererES2) (scene : Scene)
    (hc : hasChanges r scene = false) (hm : r.extraFrameMode = true)
    (he : r.extraFrameDrawn = false) :
    drawDecision r scene = some { r with extraFrameDrawn := true } := by
  unfold drawDecision
  simp [hc, hm, he]

/-- One call without changes, extra-frame mode off: the view is animated, nothing else
happens, and only the frame counter moves. -/
theorem render_skips_without_changes (inv : Matrix4d → Matrix4d)
    (sort : (DrawableContainer → DrawableContainer → Bool) →
      List DrawableContainer → List DrawableContainer)
    (now : ℚ) (r : SceneRendererES2) (scene : Scene) (theView : View)
    (hs : r.scene = some scene) (hv : r.theView = some theView)
    (hw : 0 < r.framebufferWidth) (hh : 0 < r.framebufferHeight)
    (hmode : r.extraFrameMode = false) (hno : hasChanges r scene = false) :
    render inv sort now r = .ok ({ r with frameCount := r.frameCount + 1 }, [.animate]) := by
  rw [render_eq inv sort now r scene theView hs hv hw hh,
    drawDecision_none { r with frameCount := r.frameCount + 1 } scene hno (Or.inl hmode)]

/-- C13. With extra-frame mode off, a scene and a view present and a surface of non-zero
area, a call of `render` for which `hasChanges()` is false animates the view and returns:
no OpenGL call, no scene processing, no draw call, no present or snapshot hook, and
`extraFrameDrawn` and `lastDraw` stay as they were. The same holds for every call of a
sequence of such calls, of any length. -/
theorem unchanged_scene_skips_frame (inv : Matrix4d → Matrix4d)
    (sort : (DrawableContainer → DrawableContainer → Bool) →
      List DrawableContainer → List DrawableContainer)
    (envs : List FrameEnv) (r : SceneRendererES2)
    (hw : 0 < r.framebufferWidth) (hh : 0 < r.framebufferHeight)
    (hmode : r.extraFrameMode = false) (hno : ∀ env ∈ envs, env.changed = false) :
    (∀ (now : ℚ) (scene : Scene) (theView : View), r.scene = some scene →
      r.theView = some theView → hasChanges r scene = false →
      render inv sort now r = .ok ({ r with frameCount := r.frameCount + 1 }, [.animate])) ∧
    ∃ r', renderSeq inv sort envs r = .ok (r', envs.map (fun _ => [Event.animate])) ∧
      r'.extraFrameDrawn = r.extraFrameDrawn ∧ r'.lastDraw = r.lastDraw := by
  constructor
  · intro now scene theView hs hv hc
    exact render_skips_without_changes inv sort now r scene theView hs hv hw hh hmode hc
  · induction envs generalizing r with
    | nil => exact ⟨r, rfl, rfl, rfl⟩
    | cons env rest ih =>
      have hstep := render_skips_without_changes inv sort env.now (env.apply r) env.scene
        env.theView rfl rfl hw hh hmode (hno env (List.mem_cons_self env rest))
      obtain ⟨r', hseq, h1, h2⟩ := ih
        { env.apply r with frameCount := (env.apply r).frameCount + 1 } hw hh hmode
        (fun e he => hno e (List.mem_cons_of_mem env he))
      refine ⟨r', ?_, h1, h2⟩
      simp only [renderSeq, hstep, hseq, List.map_cons]

/-- C13 for two calls in a row. -/
theorem unchanged_scene_skips_frame_witness :
    ∃ r', renderSeq id stdSort [exampleEnv false, exampleEnv false]
        (exampleRenderer .zBufferOn false [] [1] [exampleTarget 0]) =
          .ok (r', [[Event.animate], [Event.animate]]) ∧
      r'.extraFrameDrawn = false ∧ r'.lastDraw = 0 :=
  (unchanged_scene_skips_frame id stdSort [exampleEnv false, exampleEnv false]
    (exampleRenderer .zBufferOn false [] [1] [exampleTarget 0]) (by decide) (by decide) rfl
    (by
      intro env he
      simp only [List.mem_cons, List.mem_singleton, List.not_mem_nil, or_false, or_self] at he
      subst he
      rfl)).2

/-- One call in extra-frame mode, with at least one render target: the call returns; it
draws a frame exactly when there are changes or `extraFrameDrawn` is false; afterwards
`extraFrameDrawn` is true exactly when there were no changes. -/
theorem render_extra_frame (inv : Matrix4d → Matrix4d)
    (sort : (DrawableContainer → DrawableContainer → Bool) →
      List DrawableContainer → List DrawableContainer)
    (now : ℚ) (r : SceneRendererES2) (scene : Scene) (theView : View)
    (hs : r.scene = some scene) (hv : r.theView = some theView)
    (hw : 0 < r.framebufferWidth) (hh : 0 < r.framebufferHeight)
    (hmode : r.extraFrameMode = true) (ht : r.renderTargets ≠ []) :
    ∃ r' trace, render inv sort now r = .ok (r', trace) ∧
      frameDrawn trace = (hasChanges r scene || !r.extraFrameDrawn) ∧
      r'.extraFrameDrawn = !hasChanges r scene ∧
      r'.extraFrameMode = true ∧ r'.framebufferWidth = r.framebufferWidth ∧
      r'.framebufferHeight = r.framebufferHeight ∧ r'.renderTargets ≠ [] := by
  cases hc : hasChanges r scene with
  | true =>
    rw [render_eq inv sort now r scene theView hs hv hw hh]
    obtain ⟨targets, st, hdf, hdrawn, hne⟩ := drawFrame_ok inv sort
      { r with frameCount := r.frameCount + 1, extraFrameDrawn := false, lastDraw := now }
      scene theView [.animate] ht
    rw [drawDecision_changed { r with frameCount := r.frameCount + 1 } scene hc]
    simp only [hdf]
    refine ⟨_, _, rfl, ?_, ?_, ?_, ?_, ?_, ?_⟩
    · simp [hdrawn]
    · exact (updateFrameCount_fields _).1
    · exact (updateFrameCount_fields _).2.1.trans hmode
    · exact (updateFrameCount_fields _).2.2.2.1
    · exact (updateFrameCount_fields _).2.2.2.2.1
    · rw [(updateFrameCount_fields _).2.2.2.2.2]
      exact hne
  | false =>
    cases he : r.extraFrameDrawn with
    | true =>
      rw [render_eq inv sort now r scene theView hs hv hw hh]
      rw [drawDecision_none { r with frameCount := r.frameCount + 1 } scene hc (Or.inr he)]
      exact ⟨_, _, rfl, by simp [frameDrawn, Event.isPresent], he, hmode, rfl, rfl, ht⟩
    | false =>
      rw [render_eq inv sort now r scene theView hs hv hw hh]
      obtain ⟨targets, st, hdf, hdrawn, hne⟩ := drawFrame_ok inv sort
        { r with frameCount := r.frameCount + 1, extraFrameDrawn := true, lastDraw := now }
        scene theView [.animate] ht
      rw [drawDecision_extra { r with frameCount := r.frameCount + 1 } scene hc hmode he]
      simp only [hdf]
      refine ⟨_, _, rfl, ?_, ?_, ?_, ?_, ?_, ?_⟩
      · simp [hdrawn]
      · exact (updateFrameCount_fields _).1
      · exact (updateFrameCount_fields _).2.1.trans hmode
      · exact (updateFrameCount_fields _).2.2.2.1
      · exact (updateFrameCount_fields _).2.2.2.2.1
      · rw [(updateFrameCount_fields _).2.2.2.2.2]
        exact hne

/-- A sequence of calls in extra-frame mode, with at least one render target: every call
returns; the first call draws exactly when it has changes or `extraFrameDrawn` was false;
each later call draws exactly when it or the call before it has changes. -/
theorem renderSeq_extra_frame (inv : Matrix4d → Matrix4d)
    (sort : (DrawableContainer → DrawableContainer → Bool) →
      List DrawableContainer → List DrawableContainer)
    (envs : List FrameEnv) (r : SceneRendererES2)
    (hw : 0 < r.framebufferWidth) (hh : 0 < r.framebufferHeight)
    (hmode : r.extraFrameMode = true) (ht : r.renderTargets ≠ []) :
    ∃ r' traces, renderSeq inv sort envs r = .ok (r', traces) ∧
      traces.length = envs.length ∧
      (∀ env t, envs[0]? = some env → traces[0]? = some t →
        frameDrawn t = (env.changed || !r.extraFrameDrawn)) ∧
      (∀ (i : Nat) (A B : FrameEnv) (tB : List Event), envs[i]? = some A →
        envs[i + 1]? = some B → traces[i + 1]? = some tB →
        frameDrawn tB = (B.changed || A.changed)) := by
  induction envs generalizing r with
  | nil => exact ⟨r, [], rfl, rfl, by simp, by simp⟩
  | cons env rest ih =>
    obtain ⟨r1, t, hstep, hdrawn, hflag, hm1, hw1, hh1, ht1⟩ :=
      render_extra_frame inv sort env.now (env.apply r) env.scene env.theView rfl rfl hw hh
        hmode ht
    obtain ⟨r', traces, hseq, hlen, hfirst, hnext⟩ := ih r1 (hw1 ▸ hw) (hh1 ▸ hh) hm1 ht1
    refine ⟨r', t :: traces, ?_, ?_, ?_, ?_⟩
    · simp only [renderSeq, hstep, hseq]
    · simp [hlen]
    · intro env' t' he ht'
      simp only [List.getElem?_cons_zero, Option.some.injEq] at he ht'
      subst he ht'
      exact hdrawn
    · intro i A B tB hA hB htB
      cases i with
      | zero =>
        simp only [List.getElem?_cons_zero, Option.some.injEq, zero_add,
          List.getElem?_cons_succ] at hA hB htB
        subst hA
        rw [hfirst B tB hB htB, hflag]
        have : hasChanges (env.apply r) env.scene = env.changed := rfl
        rw [this, Bool.not_not]
      | succ k =>
        simp only [List.getElem?_cons_succ] at hA hB htB
        exact hnext k A B tB hA hB htB

/-- C14. With extra-frame mode on, for every sequence of calls of `render` on a renderer
with a scene, a view, a surface of non-zero area and at least one render target: every
call returns; a call with changes draws a frame; a call without changes draws a frame if
the call before it had changes and draws nothing if the call before it had none. So after
a call with changes the first change-free call draws and the further consecutive
change-free calls draw nothing. -/
theorem extra_frame_mode_draws_one_extra_frame (inv : Matrix4d → Matrix4d)
    (sort : (DrawableContainer → DrawableContainer → Bool) →
      List DrawableContainer → List DrawableContainer)
    (envs : List FrameEnv) (r : SceneRendererES2)
    (hw : 0 < r.framebufferWidth) (hh : 0 < r.framebufferHeight)
    (hmode : r.extraFrameMode = true) (ht : r.renderTargets ≠ []) :
    ∃ r' traces, renderSeq inv sort envs r = .ok (r', traces) ∧
      traces.length = envs.length ∧
      (∀ (i : Nat) (env : FrameEnv) (t : List Event), envs[i]? = some env →
        traces[i]? = some t → env.changed = true → frameDrawn t = true) ∧
      (∀ (i : Nat) (A B : FrameEnv) (tB : List Event), envs[i]? = some A →
        envs[i + 1]? = some B → traces[i + 1]? = some tB → B.changed = false →
        frameDrawn tB = A.changed) := by
  obtain ⟨r', traces, hseq, hlen, hfirst, hnext⟩ :=
    renderSeq_extra_frame inv sort envs r hw hh hmode ht
  refine ⟨r', traces, hseq, hlen, ?_, ?_⟩
  · intro i env t he htr hc
    cases i with
    | zero => rw [hfirst env t he htr, hc, Bool.true_or]
    | succ k =>
      have hk : k < envs.length := by
        have := (List.getElem?_eq_some.mp he).1
        omega
      rw [hnext k envs[k] env t (List.getElem?_eq_getElem hk) he htr, hc, Bool.true_or]
  · intro i A B tB hA hB htB hc
    rw [hnext i A B tB hA hB htB, hc, Bool.false_or]

/-- C14 on the sequence change, no change, no change, change, no change: the calls draw,
draw, skip, draw, draw. -/
theorem extra_frame_mode_draws_one_extra_frame_witness :
    (∃ r' traces,
      renderSeq id stdSort
          [exampleEnv true, exampleEnv false, exampleEnv false, exampleEnv true,
            exampleEnv false]
          { exampleRenderer .zBufferOn false [] [1] [exampleTarget 0] with
            extraFrameMode := true } = .ok (r', traces) ∧
        traces.map frameDrawn = [true, true, false, true, true]) ∧
    ∃ r' traces,
      renderSeq id stdSort
          [exampleEnv true, exampleEnv false, exampleEnv false, exampleEnv true,
            exampleEnv false]
          { exampleRenderer .zBufferOn false [] [1] [exampleTarget 0] with
            extraFrameMode := true } = .ok (r', traces) ∧
        traces.length = 5 ∧
        (∀ (i : Nat) (env : FrameEnv) (t : List Event),
          [exampleEnv true, exampleEnv false, exampleEnv false, exampleEnv true,
            exampleEnv false][i]? = some env →
          traces[i]? = some t → env.changed = true → frameDrawn t = true) ∧
        (∀ (i : Nat) (A B : FrameEnv) (tB : List Event),
          [exampleEnv true, exampleEnv false, exampleEnv false, exampleEnv true,
            exampleEnv false][i]? = some A →
          [exampleEnv true, exampleEnv false, exampleEnv false, exampleEnv true,
            exampleEnv false][i + 1]? = some B →
          traces[i + 1]? = some tB → B.changed = false → frameDrawn tB = A.changed) := by
  constructor
  · refine ⟨_, _, rfl, ?_⟩
    decide
  · exact extra_frame_mode_draws_one_extra_frame id stdSort _ _ (by decide) (by decide) rfl
      (by simp [exampleRenderer])

/-! ## Theorems: stability and idempotence of the sort -/

/-- The sort keys of a result of the sort are in non-decreasing order. -/
theorem sortKeys_sorted (useAlpha useZBuffer : Bool) (fi : RendererFrameInfo)
    (drawList out : List DrawableContainer)
    (h : StdSortResult (DrawListSortStruct2 useAlpha useZBuffer fi) drawList out) :
    (out.map (sortKey useAlpha useZBuffer fi)).Sorted (· ≤ ·) := by
  rw [List.Sorted, List.pairwise_map]
  exact h.2.imp (fun h => (comp_eq_false_iff_sortKey_le _ _ _ _ _).mp h)

/-- Two instances are equivalent for the comparator exactly when their keys are equal. -/
theorem equivalent_iff_sortKey_eq (useAlpha useZBuffer : Bool) (fi : RendererFrameInfo)
    (a b : DrawableContainer) :
    (DrawListSortStruct2 useAlpha useZBuffer fi a b = false ∧
      DrawListSortStruct2 useAlpha useZBuffer fi b a = false) ↔
      sortKey useAlpha useZBuffer fi a = sortKey useAlpha useZBuffer fi b := by
  rw [comp_eq_false_iff_sortKey_le, comp_eq_false_iff_sortKey_le]
  constructor
  · rintro ⟨h1, h2⟩
    exact le_antisymm h2 h1
  · intro h
    exact ⟨h.ge, h.le⟩

/-- The instances `instA` and `instA2` are different. -/
theorem instA_ne_instA2 : instA ≠ instA2 := fun h =>
  absurd (congrArg (fun c => c.drawable.ident) h) (by decide)

/-- C17 as stated fails. `instA` and `instA2` are equivalent for the comparator, and for
the draw list `[instA, instA2]` the contract of `std::sort` admits the result
`[instA2, instA]`, in which their relative order is reversed. -/
theorem sort_stability_counterexample :
    StdSortResult (DrawListSortStruct2 true true exampleFrameInfo)
        [instA, instA2] [instA2, instA] ∧
      DrawListSortStruct2 true true exampleFrameInfo instA instA2 = false ∧
      DrawListSortStruct2 true true exampleFrameInfo instA2 instA = false ∧
      ¬ (∀ (useAlpha useZBuffer : Bool) (fi : RendererFrameInfo)
          (drawList out : List DrawableContainer),
          StdSortResult (DrawListSortStruct2 useAlpha useZBuffer fi) drawList out →
          ∀ (i j : Nat) (a b : DrawableContainer), i < j →
            drawList[i]? = some a → drawList[j]? = some b →
            DrawListSortStruct2 useAlpha useZBuffer fi a b = false →
            DrawListSortStruct2 useAlpha useZBuffer fi b a = false →
            ∃ i' j' : Nat, i' < j' ∧ out[i']? = some a ∧ out[j']? = some b) := by
  have hs : StdSortResult (DrawListSortStruct2 true true exampleFrameInfo)
      [instA, instA2] [instA2, instA] :=
    ⟨List.Perm.swap instA instA2 [], by decide⟩
  refine ⟨hs, by decide, by decide, fun hall => ?_⟩
  obtain ⟨i', j', hlt, hi, hj⟩ := hall true true exampleFrameInfo _ _ hs 0 1 instA instA2
    (by decide) rfl rfl (by decide) (by decide)
  match i', j', hlt, hi, hj with
  | 0, _, _, hi, _ =>
    simp only [List.getElem?_cons_zero, Option.some.injEq] at hi
    exact instA_ne_instA2 hi.symm
  | 1, j' + 2, _, _, hj => simp at hj
  | i' + 2, _, _, hi, _ => simp at hi

/-- C17, amended. For every draw list, a result of the sort is a rearrangement of the
collected list; the instances the comparator ranks as equivalent are exactly those with
equal sort keys; and they occupy consecutive positions of the result: an instance that
lies between two instances of equal key has that key too. Their relative order is left
open. -/
theorem equivalent_instances_sort_together (useAlpha useZBuffer : Bool)
    (fi : RendererFrameInfo) (drawList out : List DrawableContainer)
    (h : StdSortResult (DrawListSortStruct2 useAlpha useZBuffer fi) drawList out) :
    out.Perm drawList ∧
    (∀ a b : DrawableContainer,
      (DrawListSortStruct2 useAlpha useZBuffer fi a b = false ∧
        DrawListSortStruct2 useAlpha useZBuffer fi b a = false) ↔
        sortKey useAlpha useZBuffer fi a = sortKey useAlpha useZBuffer fi b) ∧
    (∀ (i j k : Nat) (a b c : DrawableContainer), i < j → j < k →
      out[i]? = some a → out[j]? = some b → out[k]? = some c →
      sortKey useAlpha useZBuffer fi a = sortKey useAlpha useZBuffer fi c →
      sortKey useAlpha useZBuffer fi b = sortKey useAlpha useZBuffer fi a) := by
  refine ⟨h.1, equivalent_iff_sortKey_eq useAlpha useZBuffer fi, ?_⟩
  intro i j k a b c hij hjk ha hb hc hac
  have hab := (comp_eq_false_iff_sortKey_le _ _ _ _ _).mp (pairwise_getElem? h.2 hij ha hb)
  have hbc := (comp_eq_false_iff_sortKey_le _ _ _ _ _).mp (pairwise_getElem? h.2 hjk hb hc)
  exact le_antisymm (hac ▸ hbc) hab

/-- C17 amended, at the result `[instC, instA2, instA]` of sorting `[instA, instA2,
instC]`. -/
theorem equivalent_instances_sort_together_witness :
    StdSortResult (DrawListSortStruct2 true true exampleFrameInfo)
        [instA, instA2, instC] [instC, instA2, instA] ∧
      [instC, instA2, instA].Perm [instA, instA2, instC] :=
  have hs : StdSortResult (DrawListSortStruct2 true true exampleFrameInfo)
      [instA, instA2, instC] [instC, instA2, instA] :=
    ⟨((List.Perm.swap instA2 instC [instA]).trans
        ((List.Perm.swap instA instC []).cons instA2)).trans
        (List.Perm.swap instA instA2 [instC]), by decide⟩
  ⟨hs, (equivalent_instances_sort_together true true exampleFrameInfo _ _ hs).1⟩

/-- C18 as stated fails. For the draw list `[instA, instA2]` the contract of `std::sort`
admits `[instA, instA2]` as the result of sorting once and `[instA2, instA]` as the result
of sorting that list again. -/
theorem sort_idempotence_counterexample :
    StdSortResult (DrawListSortStruct2 true true exampleFrameInfo)
        [instA, instA2] [instA, instA2] ∧
      StdSortResult (DrawListSortStruct2 true true exampleFrameInfo)
        [instA, instA2] [instA2, instA] ∧
      ¬ (∀ (useAlpha useZBuffer : Bool) (fi : RendererFrameInfo)
          (drawList out1 out2 : List DrawableContainer),
          StdSortResult (DrawListSortStruct2 useAlpha useZBuffer fi) drawList out1 →
          StdSortResult (DrawListSortStruct2 useAlpha useZBuffer fi) out1 out2 →
          out2 = out1) := by
  have h1 : StdSortResult (DrawListSortStruct2 true true exampleFrameInfo)
      [instA, instA2] [instA, instA2] := ⟨List.Perm.refl _, by decide⟩
  have h2 : StdSortResult (DrawListSortStruct2 true true exampleFrameInfo)
      [instA, instA2] [instA2, instA] :=
    ⟨List.Perm.swap instA instA2 [], by decide⟩
  refine ⟨h1, h2, fun hall => ?_⟩
  have := hall true true exampleFrameInfo _ _ _ h1 h2
  simp only [List.cons.injEq, and_true] at this
  exact instA_ne_instA2 this.1.symm

/-- C18, amended. For every draw list and every setting of the flags, sorting the sorted
list again yields a rearrangement of it with the same sequence of sort keys as sorting
once, which is again a sorted result for the collected list; it is the same sequence of
instances when no two instances have the same key. -/
theorem resort_keeps_key_sequence (useAlpha useZBuffer : Bool) (fi : RendererFrameInfo)
    (drawList out1 out2 : List DrawableContainer)
    (h1 : StdSortResult (DrawListSortStruct2 useAlpha useZBuffer fi) drawList out1)
    (h2 : StdSortResult (DrawListSortStruct2 useAlpha useZBuffer fi) out1 out2) :
    out2.map (sortKey useAlpha useZBuffer fi) = out1.map (sortKey useAlpha useZBuffer fi) ∧
    out2.Perm out1 ∧
    StdSortResult (DrawListSortStruct2 useAlpha useZBuffer fi) drawList out2 ∧
    ((out1.map (sortKey useAlpha useZBuffer fi)).Nodup → out2 = out1) := by
  have hkeys : out2.map (sortKey useAlpha useZBuffer fi) =
      out1.map (sortKey useAlpha useZBuffer fi) :=
    List.eq_of_perm_of_sorted (h2.1.map _) (sortKeys_sorted _ _ _ _ _ h2)
      (sortKeys_sorted _ _ _ _ _ h1)
  exact ⟨hkeys, h2.1, ⟨h2.1.trans h1.1, h2.2⟩,
    fun hn => eq_of_perm_of_map_eq _ out2 out1 h2.1 hkeys hn⟩

/-- C18 amended, at `[instA, instB, instC]`: sorted once to `[instC, instA, instB]`, and
sorting again gives the same list, the keys being distinct. -/
theorem resort_keeps_key_sequence_witness :
    StdSortResult (DrawListSortStruct2 true false exampleFrameInfo)
        [instA, instB, instC] [instC, instA, instB] ∧
      StdSortResult (DrawListSortStruct2 true false exampleFrameInfo)
        [instC, instA, instB] [instC, instA, instB] ∧
      [instC, instA, instB].map (sortKey true false exampleFrameInfo) =
        [instC, instA, instB].map (sortKey true false exampleFrameInfo) :=
  have h1 : StdSortResult (DrawListSortStruct2 true false exampleFrameInfo)
      [instA, instB, instC] [instC, instA, instB] :=
    ⟨(List.Perm.swap instA instC [instB]).trans ((List.Perm.swap instB instC []).cons instA),
      by decide⟩
  have h2 : StdSortResult (DrawListSortStruct2 true false exampleFrameInfo)
      [instC, instA, instB] [instC, instA, instB] := ⟨List.Perm.refl _, by decide⟩
  ⟨h1, h2, (resort_keeps_key_sequence true false exampleFrameInfo _ _ _ h1 h2).1⟩

/-! ## Theorems: the comparator as an ordering -/

/-- C21. For every setting of `useAlpha` and `useZBuffer` the comparator is a strict weak
ordering on instances: irreflexive, asymmetric, transitive, and with transitive
incomparability; and it is the strict lexicographic order on the key (alpha if
`useAlpha`, priority, z-buffer request if `useZBuffer`). -/
theorem comparator_strict_weak_ordering (useAlpha useZBuffer : Bool)
    (fi : RendererFrameInfo) :
    (∀ a : DrawableContainer, DrawListSortStruct2 useAlpha useZBuffer fi a a = false) ∧
    (∀ a b : DrawableContainer, DrawListSortStruct2 useAlpha useZBuffer fi a b = true →
      DrawListSortStruct2 useAlpha useZBuffer fi b a = false) ∧
    (∀ a b c : DrawableContainer, DrawListSortStruct2 useAlpha useZBuffer fi a b = true →
      DrawListSortStruct2 useAlpha useZBuffer fi b c = true →
      DrawListSortStruct2 useAlpha useZBuffer fi a c = true) ∧
    (∀ a b c : DrawableContainer,
      (DrawListSortStruct2 useAlpha useZBuffer fi a b = false ∧
        DrawListSortStruct2 useAlpha useZBuffer fi b a = false) →
      (DrawListSortStruct2 useAlpha useZBuffer fi b c = false ∧
        DrawListSortStruct2 useAlpha useZBuffer fi c b = false) →
      (DrawListSortStruct2 useAlpha useZBuffer fi a c = false ∧
        DrawListSortStruct2 useAlpha useZBuffer fi c a = false)) ∧
    (∀ a b : DrawableContainer, DrawListSortStruct2 useAlpha useZBuffer fi a b = true ↔
      sortKey useAlpha useZBuffer fi a < sortKey useAlpha useZBuffer fi b) := by
  refine ⟨fun a => ?_, fun a b hab => ?_, fun a b c hab hbc => ?_, fun a b c hab hbc => ?_,
    fun a b => comp_eq_true_iff_sortKey_lt useAlpha useZBuffer fi a b⟩
  · rw [comp_eq_false_iff_sortKey_le]
  · rw [comp_eq_false_iff_sortKey_le]
    exact le_of_lt ((comp_eq_true_iff_sortKey_lt _ _ _ _ _).mp hab)
  · rw [comp_eq_true_iff_sortKey_lt] at hab hbc ⊢
    exact lt_trans hab hbc
  · rw [equivalent_iff_sortKey_eq] at hab hbc ⊢
    exact hab.trans hbc

/-! ## Theorems: the program bound at a draw call -/

/-- Events that bind no program leave the bound program alone. -/
theorem glAfter_program (gl : GLState) (evs : List Event)
    (h : ∀ e ∈ evs, e.isUseProgram = false) : (glAfter gl evs).program = gl.program := by
  induction evs generalizing gl with
  | nil => rfl
  | cons e es ih =>
    have he := h e (List.mem_cons_self e es)
    have hes := fun x hx => h x (List.mem_cons_of_mem e hx)
    have := ih (gl.apply e) hes
    simp only [glAfter, List.foldl_cons] at this ⊢
    rw [this]
    clear h ih hes this
    cases e with
    | glEnable cap => cases cap <;> rfl
    | glDisable cap => cases cap <;> rfl
    | glUseProgram p => simp [Event.isUseProgram] at he
    | _ => rfl

/-- A depth call binds no program. -/
theorem isUseProgram_of_isDepthCall (e : Event) (h : e.isDepthCall = true) :
    e.isUseProgram = false := by
  cases e <;> first | rfl | simp [Event.isDepthCall] at h

/-- The program block, by cases: the handle is the last one looked up and nothing
happens; or the lookup fails and only `curProgramId` moves; or the lookup gives a program,
which is bound in OpenGL and stored in the frame context. In each case `curProgramId`
ends as the instance's handle. -/
theorem selectProgram_cases (r : SceneRendererES2) (scene : Scene) (s : FrameState)
    (c : DrawableContainer) :
    (selectProgram r scene s c).curProgramId = c.drawable.program ∧
    ((c.drawable.program = s.curProgramId ∧ selectProgram r scene s c = s) ∨
     (scene.getProgram c.drawable.program = none ∧
        (selectProgram r scene s c).trace = s.trace ∧
        (selectProgram r scene s c).baseFrameInfo = s.baseFrameInfo) ∨
     (∃ p P, scene.getProgram c.drawable.program = some p ∧
        (selectProgram r scene s c).trace = s.trace ++ (.glUseProgram p.glProgram :: P) ∧
        (∀ e ∈ P, e.isUseProgram = false ∧ e.isDraw = false) ∧
        (selectProgram r scene s c).baseFrameInfo.program = some p)) := by
  unfold selectProgram
  simp only []
  by_cases h1 : c.drawable.program = s.curProgramId
  · have hb : (c.drawable.program != s.curProgramId) = false := by simp [h1]
    simp only [hb]
    exact ⟨h1.symm, Or.inl ⟨h1, rfl⟩⟩
  · have hb : (c.drawable.program != s.curProgramId) = true := by simp [h1]
    simp only [hb, if_true]
    cases hp : scene.getProgram c.drawable.program with
    | none => exact ⟨rfl, Or.inr (Or.inl ⟨rfl, rfl, rfl⟩)⟩
    | some program =>
      simp only []
      split_ifs
      · exact ⟨rfl, Or.inr (Or.inr ⟨program,
          [.setLights program (Matrix4dToMatrix4f c.mvpMat),
            .setUniformNumLights program r.numLights], rfl, by simp,
          by simp [Event.isUseProgram, Event.isDraw], rfl⟩)⟩
      · exact ⟨rfl, Or.inr (Or.inr ⟨program, [.setUniformNumLights program r.numLights],
          rfl, by simp, by simp [Event.isUseProgram, Event.isDraw], rfl⟩)⟩

/-- The end of an iteration leaves the frame context and `curProgramId` alone. -/
theorem issueDraw_fields (renderTarget : RenderTarget) (st : FrameState)
    (c : DrawableContainer) :
    (issueDraw renderTarget st c).baseFrameInfo = st.baseFrameInfo ∧
      (issueDraw renderTarget st c).curProgramId = st.curProgramId := by
  unfold issueDraw
  simp only []
  split_ifs <;> exact ⟨rfl, rfl⟩

/-- Appending events that bind no program keeps the link between `curProgramId` and the
bound program, when the frame context and `curProgramId` stay as they are. -/
theorem ProgramBound.extend {scene : Scene} {gl : GLState} {st st' : FrameState}
    (h : ProgramBound scene gl st) (evs : List Event)
    (htr : st'.trace = st.trace ++ evs) (hevs : ∀ e ∈ evs, e.isUseProgram = false)
    (hcur : st'.curProgramId = st.curProgramId)
    (hprog : st'.baseFrameInfo.program = st.baseFrameInfo.program) :
    ProgramBound scene gl st' := by
  intro hne
  rw [hcur] at hne
  obtain ⟨p, h1, h2, h3⟩ := h hne
  refine ⟨p, by rw [hcur]; exact h1, by rw [hprog]; exact h2, ?_⟩
  rw [htr, glAfter_append, glAfter_program _ evs hevs]
  exact h3

/-- The program block keeps the link between `curProgramId` and the bound program, for an
instance whose handle the scene resolves unless it is empty; it logs no draw call and
leaves `curProgramId` at the instance's handle. -/
theorem selectProgram_bound (r : SceneRendererES2) (scene : Scene) (s : FrameState)
    (c : DrawableContainer) (gl : GLState) (hinv : ProgramBound scene gl s)
    (hres : c.drawable.program ≠ EmptyIdentity →
      ∃ p, scene.getProgram c.drawable.program = some p) :
    ProgramBound scene gl (selectProgram r scene s c) ∧
    (selectProgram r scene s c).curProgramId = c.drawable.program ∧
    ∃ P, (selectProgram r scene s c).trace = s.trace ++ P ∧ ∀ e ∈ P, e.isDraw = false := by
  obtain ⟨hcur, hcases⟩ := selectProgram_cases r scene s c
  refine ⟨?_, hcur, ?_⟩
  · rcases hcases with ⟨-, heq⟩ | ⟨hnone, -, -⟩ | ⟨p, P, hp, htr, hP, hprog⟩
    · rw [heq]
      exact hinv
    · intro hne
      rw [hcur] at hne
      obtain ⟨p, hp⟩ := hres hne
      rw [hnone] at hp
      cases hp
    · intro _
      refine ⟨p, by rw [hcur]; exact hp, hprog, ?_⟩
      rw [htr, glAfter_append]
      simp only [glAfter, List.foldl_cons]
      exact glAfter_program _ P (fun e he => (hP e he).1)
  · rcases hcases with ⟨-, heq⟩ | ⟨-, htr, -⟩ | ⟨p, P, -, htr, hP, -⟩
    · exact ⟨[], by rw [heq]; simp, by simp⟩
    · exact ⟨[], by rw [htr]; simp, by simp⟩
    · refine ⟨.glUseProgram p.glProgram :: P, htr, ?_⟩
      intro e he
      rcases List.mem_cons.mp he with rfl | h
      · rfl
      · exact (hP e h).2

/-- One iteration of the inner loop keeps the link between `curProgramId` and the bound
program, and its draw call, if any, is issued with the program of the drawable's handle
in the frame context and bound in OpenGL. -/
theorem drawInstance_program (inv : Matrix4d → Matrix4d) (r : SceneRendererES2)
    (scene : Scene) (renderTarget : RenderTarget) (st : FrameState) (c : DrawableContainer)
    (gl : GLState) (hinv : ProgramBound scene gl st)
    (hres : c.drawable.program ≠ EmptyIdentity →
      ∃ p, scene.getProgram c.drawable.program = some p) :
    ∃ evs, (drawInstance inv r scene renderTarget st c).trace = st.trace ++ evs ∧
      (∀ x ∈ drawStates (glAfter gl st.trace) evs, DrawsWithOwnProgram scene x) ∧
      ProgramBound scene gl (drawInstance inv r scene renderTarget st c) := by
  obtain ⟨D, hD, hDe⟩ := depthPolicy_trace r st c
  obtain ⟨hf1, hf2, -⟩ := depthPolicy_fields r st c
  have hinv2 : ProgramBound scene gl (setTransforms inv (depthPolicy r st c) c) :=
    hinv.extend D hD (fun e he => isUseProgram_of_isDepthCall e (hDe e he).1) hf2
      (by show (depthPolicy r st c).baseFrameInfo.program = _; rw [hf1])
  obtain ⟨hinv3, hcur3, P, hP, hPe⟩ := selectProgram_bound r scene
    (setTransforms inv (depthPolicy r st c) c) c gl hinv2 hres
  have hi := issueDraw_spec renderTarget
    (selectProgram r scene (setTransforms inv (depthPolicy r st c) c) c) c
  obtain ⟨hi1, hi2⟩ := issueDraw_fields renderTarget
    (selectProgram r scene (setTransforms inv (depthPolicy r st c) c) c) c
  have htr3 : (selectProgram r scene (setTransforms inv (depthPolicy r st c) c) c).trace =
      st.trace ++ (D ++ P) := by
    rw [hP]
    show (depthPolicy r st c).trace ++ P = _
    rw [hD, List.append_assoc]
  have hDPdraw : ∀ e ∈ D ++ P, e.isDraw = false := by
    intro e he
    rcases List.mem_append.mp he with h | h
    · exact (hDe e h).2.1
    · exact hPe e h
  by_cases hdrawn : drawnInPass renderTarget c = true
  · rw [if_pos hdrawn] at hi
    refine ⟨D ++ P ++
      [.runTweakers c.drawable
          (selectProgram r scene (setTransforms inv (depthPolicy r st c) c) c).baseFrameInfo,
        .draw c.drawable
          (selectProgram r scene (setTransforms inv (depthPolicy r st c) c) c).baseFrameInfo],
      ?_, ?_, ?_⟩
    · show (issueDraw renderTarget _ c).trace = _
      rw [hi.1, htr3, List.append_assoc]
    · intro x hx
      rw [drawStates_append, drawStates_of_no_draw _ _ hDPdraw, List.nil_append,
        ← glAfter_append, ← htr3] at hx
      simp only [drawStates, GLState.apply, List.mem_singleton] at hx
      subst hx
      have hne : c.drawable.program ≠ EmptyIdentity := by
        simp only [drawnInPass, Bool.and_eq_true, decide_eq_true_eq] at hdrawn
        exact hdrawn.1
      obtain ⟨p, h1, h2, h3⟩ := hinv3 (by rw [hcur3]; exact hne)
      rw [hcur3] at h1
      exact ⟨p, h1, h2, h3⟩
    · exact hinv3.extend _ hi.1 (by simp [Event.isUseProgram]) hi2
        (congrArg RendererFrameInfo.program hi1)
  · rw [if_neg hdrawn] at hi
    refine ⟨D ++ P, ?_, ?_, ?_⟩
    · show (issueDraw renderTarget _ c).trace = _
      rw [hi.1, htr3, List.append_nil]
    · intro x hx
      rw [drawStates_of_no_draw _ _ hDPdraw] at hx
      cases hx
    · exact hinv3.extend [] hi.1 (by simp) hi2 (congrArg RendererFrameInfo.program hi1)

/-- The inner loop of a pass keeps the link between `curProgramId` and the bound program,
and issues every draw call with the program of the drawable's handle. -/
theorem drawInstances_program (inv : Matrix4d → Matrix4d) (r : SceneRendererES2)
    (scene : Scene) (renderTarget : RenderTarget) (gl : GLState)
    (drawList : List DrawableContainer) (st : FrameState)
    (hinv : ProgramBound scene gl st)
    (hres : ∀ c ∈ drawList, c.drawable.program ≠ EmptyIdentity →
      ∃ p, scene.getProgram c.drawable.program = some p) :
    ∃ evs, (drawInstances inv r scene renderTarget st drawList).trace = st.trace ++ evs ∧
      (∀ x ∈ drawStates (glAfter gl st.trace) evs, DrawsWithOwnProgram scene x) ∧
      ProgramBound scene gl (drawInstances inv r scene renderTarget st drawList) := by
  induction drawList generalizing st with
  | nil => exact ⟨[], by simp [drawInstances], by simp [drawStates], hinv⟩
  | cons c cs ih =>
    obtain ⟨e1, ht1, hd1, hinv1⟩ := drawInstance_program inv r scene renderTarget st c gl hinv
      (hres c (List.mem_cons_self c cs))
    obtain ⟨e2, ht2, hd2, hinv2⟩ := ih (drawInstance inv r scene renderTarget st c) hinv1
      (fun c' hc' => hres c' (List.mem_cons_of_mem c hc'))
    refine ⟨e1 ++ e2, ?_, ?_, ?_⟩
    · simp only [drawInstances, List.foldl_cons] at ht2 ⊢
      rw [ht2, ht1, List.append_assoc]
    · intro x hx
      rw [drawStates_append] at hx
      rcases List.mem_append.mp hx with h | h
      · exact hd1 x h
      · rw [← glAfter_append, ← ht1] at h
        exact hd2 x h
    · simpa only [drawInstances, List.foldl_cons] using hinv2

/-- One pass keeps the link between `curProgramId` and the bound program, and issues
every draw call with the program of the drawable's handle. -/
theorem targetPass_program (inv : Matrix4d → Matrix4d) (r : SceneRendererES2)
    (scene : Scene) (gl : GLState) (drawList : List DrawableContainer)
    (t : RenderTarget) (st : FrameState) (hinv : ProgramBound scene gl st)
    (hres : ∀ c ∈ drawList, c.drawable.program ≠ EmptyIdentity →
      ∃ p, scene.getProgram c.drawable.program = some p) :
    ∃ evs, (targetPass inv r scene drawList t st).2.trace = st.trace ++ evs ∧
      (∀ x ∈ drawStates (glAfter gl st.trace) evs, DrawsWithOwnProgram scene x) ∧
      ProgramBound scene gl (targetPass inv r scene drawList t st).2 := by
  have hb : ∃ e0, (beginTargetPass r t st).2.trace = st.trace ++ e0 ∧
      (∀ e ∈ e0, e.isUseProgram = false ∧ e.isDraw = false) ∧
      (beginTargetPass r t st).2.curProgramId = st.curProgramId ∧
      (beginTargetPass r t st).2.baseFrameInfo = st.baseFrameInfo := by
    rw [beginTargetPass_eq]
    split_ifs
    · exact ⟨[.setActiveFramebuffer t.id, .glClear], by simp,
        by simp [Event.isUseProgram, Event.isDraw], rfl, rfl⟩
    · exact ⟨[.setActiveFramebuffer t.id], by simp,
        by simp [Event.isUseProgram, Event.isDraw], rfl, rfl⟩
  obtain ⟨e0, ht0, he0, hc0, hf0⟩ := hb
  have hinv0 : ProgramBound scene gl (beginTargetPass r t st).2 :=
    hinv.extend e0 ht0 (fun e he => (he0 e he).1) hc0 (congrArg RendererFrameInfo.program hf0)
  obtain ⟨e1, ht1, hd1, hinv1⟩ := drawInstances_program inv r scene
    (beginTargetPass r t st).1 gl drawList (beginTargetPass r t st).2 hinv0 hres
  refine ⟨e0 ++ e1, ?_, ?_, hinv1⟩
  · show (drawInstances inv r scene (beginTargetPass r t st).1
      (beginTargetPass r t st).2 drawList).trace = _
    rw [ht1, ht0, List.append_assoc]
  · intro x hx
    rw [drawStates_append, drawStates_of_no_draw _ e0 (fun e he => (he0 e he).2),
      List.nil_append, ← glAfter_append, ← ht0] at hx
    exact hd1 x hx

/-- The render-target loop keeps the link between `curProgramId` and the bound program
from one pass to the next, and issues every draw call with the program of the drawable's
handle. -/
theorem targetLoop_program (inv : Matrix4d → Matrix4d) (r : SceneRendererES2)
    (scene : Scene) (gl : GLState) (drawList : List DrawableContainer)
    (targets : List RenderTarget) (st : FrameState) (hinv : ProgramBound scene gl st)
    (hres : ∀ c ∈ drawList, c.drawable.program ≠ EmptyIdentity →
      ∃ p, scene.getProgram c.drawable.program = some p) :
    ∃ evs, (targetLoop inv r scene drawList targets st).2.trace = st.trace ++ evs ∧
      ∀ x ∈ drawStates (glAfter gl st.trace) evs, DrawsWithOwnProgram scene x := by
  induction targets generalizing st with
  | nil => exact ⟨[], by simp [targetLoop], by simp [drawStates]⟩
  | cons t ts ih =>
    obtain ⟨e1, ht1, hd1, hinv1⟩ := targetPass_program inv r scene gl drawList t st hinv hres
    obtain ⟨e2, ht2, hd2⟩ := ih (targetPass inv r scene drawList t st).2 hinv1
    refine ⟨e1 ++ e2, ?_, ?_⟩
    · show (targetLoop inv r scene drawList ts (targetPass inv r scene drawList t st).2).2.trace
        = _
      rw [ht2, ht1, List.append_assoc]
    · intro x hx
      rw [drawStates_append] at hx
      rcases List.mem_append.mp hx with h | h
      · exact hd1 x h
      · rw [← glAfter_append, ← ht1] at h
        exact hd2 x h

/-- Every container of the collected draw list holds a drawable of the scene. -/
theorem mem_collectDrawList_drawable (inv : Matrix4d → Matrix4d)
    (projMat4d viewTrans4d modelTrans4d : Matrix4d) (baseFrameInfo : RendererFrameInfo)
    (offsetMats : List Matrix4d) (rawDrawables : List Drawable) (c : DrawableContainer)
    (h : c ∈ collectDrawList inv projMat4d viewTrans4d modelTrans4d baseFrameInfo offsetMats
      rawDrawables) : c.drawable ∈ rawDrawables := by
  simp only [collectDrawList, collectForOffset, List.mem_flatMap, List.mem_filterMap] at h
  obtain ⟨O, -, d, hd, hc⟩ := h
  split at hc
  · have := Option.some.inj hc
    subst this
    unfold makeContainer
    cases d.localMat <;> exact hd
  · cases hc

/-- The local state at the end of a drawn frame, as in `drawFrame_eq`, for a sort that
returns a rearrangement of its input: the draw list holds drawables of the scene only. -/
theorem drawFrame_eq_members (inv : Matrix4d → Matrix4d)
    (sort : (DrawableContainer → DrawableContainer → Bool) →
      List DrawableContainer → List DrawableContainer)
    (hsort : ∀ comp l, (sort comp l).Perm l)
    (r : SceneRendererES2) (scene : Scene) (theView : View) (trace0 : List Event)
    (targets : List RenderTarget) (st : FrameState)
    (h : drawFrame inv sort r scene theView trace0 = .ok (targets, st)) :
    ∃ (drawList : List DrawableContainer) (st0 st1 : FrameState) (pre : List Event),
      (∀ c ∈ drawList, c.drawable ∈ scene.drawables) ∧
      st0.trace = trace0 ++ frameSetup r.zBufferMode ++ pre ∧
      (∀ e ∈ pre, e.isDepthCall = false ∧ e.isDraw = false) ∧
      calcPass scene r.renderTargets drawList st0 = .ok st1 ∧
      st.trace = (targetLoop inv r scene drawList r.renderTargets
        { st1 with curProgramId := EmptyIdentity }).2.trace ++
        [.glInvalidateFramebuffer, .presentRender, .snapshotCallback] := by
  unfold drawFrame at h
  simp only [] at h
  split at h
  · cases h
  · next st1 hcalc =>
    obtain ⟨evs, ht, hp, -⟩ := activeModels_trace scene.activeModels
      (FrameState.emit
        { baseFrameInfo :=
            buildBaseFrameInfo inv theView scene r.framebufferWidth r.framebufferHeight,
          curProgramId := EmptyIdentity, depthMaskOn := false, numDrawables := 0,
          trace := trace0 ++ frameSetup r.zBufferMode } .preProcessChanges)
    refine ⟨_, _, st1, [.preProcessChanges] ++ evs ++ [.processChanges], ?_, ?_, ?_, hcalc, ?_⟩
    · intro c hc
      exact mem_collectDrawList_drawable _ _ _ _ _ _ _ c ((hsort _ _).subset hc)
    · rw [emit_trace, ht, emit_trace]
      simp only [List.append_assoc]
    · intro e he
      simp only [List.mem_append, List.mem_singleton] at he
      rcases he with (rfl | he) | rfl
      · exact ⟨rfl, rfl⟩
      · exact hp e he
      · exact ⟨rfl, rfl⟩
    · simp only [Except.ok.injEq, Prod.mk.injEq] at h
      rw [← h.2]
      simp

/-- The render setup issues no draw call. -/
theorem frameSetup_no_draw (mode : ZBufferMode) :
    ∀ e ∈ frameSetup mode, e.isDraw = false := by
  cases mode <;> simp [frameSetup, Event.isDraw]

/-- C22. Provided the scene resolves every non-empty program handle of the draw list to a
program: for every draw list and every list of render targets, every draw call issued by
the render-target loop, started with `curProgramId` empty and with whatever program the
calculation pre-pass left bound, is issued with the program of the drawable's own handle
as the frame context's program and as the program bound in OpenGL. The same holds for
every draw call of every call of `render` that returns, for a sort that rearranges its
input and a scene that resolves the non-empty handles of its drawables. -/
theorem draw_calls_use_own_program (inv : Matrix4d → Matrix4d) (scene : Scene)
    (gl : GLState) :
    (∀ (r : SceneRendererES2) (drawList : List DrawableContainer)
        (targets : List RenderTarget) (st : FrameState),
      (∀ c ∈ drawList, c.drawable.program ≠ EmptyIdentity →
        ∃ p, scene.getProgram c.drawable.program = some p) →
      st.curProgramId = EmptyIdentity →
      ∀ x ∈ drawStates (glAfter gl st.trace)
          (eventsSince st (targetLoop inv r scene drawList targets st).2),
        ∃ p, scene.getProgram x.2.1.program = some p ∧ x.2.2.program = some p ∧
          x.1.program = p.glProgram) ∧
    (∀ (sort : (DrawableContainer → DrawableContainer → Bool) →
          List DrawableContainer → List DrawableContainer)
        (now : ℚ) (r r' : SceneRendererES2) (trace : List Event),
      r.scene = some scene → (∀ comp l, (sort comp l).Perm l) →
      (∀ d ∈ scene.drawables, d.program ≠ EmptyIdentity →
        ∃ p, scene.getProgram d.program = some p) →
      render inv sort now r = .ok (r', trace) →
      ∀ x ∈ drawStates gl trace,
        ∃ p, scene.getProgram x.2.1.program = some p ∧ x.2.2.program = some p ∧
          x.1.program = p.glProgram) := by
  constructor
  · intro r drawList targets st hres hcur x hx
    have hinv : ProgramBound scene gl st := fun hne => absurd hcur hne
    obtain ⟨evs, htr, hd⟩ := targetLoop_program inv r scene gl drawList targets st hinv hres
    rw [eventsSince_of_trace_eq htr] at hx
    exact hd x hx
  · intro sort now r r' trace hs hsort hres h x hx
    rcases render_cases inv sort now r r' trace h with hskip | hdraw
    · exfalso
      rcases hskip with rfl | rfl | rfl <;> simp [drawStates] at hx
    · obtain ⟨scene', theView, r1, targets, st, hs', -, -, -, -, -, hdf, rfl⟩ := hdraw
      rw [hs] at hs'
      cases hs'
      obtain ⟨drawList, st0, st1, pre, hmem, ht0, hpre, hcalc, hst⟩ :=
        drawFrame_eq_members inv sort hsort r1 scene theView _ targets st hdf
      obtain ⟨cevs, htc, hcp, -, -⟩ := calcPass_spec scene r1.renderTargets drawList st0 st1 hcalc
      have hinv : ProgramBound scene gl { st1 with curProgramId := EmptyIdentity } :=
        fun hne => absurd rfl hne
      obtain ⟨levs, htl, hd⟩ := targetLoop_program inv r1 scene gl drawList r1.renderTargets
        { st1 with curProgramId := EmptyIdentity } hinv
        (fun c hc => hres c.drawable (hmem c hc))
      have hprefix : ∀ e ∈ st1.trace, e.isDraw = false := by
        intro e he
        rw [htc, ht0] at he
        simp only [List.mem_append, List.mem_singleton] at he
        rcases he with ((rfl | he) | he) | he
        · rfl
        · exact frameSetup_no_draw _ e he
        · exact (hpre e he).2
        · exact (hcp e he).2
      rw [hst, htl] at hx
      change x ∈ drawStates gl (st1.trace ++ levs ++ _) at hx
      rw [drawStates_append, drawStates_append, drawStates_of_no_draw gl st1.trace hprefix,
        List.nil_append] at hx
      rcases List.mem_append.mp hx with h1 | h1
      · exact hd x h1
      · simp [drawStates] at h1

/-- C22 on a frame with render targets 0 and 1 and two drawables: drawable 1 (handle 7,
calculation program 9, target 0) and drawable 2 (handle 9, target 1). The calculation
pre-pass binds GL program 90; in the pass of target 0 drawable 2 is filtered out after
its handle was looked up; each of the two draw calls is issued with the program of its
own handle. -/
theorem draw_calls_use_own_program_witness :
    ∃ r' trace,
      render id stdSort 0
          (exampleRenderer .zBufferOn false
            [exampleDrawable 1 1 false false 9,
              { exampleDrawable 2 2 false false 0 with program := 9, renderTarget := 1 }] [1]
            [exampleTarget 0, exampleTarget 1]) = .ok (r', trace) ∧
        (drawStates exampleGL trace).map (fun x => (x.2.1.ident, x.2.1.program, x.1.program,
          x.2.2.program.map (fun p => p.glProgram))) =
          [(1, 7, 70, some 70), (2, 9, 90, some 90)] ∧
        ∀ x ∈ drawStates exampleGL trace,
          ∃ p, (exampleScene
              [exampleDrawable 1 1 false false 9,
                { exampleDrawable 2 2 false false 0 with program := 9, renderTarget := 1 }]
              ).getProgram x.2.1.program = some p ∧
            x.2.2.program = some p ∧ x.1.program = p.glProgram := by
  refine ⟨_, _, rfl, ?_, ?_⟩
  · decide
  · refine (draw_calls_use_own_program id
      (exampleScene
        [exampleDrawable 1 1 false false 9,
          { exampleDrawable 2 2 false false 0 with program := 9, renderTarget := 1 }])
      exampleGL).2 stdSort 0
      (exampleRenderer .zBufferOn false
        [exampleDrawable 1 1 false false 9,
          { exampleDrawable 2 2 false false 0 with program := 9, renderTarget := 1 }] [1]
        [exampleTarget 0, exampleTarget 1]) _ _ rfl
      (fun _ l => List.perm_insertionSort _ l) ?_ rfl
    intro d hd _
    simp only [exampleScene, List.mem_cons, List.mem_singleton, List.not_mem_nil,
      or_false] at hd
    rcases hd with rfl | rfl
    · exact ⟨_, rfl⟩
    · exact ⟨_, rfl⟩

end WhirlyKit
